import Mathlib

/-!
FreeImage: conversion to 16-bit 555 bitmaps.

A shallow embedding of `Source/FreeImage/Conversion16_555.cpp`: the `RGB555`
packing macro, the six scanline converters and the dispatcher
`FreeImage_ConvertTo16Bits555`, followed by theorems about them.

Conventions of the embedding.

* `uint8_t`, `uint16_t`, `int` and `unsigned` values are natural numbers (or
  integers for the signed `width_in_pixels`); a store into a `uint16_t` slot
  reduces the value modulo `2 ^ 16`.
* A `uint8_t *source` row is a `List Nat` of bytes.  A row that the code only
  ever accesses through a `uint16_t *` cast (`new_bits`, `src_bits`) is a
  `List Nat` of 16-bit words, one element per `uint16_t` slot.
* An access outside a buffer (undefined behaviour in C) makes the embedded
  function return `none`.
* The dispatcher copies the `unsigned` width and height of a bitmap into `int`
  variables; `intOfUnsigned` is that conversion.
-/

namespace FreeImage

/-! ## Constants of `FreeImage.h` and macros of `Utilities.h` -/

/-- Modelled from the spec: `FI16_555_RED_MASK` of `FreeImage.h`, the red mask of the 555 layout. -/
def FI16_555_RED_MASK : Nat := 0x7C00

/-- Modelled from the spec: `FI16_555_GREEN_MASK` of `FreeImage.h`, the green mask of the 555 layout. -/
def FI16_555_GREEN_MASK : Nat := 0x03E0

/-- Modelled from the spec: `FI16_555_BLUE_MASK` of `FreeImage.h`, the blue mask of the 555 layout. -/
def FI16_555_BLUE_MASK : Nat := 0x001F

/-- Modelled from the spec: `FI16_555_RED_SHIFT` of `FreeImage.h`. -/
def FI16_555_RED_SHIFT : Nat := 10

/-- Modelled from the spec: `FI16_555_GREEN_SHIFT` of `FreeImage.h`. -/
def FI16_555_GREEN_SHIFT : Nat := 5

/-- Modelled from the spec: `FI16_555_BLUE_SHIFT` of `FreeImage.h`. -/
def FI16_555_BLUE_SHIFT : Nat := 0

/-- Modelled from the spec: `FI16_565_RED_MASK` of `FreeImage.h`, the red mask of the 565 layout. -/
def FI16_565_RED_MASK : Nat := 0xF800

/-- Modelled from the spec: `FI16_565_GREEN_MASK` of `FreeImage.h`, the green mask of the 565 layout. -/
def FI16_565_GREEN_MASK : Nat := 0x07E0

/-- Modelled from the spec: `FI16_565_BLUE_MASK` of `FreeImage.h`, the blue mask of the 565 layout. -/
def FI16_565_BLUE_MASK : Nat := 0x001F

/-- Modelled from the spec: `FI16_565_RED_SHIFT` of `FreeImage.h`. -/
def FI16_565_RED_SHIFT : Nat := 11

/-- Modelled from the spec: `FI16_565_GREEN_SHIFT` of `FreeImage.h`. -/
def FI16_565_GREEN_SHIFT : Nat := 5

/-- Modelled from the spec: `FI16_565_BLUE_SHIFT` of `FreeImage.h`. -/
def FI16_565_BLUE_SHIFT : Nat := 0

/-- Modelled from the spec: the macro `HINIBBLE` of `Utilities.h`, which keeps the
high nibble of a byte in place (the caller shifts it down by 4). -/
def HINIBBLE (byte : Nat) : Nat := byte &&& 0xF0

/-- Modelled from the spec: the macro `LOWNIBBLE` of `Utilities.h`, the low nibble of a byte. -/
def LOWNIBBLE (byte : Nat) : Nat := byte &&& 0x0F

/-- The byte offsets `FI_RGBA_RED`, `FI_RGBA_GREEN`, `FI_RGBA_BLUE` of `FreeImage.h`
inside a direct-colour pixel.  Their values depend on the colour order the
library is built for, so the converters take them as a parameter. -/
structure ColorOrder where
  FI_RGBA_RED : Nat
  FI_RGBA_GREEN : Nat
  FI_RGBA_BLUE : Nat
deriving DecidableEq, Repr

/-- The blue-green-red byte order (`FREEIMAGE_COLORORDER_BGR`). -/
def ColorOrder.bgr : ColorOrder := ⟨2, 1, 0⟩

/-- The red-green-blue byte order (`FREEIMAGE_COLORORDER_RGB`). -/
def ColorOrder.rgb : ColorOrder := ⟨0, 1, 2⟩

/-- The colour bytes are the first three bytes of a pixel (the fourth byte of a
32-bit pixel is alpha). -/
def ColorOrder.InPixel (o : ColorOrder) : Prop :=
  o.FI_RGBA_RED < 3 ∧ o.FI_RGBA_GREEN < 3 ∧ o.FI_RGBA_BLUE < 3

instance (o : ColorOrder) : Decidable o.InPixel := by
  unfold ColorOrder.InPixel; infer_instance

/-- A palette entry `FIRGBA8`: four `uint8_t` channels. -/
structure FIRGBA8 where
  red : Nat
  green : Nat
  blue : Nat
  alpha : Nat
deriving DecidableEq, Repr

/-- The channels of a palette entry are `uint8_t` values. -/
def FIRGBA8.Valid (e : FIRGBA8) : Prop :=
  e.red < 256 ∧ e.green < 256 ∧ e.blue < 256 ∧ e.alpha < 256

instance (e : FIRGBA8) : Decidable e.Valid := by
  unfold FIRGBA8.Valid; infer_instance

/-- Every element of a byte buffer is a `uint8_t` value. -/
def Bytes (row : List Nat) : Prop := ∀ v ∈ row, v < 256

instance (row : List Nat) : Decidable (Bytes row) := by
  unfold Bytes; infer_instance

/-- Every entry of a palette is a valid `FIRGBA8`. -/
def ValidPalette (palette : List FIRGBA8) : Prop := ∀ e ∈ palette, e.Valid

instance (palette : List FIRGBA8) : Decidable (ValidPalette palette) := by
  unfold ValidPalette; infer_instance

/-! ## The packing macro -/

/-- The macro `RGB555(b, g, r)`. -/
def RGB555 (b g r : Nat) : Nat :=
  ((b >>> 3) <<< FI16_555_BLUE_SHIFT) ||| ((g >>> 3) <<< FI16_555_GREEN_SHIFT) |||
    ((r >>> 3) <<< FI16_555_RED_SHIFT)

/-! ## Scanline converters -/

/-- The assignment `new_bits[cols] = v` through a `uint16_t *`: the value is
converted to `uint16_t`; `none` when `cols` is outside the buffer. -/
def storeWord (new_bits : List Nat) (cols v : Nat) : Option (List Nat) :=
  if cols < new_bits.length then some (new_bits.set cols (v % 65536)) else none

/-- The loop `for (int cols = 0; cols < width_in_pixels; cols++) { ... }` shared by
the converters, with `n` iterations left.  One iteration runs `step` on the
column and the loop-carried variables, which yields the word to store and the
new loop-carried variables, and stores the word at `new_bits[cols]`. -/
def lineLoop {α : Type} (step : Nat → α → Option (Nat × α)) :
    Nat → Nat → α → List Nat → Option (List Nat)
  | 0, _, _, new_bits => some new_bits
  | n + 1, cols, a, new_bits =>
    match step cols a with
    | none => none
    | some (v, a') =>
      match storeWord new_bits cols v with
      | none => none
      | some new_bits' => lineLoop step n (cols + 1) a' new_bits'

/-- The palette index computed by `FreeImage_ConvertLine1To16_555` at column `cols`:
`(source[cols >> 3] & (0x80 >> (cols & 0x07))) != 0 ? 1 : 0`. -/
def ConvertLine1Index (source : List Nat) (cols : Nat) : Option Nat :=
  match source[cols >>> 3]? with
  | none => none
  | some byte => some (if byte &&& (0x80 >>> (cols &&& 0x07)) ≠ 0 then 1 else 0)

/-- The word `RGB555(palette[index].blue, palette[index].green, palette[index].red)`. -/
def paletteWord (palette : List FIRGBA8) (index : Nat) : Option Nat :=
  match palette[index]? with
  | none => none
  | some e => some (RGB555 e.blue e.green e.red)

/-- `FreeImage_ConvertLine1To16_555(target, source, width_in_pixels, palette)`;
the result is the target row after the call. -/
def FreeImage_ConvertLine1To16_555 (target source : List Nat) (width_in_pixels : Int)
    (palette : List FIRGBA8) : Option (List Nat) :=
  lineLoop
    (fun cols (_ : Unit) =>
      match ConvertLine1Index source cols with
      | none => none
      | some index =>
        match paletteWord palette index with
        | none => none
        | some w => some (w, ()))
    width_in_pixels.toNat 0 () target

/-- The palette index computed by one iteration of `FreeImage_ConvertLine4To16_555`
from the loop-carried `lonibble` and `x`, with the value of `x` after the
iteration (`source[x++]` on the low nibble). -/
def ConvertLine4Index (source : List Nat) (lonibble : Bool) (x : Nat) : Option (Nat × Nat) :=
  if lonibble then
    match source[x]? with
    | none => none
    | some byte => some (LOWNIBBLE byte, x + 1)
  else
    match source[x]? with
    | none => none
    | some byte => some (HINIBBLE byte >>> 4, x)

/-- `FreeImage_ConvertLine4To16_555(target, source, width_in_pixels, palette)`.
The loop-carried variables are `(lonibble, x)`, initially `(FALSE, 0)`. -/
def FreeImage_ConvertLine4To16_555 (target source : List Nat) (width_in_pixels : Int)
    (palette : List FIRGBA8) : Option (List Nat) :=
  lineLoop
    (fun (_ : Nat) (st : Bool × Nat) =>
      match ConvertLine4Index source st.1 st.2 with
      | none => none
      | some (index, x') =>
        match paletteWord palette index with
        | none => none
        | some w => some (w, (!st.1, x')))
    width_in_pixels.toNat 0 (false, 0) target

/-- `FreeImage_ConvertLine8To16_555(target, source, width_in_pixels, palette)`:
the palette index is `source[cols]`. -/
def FreeImage_ConvertLine8To16_555 (target source : List Nat) (width_in_pixels : Int)
    (palette : List FIRGBA8) : Option (List Nat) :=
  lineLoop
    (fun cols (_ : Unit) =>
      match source[cols]? with
      | none => none
      | some index =>
        match paletteWord palette index with
        | none => none
        | some w => some (w, ()))
    width_in_pixels.toNat 0 () target

/-- The word computed by `FreeImage_ConvertLine16_565_To16_555` from the source
word `p = src_bits[cols]`. -/
def Convert565Word (p : Nat) : Nat :=
  RGB555 ((((p &&& FI16_565_BLUE_MASK) >>> FI16_565_BLUE_SHIFT) * 0xFF) / 0x1F)
    ((((p &&& FI16_565_GREEN_MASK) >>> FI16_565_GREEN_SHIFT) * 0xFF) / 0x3F)
    ((((p &&& FI16_565_RED_MASK) >>> FI16_565_RED_SHIFT) * 0xFF) / 0x1F)

/-- `FreeImage_ConvertLine16_565_To16_555(target, source, width_in_pixels)`; the
source row is the `uint16_t` view `src_bits`. -/
def FreeImage_ConvertLine16_565_To16_555 (target src_bits : List Nat) (width_in_pixels : Int) :
    Option (List Nat) :=
  lineLoop
    (fun cols (_ : Unit) =>
      match src_bits[cols]? with
      | none => none
      | some p => some (Convert565Word p, ()))
    width_in_pixels.toNat 0 () target

/-- The word `RGB555(source[FI_RGBA_BLUE], source[FI_RGBA_GREEN], source[FI_RGBA_RED])`
read through the pointer `source`, which stands `pos` bytes into the row. -/
def directWord (o : ColorOrder) (source : List Nat) (pos : Nat) : Option Nat :=
  match source[pos + o.FI_RGBA_BLUE]?, source[pos + o.FI_RGBA_GREEN]?,
    source[pos + o.FI_RGBA_RED]? with
  | some b, some g, some r => some (RGB555 b g r)
  | _, _, _ => none

/-- `FreeImage_ConvertLine24To16_555(target, source, width_in_pixels)`.  The
loop-carried variable is the offset of the moving pointer `source`, advanced by
`source += 3`. -/
def FreeImage_ConvertLine24To16_555 (o : ColorOrder) (target source : List Nat)
    (width_in_pixels : Int) : Option (List Nat) :=
  lineLoop
    (fun (_ : Nat) (pos : Nat) =>
      match directWord o source pos with
      | none => none
      | some w => some (w, pos + 3))
    width_in_pixels.toNat 0 0 target

/-- `FreeImage_ConvertLine32To16_555(target, source, width_in_pixels)`.  The
loop-carried variable is the offset of the moving pointer `source`, advanced by
`source += 4`. -/
def FreeImage_ConvertLine32To16_555 (o : ColorOrder) (target source : List Nat)
    (width_in_pixels : Int) : Option (List Nat) :=
  lineLoop
    (fun (_ : Nat) (pos : Nat) =>
      match directWord o source pos with
      | none => none
      | some w => some (w, pos + 4))
    width_in_pixels.toNat 0 0 target

/-! ## The bitmap abstraction

`FreeImage_ConvertTo16Bits555` reaches bitmaps only through accessor functions
of the library that are not part of `Conversion16_555.cpp`.  They are modelled
here on a record of the data they expose. -/

/-- Modelled from the spec: the image type `FREE_IMAGE_TYPE` of `FreeImage.h`.
`FIT_BITMAP` is the standard raster bitmap; the other members of the enumeration
are not told apart by this file and are kept as `other code`. -/
inductive FREE_IMAGE_TYPE where
  | FIT_BITMAP
  | other (code : Nat)
deriving DecidableEq, Repr

/-- Modelled from the spec: a bitmap `FIBITMAP` as the accessors show it.  Width,
height and bit depth are the `unsigned` values of `FreeImage_GetWidth`,
`FreeImage_GetHeight` and `FreeImage_GetBPP`.  `scanlines[r]` is the row `FreeImage_GetScanLine(dib, r)`:
a list of bytes, except in a 16-bit bitmap, whose rows are only ever accessed
through `uint16_t *` and are lists of 16-bit words. -/
structure FIBITMAP where
  has_pixels : Bool
  image_type : FREE_IMAGE_TYPE
  width : Nat
  height : Nat
  bpp : Nat
  red_mask : Nat
  green_mask : Nat
  blue_mask : Nat
  palette : List FIRGBA8
  scanlines : List (List Nat)
  metadata : List Nat
deriving DecidableEq, Repr

/-- Modelled from the spec: `FreeImage_HasPixels`. -/
def FreeImage_HasPixels (dib : FIBITMAP) : Bool := dib.has_pixels

/-- Modelled from the spec: `FreeImage_GetImageType`. -/
def FreeImage_GetImageType (dib : FIBITMAP) : FREE_IMAGE_TYPE := dib.image_type

/-- Modelled from the spec: `FreeImage_GetWidth`. -/
def FreeImage_GetWidth (dib : FIBITMAP) : Nat := dib.width

/-- Modelled from the spec: `FreeImage_GetHeight`. -/
def FreeImage_GetHeight (dib : FIBITMAP) : Nat := dib.height

/-- Modelled from the spec: `FreeImage_GetBPP`. -/
def FreeImage_GetBPP (dib : FIBITMAP) : Nat := dib.bpp

/-- Modelled from the spec: `FreeImage_GetRedMask`. -/
def FreeImage_GetRedMask (dib : FIBITMAP) : Nat := dib.red_mask

/-- Modelled from the spec: `FreeImage_GetGreenMask`. -/
def FreeImage_GetGreenMask (dib : FIBITMAP) : Nat := dib.green_mask

/-- Modelled from the spec: `FreeImage_GetBlueMask`. -/
def FreeImage_GetBlueMask (dib : FIBITMAP) : Nat := dib.blue_mask

/-- Modelled from the spec: `FreeImage_GetPalette`. -/
def FreeImage_GetPalette (dib : FIBITMAP) : List FIRGBA8 := dib.palette

/-- Modelled from the spec: `FreeImage_GetScanLine(dib, rows)`, the row a converter
reads or writes; `none` when the bitmap has no such row. -/
def FreeImage_GetScanLine (dib : FIBITMAP) (rows : Nat) : Option (List Nat) :=
  dib.scanlines[rows]?

/-- The bitmap after a converter has written `out` through the pointer
`FreeImage_GetScanLine(dib, rows)`. -/
def FIBITMAP.setScanLine (dib : FIBITMAP) (rows : Nat) (out : List Nat) : FIBITMAP :=
  { dib with scanlines := dib.scanlines.set rows out }

/-- Modelled from the spec: `FreeImage_Allocate(width, height, bpp, red_mask,
green_mask, blue_mask)`.  It fails (returns `NULL`, here `none`) when memory
cannot be obtained, which the flag `alloc_ok` decides; otherwise it returns a
new standard bitmap of the requested dimensions, depth and masks, with zeroed
pixels, no palette and no metadata.  Negative dimensions are taken by absolute
value.  This file only allocates 16-bit bitmaps, whose rows hold `width` words. -/
def FreeImage_Allocate (alloc_ok : Bool) (width height : Int)
    (bpp red_mask green_mask blue_mask : Nat) : Option FIBITMAP :=
  if alloc_ok then
    some
      { has_pixels := true
        image_type := FREE_IMAGE_TYPE.FIT_BITMAP
        width := width.natAbs
        height := height.natAbs
        bpp := bpp
        red_mask := red_mask
        green_mask := green_mask
        blue_mask := blue_mask
        palette := []
        scanlines := List.replicate height.natAbs (List.replicate width.natAbs 0)
        metadata := [] }
  else none

/-- Modelled from the spec: `FreeImage_Clone(dib)`, a direct duplicate of the
bitmap, or `NULL` when memory cannot be obtained. -/
def FreeImage_Clone (alloc_ok : Bool) (dib : FIBITMAP) : Option FIBITMAP :=
  if alloc_ok then some dib else none

/-- Modelled from the spec: `FreeImage_CloneMetadata(dst, src)`, which copies the
metadata of `src` to `dst`; the result is `dst` after the call. -/
def FreeImage_CloneMetadata (dst src : FIBITMAP) : FIBITMAP :=
  { dst with metadata := src.metadata }

/-- What a call did to the heap: it asked for a new bitmap (and got one or not),
asked for a clone, or released a bitmap with `FreeImage_Unload`. -/
inductive HeapEvent where
  | allocate (ok : Bool)
  | clone (ok : Bool)
  | unload
deriving DecidableEq, Repr

/-- The outcome of `FreeImage_ConvertTo16Bits555`: the returned pointer (`none` is
`NULL`) and the heap operations performed, in order. -/
structure Outcome where
  result : Option FIBITMAP
  heap : List HeapEvent
deriving DecidableEq, Repr

/-! ## The dispatcher -/

/-- The loop `for (int rows = 0; rows < height; rows++) { line(FreeImage_GetScanLine(new_dib,
rows), FreeImage_GetScanLine(dib, rows), ...); }` with `n` iterations left; `line`
is the scanline converter with its width and palette arguments filled in. -/
def rowLoop (line : List Nat → List Nat → Option (List Nat)) (dib : FIBITMAP) :
    Nat → Nat → FIBITMAP → Option FIBITMAP
  | 0, _, new_dib => some new_dib
  | n + 1, rows, new_dib =>
    match FreeImage_GetScanLine new_dib rows, FreeImage_GetScanLine dib rows with
    | some target, some source =>
      match line target source with
      | none => none
      | some out => rowLoop line dib n (rows + 1) (new_dib.setScanLine rows out)
    | _, _ => none

/-- The test of the 16-bit branch: the masks of the bitmap are the 565 masks. -/
def has565Masks (dib : FIBITMAP) : Bool :=
  FreeImage_GetRedMask dib == FI16_565_RED_MASK &&
    FreeImage_GetGreenMask dib == FI16_565_GREEN_MASK &&
    FreeImage_GetBlueMask dib == FI16_565_BLUE_MASK

/-- The conversion of an `unsigned` value to `int`, as in
`const int width = FreeImage_GetWidth(dib)`: the 32-bit pattern is kept, so a
value from `2 ^ 31 = 2147483648` on becomes negative (`4294967296` is `2 ^ 32`). -/
def intOfUnsigned (u : Nat) : Int :=
  if u % 4294967296 < 2147483648 then ((u % 4294967296 : Nat) : Int)
  else ((u % 4294967296 : Nat) : Int) - 4294967296

/-- `FreeImage_ConvertTo16Bits555(dib)`.  The flag `alloc_ok` tells whether the one
allocation of the call (`FreeImage_Allocate` or `FreeImage_Clone`) succeeds.  The
result is `none` when a scanline converter accesses memory outside a row.
`width` and `height` are the `const int` copies of the `unsigned` width and
height of the bitmap.  The depth is only compared with 16, 1, 4, 8, 24 and 32,
which the conversion to `int` keeps apart from every other `unsigned` value, so
it is compared as it is. -/
def FreeImage_ConvertTo16Bits555 (o : ColorOrder) (alloc_ok : Bool) (dib : FIBITMAP) :
    Option Outcome :=
  if !FreeImage_HasPixels dib || FreeImage_GetImageType dib != FREE_IMAGE_TYPE.FIT_BITMAP then
    some ⟨none, []⟩
  else
    let width : Int := intOfUnsigned (FreeImage_GetWidth dib)
    let height : Int := intOfUnsigned (FreeImage_GetHeight dib)
    let bpp := FreeImage_GetBPP dib
    if bpp = 16 then
      if has565Masks dib then
        match FreeImage_Allocate alloc_ok width height 16 FI16_555_RED_MASK FI16_555_GREEN_MASK
          FI16_555_BLUE_MASK with
        | none => some ⟨none, [HeapEvent.allocate false]⟩
        | some new_dib =>
          match rowLoop (fun target source =>
              FreeImage_ConvertLine16_565_To16_555 target source width) dib
              height.toNat 0 new_dib with
          | none => none
          | some new_dib =>
            some ⟨some (FreeImage_CloneMetadata new_dib dib), [HeapEvent.allocate true]⟩
      else
        some ⟨FreeImage_Clone alloc_ok dib, [HeapEvent.clone alloc_ok]⟩
    else
      match FreeImage_Allocate alloc_ok width height 16 FI16_555_RED_MASK FI16_555_GREEN_MASK
        FI16_555_BLUE_MASK with
      | none => some ⟨none, [HeapEvent.allocate false]⟩
      | some new_dib =>
        let new_dib := FreeImage_CloneMetadata new_dib dib
        let converted (line : List Nat → List Nat → Option (List Nat)) : Option Outcome :=
          match rowLoop line dib height.toNat 0 new_dib with
          | none => none
          | some new_dib => some ⟨some new_dib, [HeapEvent.allocate true]⟩
        match bpp with
        | 1 =>
          converted (fun target source =>
            FreeImage_ConvertLine1To16_555 target source width (FreeImage_GetPalette dib))
        | 4 =>
          converted (fun target source =>
            FreeImage_ConvertLine4To16_555 target source width (FreeImage_GetPalette dib))
        | 8 =>
          converted (fun target source =>
            FreeImage_ConvertLine8To16_555 target source width (FreeImage_GetPalette dib))
        | 24 =>
          converted (fun target source => FreeImage_ConvertLine24To16_555 o target source width)
        | 32 =>
          converted (fun target source => FreeImage_ConvertLine32To16_555 o target source width)
        | _ => some ⟨none, [HeapEvent.allocate true, HeapEvent.unload]⟩

/-! ## Closed forms of the stored words

The word each converter stores at column `col`, written as a function of the
column alone (no loop-carried variables).  The theorems relate the loops above
to these. -/

/-- The word stored at column `col` by the 1-bit converter. -/
def line1Word (source : List Nat) (palette : List FIRGBA8) (col : Nat) : Option Nat :=
  match ConvertLine1Index source col with
  | none => none
  | some index => paletteWord palette index

/-- The word stored at column `col` by the 4-bit converter: the high nibble of
byte `col / 2` for an even column, its low nibble for an odd one. -/
def line4Word (source : List Nat) (palette : List FIRGBA8) (col : Nat) : Option Nat :=
  match source[col / 2]? with
  | none => none
  | some byte =>
    paletteWord palette (if col % 2 = 0 then HINIBBLE byte >>> 4 else LOWNIBBLE byte)

/-- The word stored at column `col` by the 8-bit converter. -/
def line8Word (source : List Nat) (palette : List FIRGBA8) (col : Nat) : Option Nat :=
  match source[col]? with
  | none => none
  | some index => paletteWord palette index

/-- The word stored at column `col` by the 565 converter. -/
def line565Word (src_bits : List Nat) (col : Nat) : Option Nat :=
  match src_bits[col]? with
  | none => none
  | some p => some (Convert565Word p)

/-- The row obtained from a 32-bit row by deleting the fourth byte of every
4-byte pixel. -/
def dropAlpha : List Nat → List Nat
  | b0 :: b1 :: b2 :: _ :: rest => b0 :: b1 :: b2 :: dropAlpha rest
  | row => row

/-- Every word of the first `width_in_pixels` columns of `out` is a 555 word: bit
15 is clear. -/
def Row555 (width_in_pixels : Int) (out : List Nat) : Prop :=
  ∀ col : Nat, (col : Int) < width_in_pixels →
    ∃ w, out[col]? = some w ∧ w &&& 0x8000 = 0 ∧ w ≤ 0x7FFF

/-! ## Sample data -/

/-- A two-entry palette: a dark colour and white. -/
def samplePalette2 : List FIRGBA8 := [⟨8, 16, 24, 0⟩, ⟨255, 255, 255, 0⟩]

/-- A grey ramp with `n` entries, entry `i` having all colour channels equal to `i`. -/
def greyPalette (n : Nat) : List FIRGBA8 := (List.range n).map (fun i => ⟨i, i, i, 0⟩)

/-- A 16-bit bitmap of one pixel whose masks are those of a 4-4-4 layout, neither
565 nor 555. -/
def sample444 : FIBITMAP :=
  { has_pixels := true
    image_type := FREE_IMAGE_TYPE.FIT_BITMAP
    width := 1
    height := 1
    bpp := 16
    red_mask := 0x0F00
    green_mask := 0x00F0
    blue_mask := 0x000F
    palette := []
    scanlines := [[0x0FFF]]
    metadata := [] }

/-- A 24-bit bitmap of two rows of two pixels. -/
def sample24 : FIBITMAP :=
  { has_pixels := true
    image_type := FREE_IMAGE_TYPE.FIT_BITMAP
    width := 2
    height := 2
    bpp := 24
    red_mask := 0xFF0000
    green_mask := 0x00FF00
    blue_mask := 0x0000FF
    palette := []
    scanlines := [[50, 100, 200, 255, 255, 255, 0, 0], [0, 0, 0, 8, 8, 8, 0, 0]]
    metadata := [7] }

/-- A 16-bit 565 bitmap of one row of two pixels. -/
def sample565 : FIBITMAP :=
  { has_pixels := true
    image_type := FREE_IMAGE_TYPE.FIT_BITMAP
    width := 2
    height := 1
    bpp := 16
    red_mask := 0xF800
    green_mask := 0x07E0
    blue_mask := 0x001F
    palette := []
    scanlines := [[0xFFFF, 0x07E0]]
    metadata := [] }

/-- The 555 bitmap that `sample24` converts to in blue-green-red byte order. -/
def sample24Converted : FIBITMAP :=
  { has_pixels := true
    image_type := FREE_IMAGE_TYPE.FIT_BITMAP
    width := 2
    height := 2
    bpp := 16
    red_mask := 0x7C00
    green_mask := 0x03E0
    blue_mask := 0x001F
    palette := []
    scanlines := [[0x6586, 0x7FFF], [0, 0x0421]]
    metadata := [7] }

/-- The 555 bitmap that `sample565` converts to. -/
def sample565Converted : FIBITMAP :=
  { has_pixels := true
    image_type := FREE_IMAGE_TYPE.FIT_BITMAP
    width := 2
    height := 1
    bpp := 16
    red_mask := 0x7C00
    green_mask := 0x03E0
    blue_mask := 0x001F
    palette := []
    scanlines := [[0x7FFF, 0x03E0]]
    metadata := [] }

/-- The packed word of a palette entry, `RGB555(X.blue, X.green, X.red)`. -/
def packed (X : FIRGBA8) : Nat := RGB555 X.blue X.green X.red

/-- The number of bytes of a packed row of `width` pixels at `bpp` bits per pixel,
`ceil(width * bpp / 8)`. -/
def minRowBytes (bpp width : Nat) : Nat := (width * bpp + 7) / 8

/-- The frame of a scanline converter: the returned row has the length of the
target and agrees with it at every position from `width_in_pixels` on. -/
def Frame (width_in_pixels : Int) (target out : List Nat) : Prop :=
  out.length = target.length ∧ ∀ j : Nat, width_in_pixels.toNat ≤ j → out[j]? = target[j]?

/-- A converter run that wrote exactly the first `width_in_pixels` words: every
column below the width lies in the target and holds the word `px col` (as a
`uint16_t`), and the rest of the row is the frame. -/
def WritesExactly (px : Nat → Option Nat) (width_in_pixels : Int) (target out : List Nat) :
    Prop :=
  (∀ col : Nat, (col : Int) < width_in_pixels →
    col < target.length ∧ ∃ v, px col = some v ∧ out[col]? = some (v % 65536)) ∧
  Frame width_in_pixels target out

/-- Every scanline of the destination `d` is the output of the converter `line` on
the freshly allocated row (`width` zero words) and the source scanline of the
same number, and `d` has as many scanlines as the source has rows. -/
def RowsConverted (line : List Nat → List Nat → Option (List Nat)) (dib d : FIBITMAP) : Prop :=
  d.scanlines.length = dib.height ∧
  ∀ r, r < dib.height →
    ∃ source out, dib.scanlines[r]? = some source ∧
      line (List.replicate dib.width 0) source = some out ∧ d.scanlines[r]? = some out

/-- The buffers of a source bitmap are as large as its header says: it has `height`
scanlines, each of at least `ceil(width * bpp / 8)` bytes (`width` words in a
16-bit bitmap), and a palette of `2 ^ bpp` entries when `bpp ≤ 8`. -/
def SourceOK (dib : FIBITMAP) : Prop :=
  dib.scanlines.length = dib.height ∧
  (∀ row ∈ dib.scanlines,
    (dib.bpp = 16 → dib.width ≤ row.length) ∧
    (dib.bpp ≠ 16 → minRowBytes dib.bpp dib.width ≤ row.length ∧ Bytes row)) ∧
  (dib.bpp ≤ 8 → 2 ^ dib.bpp ≤ dib.palette.length)

instance (dib : FIBITMAP) : Decidable (SourceOK dib) := by
  unfold SourceOK; infer_instance

/-- A 4-bit bitmap of two rows of three pixels with the 16-entry grey ramp. -/
def sample4 : FIBITMAP :=
  { has_pixels := true
    image_type := FREE_IMAGE_TYPE.FIT_BITMAP
    width := 3
    height := 2
    bpp := 4
    red_mask := 0
    green_mask := 0
    blue_mask := 0
    palette := greyPalette 16
    scanlines := [[0x3F, 0x80, 0, 0], [0xF8, 0x00, 0, 0]]
    metadata := [] }

/-- The 555 bitmap that `sample4` converts to. -/
def sample4Converted : FIBITMAP :=
  { has_pixels := true
    image_type := FREE_IMAGE_TYPE.FIT_BITMAP
    width := 3
    height := 2
    bpp := 16
    red_mask := 0x7C00
    green_mask := 0x03E0
    blue_mask := 0x001F
    palette := []
    scanlines := [[0, 0x0421, 0x0421], [0x0421, 0x0421, 0]]
    metadata := [] }

/-- A 16-bit bitmap of one row of two pixels with the 555 masks. -/
def sample555 : FIBITMAP :=
  { has_pixels := true
    image_type := FREE_IMAGE_TYPE.FIT_BITMAP
    width := 2
    height := 1
    bpp := 16
    red_mask := 0x7C00
    green_mask := 0x03E0
    blue_mask := 0x001F
    palette := []
    scanlines := [[0x7FFF, 0x1234]]
    metadata := [3] }

/-- A bitmap with pixels, of type `FIT_BITMAP`, of the unsupported depth 2. -/
def sampleDepth2 : FIBITMAP :=
  { has_pixels := true
    image_type := FREE_IMAGE_TYPE.FIT_BITMAP
    width := 4
    height := 1
    bpp := 2
    red_mask := 0
    green_mask := 0
    blue_mask := 0
    palette := greyPalette 4
    scanlines := [[0x1B, 0, 0, 0]]
    metadata := [] }

/-- A 24-bit bitmap one pixel wide and `2 ^ 32 - 1` rows high, every row a white
pixel (three colour bytes and one byte of padding). -/
def sampleTall : FIBITMAP :=
  { has_pixels := true
    image_type := FREE_IMAGE_TYPE.FIT_BITMAP
    width := 1
    height := 4294967295
    bpp := 24
    red_mask := 0xFF0000
    green_mask := 0x00FF00
    blue_mask := 0x0000FF
    palette := []
    scanlines := List.replicate 4294967295 [255, 255, 255, 0]
    metadata := [] }

/-- A 24-bit bitmap `2 ^ 32 - 1` pixels wide and one row high, all bytes zero. -/
def sampleWide : FIBITMAP :=
  { has_pixels := true
    image_type := FREE_IMAGE_TYPE.FIT_BITMAP
    width := 4294967295
    height := 1
    bpp := 24
    red_mask := 0xFF0000
    green_mask := 0x00FF00
    blue_mask := 0x0000FF
    palette := []
    scanlines := [List.replicate 12884901888 0]
    metadata := [] }

/-- The bitmap that `sampleTall` and `sampleWide` convert to: one pixel, never
written by a converter. -/
def sampleOnePixel : FIBITMAP :=
  { has_pixels := true
    image_type := FREE_IMAGE_TYPE.FIT_BITMAP
    width := 1
    height := 1
    bpp := 16
    red_mask := 0x7C00
    green_mask := 0x03E0
    blue_mask := 0x001F
    palette := []
    scanlines := [[0]]
    metadata := [] }

/-! ## Arithmetic of the packing macro -/

theorem shiftRight_and (a b s : Nat) : (a &&& b) >>> s = (a >>> s) &&& (b >>> s) := by
  apply Nat.eq_of_testBit_eq
  intro i
  simp [Nat.testBit_shiftRight, Nat.testBit_and]

theorem and_two_pow_of_lt (x n : Nat) (h : x < 2 ^ n) : x &&& 2 ^ n = 0 := by
  apply Nat.eq_of_testBit_eq
  intro i
  by_cases hi : n = i
  · subst hi
    simp [Nat.testBit_and, Nat.testBit_lt_two_pow h]
  · simp [Nat.testBit_and, Nat.testBit_two_pow_of_ne hi]

/-- The packed word as a sum: the three fields do not overlap. -/
theorem RGB555_eq (b g r : Nat) (hb : b < 256) (hg : g < 256) :
    RGB555 b g r = 1024 * (r / 8) + 32 * (g / 8) + b / 8 := by
  have h1 := Nat.mul_add_lt_is_or (i := 5) (b := b / 8) (by omega) (g / 8)
  have h2 := Nat.mul_add_lt_is_or (i := 10) (b := 2 ^ 5 * (g / 8) + b / 8) (by omega) (r / 8)
  simp only [RGB555, FI16_555_BLUE_SHIFT, FI16_555_GREEN_SHIFT, FI16_555_RED_SHIFT,
    Nat.shiftLeft_eq, Nat.shiftRight_eq_div_pow]
  rw [Nat.or_comm (b / 2 ^ 3 * 2 ^ 0), Nat.or_comm _ (r / 2 ^ 3 * 2 ^ 10)]
  have e1 : b / 2 ^ 3 * 2 ^ 0 = b / 8 := by norm_num
  have e2 : g / 2 ^ 3 * 2 ^ 5 = 2 ^ 5 * (g / 8) := by norm_num [Nat.mul_comm]
  have e3 : r / 2 ^ 3 * 2 ^ 10 = 2 ^ 10 * (r / 8) := by norm_num [Nat.mul_comm]
  rw [e1, e2, e3, ← h1, ← h2]
  omega

/-- The expression of the packed word with the red field written first. -/
theorem redFirst_eq (b g r : Nat) (hb : b < 256) (hg : g < 256) :
    ((r >>> 3) <<< 10) ||| ((g >>> 3) <<< 5) ||| (b >>> 3) =
      1024 * (r / 8) + 32 * (g / 8) + b / 8 := by
  have h1 := Nat.mul_add_lt_is_or (i := 5) (b := b / 8) (by omega) (g / 8)
  have h2 := Nat.mul_add_lt_is_or (i := 10) (b := 2 ^ 5 * (g / 8) + b / 8) (by omega) (r / 8)
  simp only [Nat.shiftLeft_eq, Nat.shiftRight_eq_div_pow]
  have e1 : b / 2 ^ 3 = b / 8 := by norm_num
  have e2 : g / 2 ^ 3 * 2 ^ 5 = 2 ^ 5 * (g / 8) := by norm_num [Nat.mul_comm]
  have e3 : r / 2 ^ 3 * 2 ^ 10 = 2 ^ 10 * (r / 8) := by norm_num [Nat.mul_comm]
  rw [e1, e2, e3, Nat.or_assoc, ← h1, ← h2]
  omega

/-- Extraction of a field with a mask and a shift, as division and remainder. -/
theorem mask_shift (w mask shift k : Nat) (h : mask >>> shift = 2 ^ k - 1) :
    (w &&& mask) >>> shift = w / 2 ^ shift % 2 ^ k := by
  rw [shiftRight_and, h, Nat.and_pow_two_sub_one_eq_mod, Nat.shiftRight_eq_div_pow]

theorem RGB555_lt (b g r : Nat) (hb : b < 256) (hg : g < 256) (hr : r < 256) :
    RGB555 b g r < 32768 := by
  rw [RGB555_eq b g r hb hg]; omega

/-- C1: for channel values in 0..255 the word `RGB555(b, g, r)` equals
`((r >> 3) << 10) | ((g >> 3) << 5) | (b >> 3)`; its red field (mask 0x7C00,
shift 10) is `r >> 3`, its green field (mask 0x03E0, shift 5) is `g >> 3`, its
blue field (mask 0x001F, shift 0) is `b >> 3`, and bit 15 is zero. -/
theorem RGB555_fields (b g r : Nat) (hb : b < 256) (hg : g < 256) (hr : r < 256) :
    RGB555 b g r = (((r >>> 3) <<< 10) ||| ((g >>> 3) <<< 5) ||| (b >>> 3)) ∧
    (RGB555 b g r &&& FI16_555_RED_MASK) >>> FI16_555_RED_SHIFT = r >>> 3 ∧
    (RGB555 b g r &&& FI16_555_GREEN_MASK) >>> FI16_555_GREEN_SHIFT = g >>> 3 ∧
    (RGB555 b g r &&& FI16_555_BLUE_MASK) >>> FI16_555_BLUE_SHIFT = b >>> 3 ∧
    RGB555 b g r &&& 0x8000 = 0 ∧
    RGB555 b g r &&& (FI16_555_RED_MASK ||| FI16_555_GREEN_MASK ||| FI16_555_BLUE_MASK) =
      RGB555 b g r := by
  have hw := RGB555_eq b g r hb hg
  have hlt := RGB555_lt b g r hb hg hr
  refine ⟨?_, ?_, ?_, ?_, ?_, ?_⟩
  · rw [hw, redFirst_eq b g r hb hg]
  · rw [mask_shift _ _ _ 5 (by decide), hw, Nat.shiftRight_eq_div_pow]
    simp only [FI16_555_RED_SHIFT]; omega
  · rw [mask_shift _ _ _ 5 (by decide), hw, Nat.shiftRight_eq_div_pow]
    simp only [FI16_555_GREEN_SHIFT]; omega
  · rw [mask_shift _ _ _ 5 (by decide), hw, Nat.shiftRight_eq_div_pow]
    simp only [FI16_555_BLUE_SHIFT]; omega
  · exact and_two_pow_of_lt _ 15 hlt
  · have : (FI16_555_RED_MASK ||| FI16_555_GREEN_MASK ||| FI16_555_BLUE_MASK) = 2 ^ 15 - 1 := by
      decide
    rw [this]
    exact Nat.and_pow_two_sub_one_of_lt_two_pow hlt

/-- C1 at the channels (b, g, r) = (50, 100, 200). -/
theorem RGB555_fields_witness :
    RGB555 50 100 200 = (((200 >>> 3) <<< 10) ||| ((100 >>> 3) <<< 5) ||| (50 >>> 3)) ∧
    (RGB555 50 100 200 &&& FI16_555_RED_MASK) >>> FI16_555_RED_SHIFT = 200 >>> 3 ∧
    (RGB555 50 100 200 &&& FI16_555_GREEN_MASK) >>> FI16_555_GREEN_SHIFT = 100 >>> 3 ∧
    (RGB555 50 100 200 &&& FI16_555_BLUE_MASK) >>> FI16_555_BLUE_SHIFT = 50 >>> 3 ∧
    RGB555 50 100 200 &&& 0x8000 = 0 ∧
    RGB555 50 100 200 &&& (FI16_555_RED_MASK ||| FI16_555_GREEN_MASK ||| FI16_555_BLUE_MASK) =
      RGB555 50 100 200 :=
  RGB555_fields 50 100 200 (by decide) (by decide) (by decide)

/-! ## The scanline loop -/

theorem storeWord_eq_some (new_bits : List Nat) (cols v : Nat) (out : List Nat) :
    storeWord new_bits cols v = some out ↔
      cols < new_bits.length ∧ out = new_bits.set cols (v % 65536) := by
  unfold storeWord
  split <;> simp_all [eq_comm]

/-- Soundness of the scanline loop.  When every iteration, started in loop-carried
variables satisfying `A`, stores the word `px cols` and re-establishes `A`, a
run of `n` iterations from column `c` keeps the length of the row, puts
`px j` (as a `uint16_t`) at every column `c ≤ j < c + n` and leaves all other
columns as they were. -/
theorem lineLoop_sound {α : Type} (step : Nat → α → Option (Nat × α)) (px : Nat → Option Nat)
    (A : Nat → α → Prop)
    (hstep : ∀ c a, A c a → ∃ a', A (c + 1) a' ∧ step c a = (px c).map (fun v => (v, a'))) :
    ∀ (n c : Nat) (a : α) (new_bits out : List Nat), A c a →
      lineLoop step n c a new_bits = some out →
      out.length = new_bits.length ∧
      (∀ j, c ≤ j → j < c + n → j < new_bits.length ∧
        ∃ v, px j = some v ∧ out[j]? = some (v % 65536)) ∧
      (∀ j, j < c ∨ c + n ≤ j → out[j]? = new_bits[j]?) := by
  intro n
  induction n with
  | zero =>
    intro c a new_bits out _ h
    simp only [lineLoop, Option.some.injEq] at h
    subst h
    exact ⟨rfl, fun j h1 h2 => by omega, fun _ _ => rfl⟩
  | succ n ih =>
    intro c a new_bits out hA h
    obtain ⟨a', hA', hs⟩ := hstep c a hA
    unfold lineLoop at h
    rw [hs] at h
    cases hp : px c with
    | none => simp [hp] at h
    | some v =>
      simp only [hp, Option.map_some'] at h
      cases hw : storeWord new_bits c v with
      | none => simp [hw] at h
      | some nb' =>
        simp only [hw] at h
        obtain ⟨hc, rfl⟩ := (storeWord_eq_some _ _ _ _).1 hw
        obtain ⟨hl, hin, hout⟩ := ih (c + 1) a' _ out hA' h
        refine ⟨by simpa using hl, ?_, ?_⟩
        · intro j h1 h2
          by_cases hj : j = c
          · subst hj
            refine ⟨hc, v, hp, ?_⟩
            rw [hout j (Or.inl (by omega))]
            simp [hc]
          · obtain ⟨h3, h4⟩ := hin j (by omega) (by omega)
            exact ⟨by simpa using h3, h4⟩
        · intro j hj
          rw [hout j (by omega)]
          exact List.getElem?_set_ne (by omega)

/-- Totality of the scanline loop: it returns a row when the target has room for
the columns `c ≤ j < c + n` and `px` is defined on them. -/
theorem lineLoop_total {α : Type} (step : Nat → α → Option (Nat × α)) (px : Nat → Option Nat)
    (A : Nat → α → Prop)
    (hstep : ∀ c a, A c a → ∃ a', A (c + 1) a' ∧ step c a = (px c).map (fun v => (v, a'))) :
    ∀ (n c : Nat) (a : α) (new_bits : List Nat), A c a → c + n ≤ new_bits.length →
      (∀ j, c ≤ j → j < c + n → (px j).isSome) →
      ∃ out, lineLoop step n c a new_bits = some out := by
  intro n
  induction n with
  | zero => intro c a new_bits _ _ _; exact ⟨new_bits, rfl⟩
  | succ n ih =>
    intro c a new_bits hA hlen hpx
    obtain ⟨a', hA', hs⟩ := hstep c a hA
    obtain ⟨v, hv⟩ := Option.isSome_iff_exists.1 (hpx c (Nat.le_refl c) (by omega))
    have hw : storeWord new_bits c v = some (new_bits.set c (v % 65536)) :=
      (storeWord_eq_some _ _ _ _).2 ⟨by omega, rfl⟩
    obtain ⟨out, ho⟩ := ih (c + 1) a' (new_bits.set c (v % 65536)) hA'
      (by simp; omega) (fun j h1 h2 => hpx j (by omega) (by omega))
    refine ⟨out, ?_⟩
    unfold lineLoop
    rw [hs, hv]
    simp only [Option.map_some', hw]
    exact ho

/-- The scanline loop run from column 0 for `width_in_pixels` columns. -/
theorem lineLoop_run {α : Type} (step : Nat → α → Option (Nat × α)) (px : Nat → Option Nat)
    (A : Nat → α → Prop)
    (hstep : ∀ c a, A c a → ∃ a', A (c + 1) a' ∧ step c a = (px c).map (fun v => (v, a')))
    (a0 : α) (hA0 : A 0 a0) (target : List Nat) (width_in_pixels : Int) :
    (∀ out, lineLoop step width_in_pixels.toNat 0 a0 target = some out →
      out.length = target.length ∧
      (∀ col : Nat, (col : Int) < width_in_pixels → col < target.length ∧
        ∃ v, px col = some v ∧ out[col]? = some (v % 65536)) ∧
      (∀ j, width_in_pixels.toNat ≤ j → out[j]? = target[j]?)) ∧
    (width_in_pixels.toNat ≤ target.length →
      (∀ col : Nat, (col : Int) < width_in_pixels → (px col).isSome) →
      ∃ out, lineLoop step width_in_pixels.toNat 0 a0 target = some out) := by
  constructor
  · intro out h
    obtain ⟨h1, h2, h3⟩ := lineLoop_sound step px A hstep _ 0 a0 target out hA0 h
    refine ⟨h1, ?_, ?_⟩
    · intro col hcol
      exact h2 col (Nat.zero_le _) (by have := Int.lt_toNat.2 hcol; omega)
    · intro j hj
      exact h3 j (Or.inr (by omega))
  · intro hlen hpx
    exact lineLoop_total step px A hstep _ 0 a0 target hA0 (by omega)
      (fun j _ hj => hpx j (Int.lt_toNat.1 (by omega)))

/-- Two scanline loops that store the same words give the same row. -/
theorem lineLoop_congr {α β : Type} (step₁ : Nat → α → Option (Nat × α))
    (step₂ : Nat → β → Option (Nat × β)) (px : Nat → Option Nat)
    (A : Nat → α → Prop) (B : Nat → β → Prop)
    (h₁ : ∀ c a, A c a → ∃ a', A (c + 1) a' ∧ step₁ c a = (px c).map (fun v => (v, a')))
    (h₂ : ∀ c b, B c b → ∃ b', B (c + 1) b' ∧ step₂ c b = (px c).map (fun v => (v, b'))) :
    ∀ (n c : Nat) (a : α) (b : β) (new_bits : List Nat), A c a → B c b →
      lineLoop step₁ n c a new_bits = lineLoop step₂ n c b new_bits := by
  intro n
  induction n with
  | zero => intro c a b new_bits _ _; rfl
  | succ n ih =>
    intro c a b new_bits hA hB
    obtain ⟨a', hA', hs₁⟩ := h₁ c a hA
    obtain ⟨b', hB', hs₂⟩ := h₂ c b hB
    unfold lineLoop
    rw [hs₁, hs₂]
    cases px c with
    | none => rfl
    | some v =>
      simp only [Option.map_some']
      cases storeWord new_bits c v with
      | none => rfl
      | some nb' => exact ih (c + 1) a' b' nb' hA' hB'

/-! ## The steps of the six converters -/

theorem line1_step (source : List Nat) (palette : List FIRGBA8) (c : Nat) (_ : Unit) :
    True → ∃ a' : Unit, True ∧
      (match ConvertLine1Index source c with
        | none => none
        | some index =>
          match paletteWord palette index with
          | none => none
          | some w => some (w, ())) =
        (line1Word source palette c).map (fun v => (v, a')) := by
  intro _
  refine ⟨(), trivial, ?_⟩
  unfold line1Word
  cases ConvertLine1Index source c with
  | none => rfl
  | some index => cases h : paletteWord palette index <;> simp [h]

theorem line4_step (source : List Nat) (palette : List FIRGBA8) (c : Nat) (st : Bool × Nat) :
    (st.1 = decide (c % 2 = 1) ∧ st.2 = c / 2) →
    ∃ st' : Bool × Nat, (st'.1 = decide ((c + 1) % 2 = 1) ∧ st'.2 = (c + 1) / 2) ∧
      (match ConvertLine4Index source st.1 st.2 with
        | none => none
        | some (index, x') =>
          match paletteWord palette index with
          | none => none
          | some w => some (w, (!st.1, x'))) =
        (line4Word source palette c).map (fun v => (v, st')) := by
  obtain ⟨lonibble, x⟩ := st
  rintro ⟨h1, h2⟩
  simp only at h1 h2
  subst h2
  refine ⟨(!lonibble, if lonibble then c / 2 + 1 else c / 2), ⟨?_, ?_⟩, ?_⟩
  · subst h1
    by_cases hc : c % 2 = 1
    · have : ¬ (c + 1) % 2 = 1 := by omega
      simp [hc, this]
    · have : (c + 1) % 2 = 1 := by omega
      simp [hc, this]
  · subst h1
    by_cases hc : c % 2 = 1
    · simp only [hc, decide_True, if_true]; omega
    · simp only [hc, decide_False, Bool.false_eq_true, if_false]; omega
  · unfold line4Word ConvertLine4Index
    by_cases hc : c % 2 = 1
    · have hl : lonibble = true := by simp [h1, hc]
      have h0 : ¬ c % 2 = 0 := by omega
      subst hl
      simp only [if_true, h0, if_false]
      cases source[c / 2]? with
      | none => rfl
      | some byte => cases h : paletteWord palette (LOWNIBBLE byte) <;> simp [h]
    · have hl : lonibble = false := by simp [h1, hc]
      have h0 : c % 2 = 0 := by omega
      subst hl
      simp only [Bool.false_eq_true, if_false, h0, if_true]
      cases source[c / 2]? with
      | none => rfl
      | some byte => cases h : paletteWord palette (HINIBBLE byte >>> 4) <;> simp [h]

theorem line8_step (source : List Nat) (palette : List FIRGBA8) (c : Nat) (_ : Unit) :
    True → ∃ a' : Unit, True ∧
      (match source[c]? with
        | none => none
        | some index =>
          match paletteWord palette index with
          | none => none
          | some w => some (w, ())) =
        (line8Word source palette c).map (fun v => (v, a')) := by
  intro _
  refine ⟨(), trivial, ?_⟩
  unfold line8Word
  cases source[c]? with
  | none => rfl
  | some index => cases h : paletteWord palette index <;> simp [h]

theorem line565_step (src_bits : List Nat) (c : Nat) (_ : Unit) :
    True → ∃ a' : Unit, True ∧
      (match src_bits[c]? with
        | none => none
        | some p => some (Convert565Word p, ())) =
        (line565Word src_bits c).map (fun v => (v, a')) := by
  intro _
  refine ⟨(), trivial, ?_⟩
  unfold line565Word
  cases src_bits[c]? <;> rfl

theorem direct_step (o : ColorOrder) (source : List Nat) (stride c pos : Nat) :
    pos = stride * c → ∃ pos' : Nat, pos' = stride * (c + 1) ∧
      (match directWord o source pos with
        | none => none
        | some w => some (w, pos + stride)) =
        (directWord o source (stride * c)).map (fun v => (v, pos')) := by
  intro h
  subst h
  refine ⟨stride * c + stride, by ring, ?_⟩
  cases directWord o source (stride * c) <;> rfl

/-! ## The converters as runs of the scanline loop -/

theorem ConvertLine1_run (target source : List Nat) (width_in_pixels : Int)
    (palette : List FIRGBA8) :
    (∀ out, FreeImage_ConvertLine1To16_555 target source width_in_pixels palette = some out →
      out.length = target.length ∧
      (∀ col : Nat, (col : Int) < width_in_pixels → col < target.length ∧
        ∃ v, line1Word source palette col = some v ∧ out[col]? = some (v % 65536)) ∧
      (∀ j, width_in_pixels.toNat ≤ j → out[j]? = target[j]?)) ∧
    (width_in_pixels.toNat ≤ target.length →
      (∀ col : Nat, (col : Int) < width_in_pixels → (line1Word source palette col).isSome) →
      ∃ out, FreeImage_ConvertLine1To16_555 target source width_in_pixels palette = some out) :=
  lineLoop_run _ (line1Word source palette) (fun _ _ => True)
    (fun c a => line1_step source palette c a) () trivial target width_in_pixels

theorem ConvertLine4_run (target source : List Nat) (width_in_pixels : Int)
    (palette : List FIRGBA8) :
    (∀ out, FreeImage_ConvertLine4To16_555 target source width_in_pixels palette = some out →
      out.length = target.length ∧
      (∀ col : Nat, (col : Int) < width_in_pixels → col < target.length ∧
        ∃ v, line4Word source palette col = some v ∧ out[col]? = some (v % 65536)) ∧
      (∀ j, width_in_pixels.toNat ≤ j → out[j]? = target[j]?)) ∧
    (width_in_pixels.toNat ≤ target.length →
      (∀ col : Nat, (col : Int) < width_in_pixels → (line4Word source palette col).isSome) →
      ∃ out, FreeImage_ConvertLine4To16_555 target source width_in_pixels palette = some out) :=
  lineLoop_run _ (line4Word source palette)
    (fun c st => st.1 = decide (c % 2 = 1) ∧ st.2 = c / 2)
    (fun c st => line4_step source palette c st) (false, 0) (by simp) target width_in_pixels

theorem ConvertLine8_run (target source : List Nat) (width_in_pixels : Int)
    (palette : List FIRGBA8) :
    (∀ out, FreeImage_ConvertLine8To16_555 target source width_in_pixels palette = some out →
      out.length = target.length ∧
      (∀ col : Nat, (col : Int) < width_in_pixels → col < target.length ∧
        ∃ v, line8Word source palette col = some v ∧ out[col]? = some (v % 65536)) ∧
      (∀ j, width_in_pixels.toNat ≤ j → out[j]? = target[j]?)) ∧
    (width_in_pixels.toNat ≤ target.length →
      (∀ col : Nat, (col : Int) < width_in_pixels → (line8Word source palette col).isSome) →
      ∃ out, FreeImage_ConvertLine8To16_555 target source width_in_pixels palette = some out) :=
  lineLoop_run _ (line8Word source palette) (fun _ _ => True)
    (fun c a => line8_step source palette c a) () trivial target width_in_pixels

theorem ConvertLine565_run (target src_bits : List Nat) (width_in_pixels : Int) :
    (∀ out, FreeImage_ConvertLine16_565_To16_555 target src_bits width_in_pixels = some out →
      out.length = target.length ∧
      (∀ col : Nat, (col : Int) < width_in_pixels → col < target.length ∧
        ∃ v, line565Word src_bits col = some v ∧ out[col]? = some (v % 65536)) ∧
      (∀ j, width_in_pixels.toNat ≤ j → out[j]? = target[j]?)) ∧
    (width_in_pixels.toNat ≤ target.length →
      (∀ col : Nat, (col : Int) < width_in_pixels → (line565Word src_bits col).isSome) →
      ∃ out, FreeImage_ConvertLine16_565_To16_555 target src_bits width_in_pixels = some out) :=
  lineLoop_run _ (line565Word src_bits) (fun _ _ => True)
    (fun c a => line565_step src_bits c a) () trivial target width_in_pixels

theorem ConvertLine24_run (o : ColorOrder) (target source : List Nat) (width_in_pixels : Int) :
    (∀ out, FreeImage_ConvertLine24To16_555 o target source width_in_pixels = some out →
      out.length = target.length ∧
      (∀ col : Nat, (col : Int) < width_in_pixels → col < target.length ∧
        ∃ v, directWord o source (3 * col) = some v ∧ out[col]? = some (v % 65536)) ∧
      (∀ j, width_in_pixels.toNat ≤ j → out[j]? = target[j]?)) ∧
    (width_in_pixels.toNat ≤ target.length →
      (∀ col : Nat, (col : Int) < width_in_pixels → (directWord o source (3 * col)).isSome) →
      ∃ out, FreeImage_ConvertLine24To16_555 o target source width_in_pixels = some out) :=
  lineLoop_run _ (fun col => directWord o source (3 * col)) (fun c pos => pos = 3 * c)
    (fun c pos => direct_step o source 3 c pos) 0 rfl target width_in_pixels

theorem ConvertLine32_run (o : ColorOrder) (target source : List Nat) (width_in_pixels : Int) :
    (∀ out, FreeImage_ConvertLine32To16_555 o target source width_in_pixels = some out →
      out.length = target.length ∧
      (∀ col : Nat, (col : Int) < width_in_pixels → col < target.length ∧
        ∃ v, directWord o source (4 * col) = some v ∧ out[col]? = some (v % 65536)) ∧
      (∀ j, width_in_pixels.toNat ≤ j → out[j]? = target[j]?)) ∧
    (width_in_pixels.toNat ≤ target.length →
      (∀ col : Nat, (col : Int) < width_in_pixels → (directWord o source (4 * col)).isSome) →
      ∃ out, FreeImage_ConvertLine32To16_555 o target source width_in_pixels = some out) :=
  lineLoop_run _ (fun col => directWord o source (4 * col)) (fun c pos => pos = 4 * c)
    (fun c pos => direct_step o source 4 c pos) 0 rfl target width_in_pixels

/-! ## The stored words -/

theorem paletteWord_of_lt (palette : List FIRGBA8) (hV : ValidPalette palette) (i : Nat)
    (hi : i < palette.length) :
    ∃ e, palette[i]? = some e ∧
      paletteWord palette i = some (RGB555 e.blue e.green e.red) ∧
      RGB555 e.blue e.green e.red < 32768 := by
  refine ⟨palette[i], List.getElem?_eq_getElem hi, ?_, ?_⟩
  · simp [paletteWord, List.getElem?_eq_getElem hi]
  · obtain ⟨hr, hg, hb, _⟩ := hV _ (List.getElem_mem hi)
    exact RGB555_lt _ _ _ hb hg hr

theorem paletteWord_lt (palette : List FIRGBA8) (hV : ValidPalette palette) (i v : Nat)
    (h : paletteWord palette i = some v) : v < 32768 := by
  unfold paletteWord at h
  cases he : palette[i]? with
  | none => simp [he] at h
  | some e =>
    simp only [he, Option.some.injEq] at h
    subst h
    obtain ⟨hr, hg, hb, _⟩ := hV _ (List.getElem?_mem he)
    exact RGB555_lt _ _ _ hb hg hr

theorem directWord_lt (o : ColorOrder) (source : List Nat) (hB : Bytes source) (pos v : Nat)
    (h : directWord o source pos = some v) : v < 32768 := by
  unfold directWord at h
  split at h
  · next b g r hb hg hr =>
    simp only [Option.some.injEq] at h
    subst h
    exact RGB555_lt _ _ _ (hB _ (List.getElem?_mem hb)) (hB _ (List.getElem?_mem hg))
      (hB _ (List.getElem?_mem hr))
  · simp at h

theorem channel5_le (v : Nat) (h : v ≤ 31) : v * 0xFF / 0x1F ≤ 255 := by omega

theorem channel6_le (v : Nat) (h : v ≤ 63) : v * 0xFF / 0x3F ≤ 255 := by omega

theorem blue565_le (p : Nat) : (p &&& FI16_565_BLUE_MASK) >>> FI16_565_BLUE_SHIFT ≤ 31 := by
  rw [mask_shift _ _ _ 5 (by decide)]
  have := Nat.mod_lt (p / 2 ^ FI16_565_BLUE_SHIFT) (show 0 < 2 ^ 5 by norm_num)
  omega

theorem green565_le (p : Nat) : (p &&& FI16_565_GREEN_MASK) >>> FI16_565_GREEN_SHIFT ≤ 63 := by
  rw [mask_shift _ _ _ 6 (by decide)]
  have := Nat.mod_lt (p / 2 ^ FI16_565_GREEN_SHIFT) (show 0 < 2 ^ 6 by norm_num)
  omega

theorem red565_le (p : Nat) : (p &&& FI16_565_RED_MASK) >>> FI16_565_RED_SHIFT ≤ 31 := by
  rw [mask_shift _ _ _ 5 (by decide)]
  have := Nat.mod_lt (p / 2 ^ FI16_565_RED_SHIFT) (show 0 < 2 ^ 5 by norm_num)
  omega

theorem Convert565Word_lt (p : Nat) : Convert565Word p < 32768 := by
  unfold Convert565Word
  apply RGB555_lt
  · have := channel5_le _ (blue565_le p); omega
  · have := channel6_le _ (green565_le p); omega
  · have := channel5_le _ (red565_le p); omega

theorem bitMask_eq (k : Nat) (hk : k < 8) : 0x80 >>> k = 2 ^ (7 - k) := by
  interval_cases k <;> rfl

/-- The index of the 1-bit converter is bit `7 - cols % 8` of byte `cols / 8`. -/
theorem ConvertLine1Index_eq (source : List Nat) (cols : Nat) :
    ConvertLine1Index source cols =
      (source[cols / 8]?).map (fun byte => (byte >>> (7 - cols % 8)) &&& 1) := by
  have h3 : cols >>> 3 = cols / 8 := Nat.shiftRight_eq_div_pow cols 3
  have h7 : cols &&& 0x07 = cols % 8 := Nat.and_pow_two_sub_one_eq_mod cols 3
  unfold ConvertLine1Index
  rw [h3, h7, bitMask_eq _ (Nat.mod_lt _ (by norm_num))]
  cases source[cols / 8]? with
  | none => rfl
  | some byte =>
    simp only [Option.map_some', Option.some.injEq]
    rw [Nat.and_two_pow, Nat.and_one_is_mod, Nat.shiftRight_eq_div_pow, Nat.testBit_to_div_mod]
    have h2 := Nat.mod_two_eq_zero_or_one (byte / 2 ^ (7 - cols % 8))
    rcases h2 with h2 | h2
    · simp [h2]
    · simp [h2]

theorem ConvertLine1Index_le (source : List Nat) (cols index : Nat)
    (h : ConvertLine1Index source cols = some index) : index ≤ 1 := by
  unfold ConvertLine1Index at h
  cases hb : source[cols >>> 3]? with
  | none => simp [hb] at h
  | some byte =>
    simp only [hb, Option.some.injEq] at h
    subst h
    split <;> omega

/-- A run of a converter on buffers that are large enough: when the target has
room for `width_in_pixels` words and the word `px col` is defined and fits 16
bits at every column, the converter returns a row of the same length that holds
exactly `px col` at every column below the width and the old contents above. -/
theorem run_exact (conv : Option (List Nat)) (px : Nat → Option Nat) (target : List Nat)
    (width_in_pixels : Int)
    (hrun : (∀ out, conv = some out →
      out.length = target.length ∧
      (∀ col : Nat, (col : Int) < width_in_pixels → col < target.length ∧
        ∃ v, px col = some v ∧ out[col]? = some (v % 65536)) ∧
      (∀ j, width_in_pixels.toNat ≤ j → out[j]? = target[j]?)) ∧
    (width_in_pixels.toNat ≤ target.length →
      (∀ col : Nat, (col : Int) < width_in_pixels → (px col).isSome) →
      ∃ out, conv = some out))
    (hT : width_in_pixels.toNat ≤ target.length)
    (hpx : ∀ col : Nat, (col : Int) < width_in_pixels → ∃ w, px col = some w ∧ w < 65536) :
    ∃ out, conv = some out ∧ out.length = target.length ∧
      (∀ col : Nat, (col : Int) < width_in_pixels → ∀ w, px col = some w → out[col]? = some w) ∧
      (∀ j, width_in_pixels.toNat ≤ j → out[j]? = target[j]?) := by
  obtain ⟨hsound, htotal⟩ := hrun
  obtain ⟨out, hout⟩ := htotal hT (fun col hcol => by
    obtain ⟨w, hw, _⟩ := hpx col hcol
    simp [hw])
  obtain ⟨hl, hin, hrest⟩ := hsound out hout
  refine ⟨out, hout, hl, ?_, hrest⟩
  intro col hcol w hw
  obtain ⟨w', hw', hlt⟩ := hpx col hcol
  obtain ⟨_, v, hv, ho⟩ := hin col hcol
  rw [hw] at hw' hv
  simp only [Option.some.injEq] at hw' hv
  subst hw' hv
  rw [ho, Nat.mod_eq_of_lt hlt]

/-- The 1-bit converter on buffers that are large enough. -/
theorem ConvertLine1_spec (target source : List Nat) (width_in_pixels : Int)
    (palette : List FIRGBA8) (hT : width_in_pixels.toNat ≤ target.length)
    (hS : (width_in_pixels.toNat + 7) / 8 ≤ source.length) (hP : 2 ≤ palette.length)
    (hV : ValidPalette palette) :
    ∃ out, FreeImage_ConvertLine1To16_555 target source width_in_pixels palette = some out ∧
      out.length = target.length ∧
      (∀ col : Nat, (col : Int) < width_in_pixels →
        ∃ byte e, source[col / 8]? = some byte ∧
          palette[(byte >>> (7 - col % 8)) &&& 1]? = some e ∧
          out[col]? = some (RGB555 e.blue e.green e.red)) ∧
      (∀ j, width_in_pixels.toNat ≤ j → out[j]? = target[j]?) := by
  have key : ∀ col : Nat, (col : Int) < width_in_pixels →
      ∃ byte e, source[col / 8]? = some byte ∧
        palette[(byte >>> (7 - col % 8)) &&& 1]? = some e ∧
        line1Word source palette col = some (RGB555 e.blue e.green e.red) ∧
        RGB555 e.blue e.green e.red < 32768 := by
    intro col hcol
    have hc := Int.lt_toNat.2 hcol
    have hb : col / 8 < source.length := by omega
    have hi : (source[col / 8] >>> (7 - col % 8)) &&& 1 < palette.length := by
      rw [Nat.and_one_is_mod]; omega
    obtain ⟨e, he, hw, hlt⟩ := paletteWord_of_lt palette hV _ hi
    refine ⟨source[col / 8], e, List.getElem?_eq_getElem hb, he, ?_, hlt⟩
    unfold line1Word
    rw [ConvertLine1Index_eq, List.getElem?_eq_getElem hb]
    simpa using hw
  obtain ⟨out, hout, hl, hin, hrest⟩ := run_exact _ (line1Word source palette) target
    width_in_pixels (ConvertLine1_run target source width_in_pixels palette) hT
    (fun col hcol => by
      obtain ⟨_, e, _, _, h, hlt⟩ := key col hcol
      exact ⟨_, h, by omega⟩)
  refine ⟨out, hout, hl, ?_, hrest⟩
  intro col hcol
  obtain ⟨byte, e, h1, h2, h3, _⟩ := key col hcol
  exact ⟨byte, e, h1, h2, hin col hcol _ h3⟩

theorem nibbles_eq (byte : Nat) (hb : byte < 256) :
    HINIBBLE byte >>> 4 = byte / 16 ∧ LOWNIBBLE byte = byte % 16 := by
  constructor
  · unfold HINIBBLE
    rw [mask_shift _ _ _ 4 (by decide)]
    omega
  · exact Nat.and_pow_two_sub_one_eq_mod byte 4

/-- The 4-bit converter on buffers that are large enough. -/
theorem ConvertLine4_spec (target source : List Nat) (width_in_pixels : Int)
    (palette : List FIRGBA8) (hT : width_in_pixels.toNat ≤ target.length)
    (hS : (width_in_pixels.toNat + 1) / 2 ≤ source.length) (hB : Bytes source)
    (hP : 16 ≤ palette.length) (hV : ValidPalette palette) :
    ∃ out, FreeImage_ConvertLine4To16_555 target source width_in_pixels palette = some out ∧
      out.length = target.length ∧
      (∀ col : Nat, (col : Int) < width_in_pixels →
        ∃ byte e, source[col / 2]? = some byte ∧
          palette[if col % 2 = 0 then byte / 16 else byte % 16]? = some e ∧
          out[col]? = some (RGB555 e.blue e.green e.red)) ∧
      (∀ j, width_in_pixels.toNat ≤ j → out[j]? = target[j]?) := by
  have key : ∀ col : Nat, (col : Int) < width_in_pixels →
      ∃ byte e, source[col / 2]? = some byte ∧
        palette[if col % 2 = 0 then byte / 16 else byte % 16]? = some e ∧
        line4Word source palette col = some (RGB555 e.blue e.green e.red) ∧
        RGB555 e.blue e.green e.red < 32768 := by
    intro col hcol
    have hc := Int.lt_toNat.2 hcol
    have hb : col / 2 < source.length := by omega
    have hlt : source[col / 2] < 256 := hB _ (List.getElem_mem hb)
    have hi : (if col % 2 = 0 then source[col / 2] / 16 else source[col / 2] % 16) <
        palette.length := by
      split <;> omega
    obtain ⟨e, he, hw, hlt'⟩ := paletteWord_of_lt palette hV _ hi
    refine ⟨source[col / 2], e, List.getElem?_eq_getElem hb, he, ?_, hlt'⟩
    unfold line4Word
    rw [List.getElem?_eq_getElem hb]
    simp only [(nibbles_eq _ hlt).1, (nibbles_eq _ hlt).2]
    exact hw
  obtain ⟨out, hout, hl, hin, hrest⟩ := run_exact _ (line4Word source palette) target
    width_in_pixels (ConvertLine4_run target source width_in_pixels palette) hT
    (fun col hcol => by
      obtain ⟨_, e, _, _, h, hlt⟩ := key col hcol
      exact ⟨_, h, by omega⟩)
  refine ⟨out, hout, hl, ?_, hrest⟩
  intro col hcol
  obtain ⟨byte, e, h1, h2, h3, _⟩ := key col hcol
  exact ⟨byte, e, h1, h2, hin col hcol _ h3⟩

/-- The 8-bit converter on buffers that are large enough. -/
theorem ConvertLine8_spec (target source : List Nat) (width_in_pixels : Int)
    (palette : List FIRGBA8) (hT : width_in_pixels.toNat ≤ target.length)
    (hS : width_in_pixels.toNat ≤ source.length) (hB : Bytes source)
    (hP : 256 ≤ palette.length) (hV : ValidPalette palette) :
    ∃ out, FreeImage_ConvertLine8To16_555 target source width_in_pixels palette = some out ∧
      out.length = target.length ∧
      (∀ col : Nat, (col : Int) < width_in_pixels →
        ∃ byte e, source[col]? = some byte ∧ palette[byte]? = some e ∧
          out[col]? = some (RGB555 e.blue e.green e.red)) ∧
      (∀ j, width_in_pixels.toNat ≤ j → out[j]? = target[j]?) := by
  have key : ∀ col : Nat, (col : Int) < width_in_pixels →
      ∃ byte e, source[col]? = some byte ∧ palette[byte]? = some e ∧
        line8Word source palette col = some (RGB555 e.blue e.green e.red) ∧
        RGB555 e.blue e.green e.red < 32768 := by
    intro col hcol
    have hc := Int.lt_toNat.2 hcol
    have hb : col < source.length := by omega
    have hlt : source[col] < 256 := hB _ (List.getElem_mem hb)
    obtain ⟨e, he, hw, hlt'⟩ := paletteWord_of_lt palette hV source[col] (by omega)
    refine ⟨source[col], e, List.getElem?_eq_getElem hb, he, ?_, hlt'⟩
    unfold line8Word
    rw [List.getElem?_eq_getElem hb]
    exact hw
  obtain ⟨out, hout, hl, hin, hrest⟩ := run_exact _ (line8Word source palette) target
    width_in_pixels (ConvertLine8_run target source width_in_pixels palette) hT
    (fun col hcol => by
      obtain ⟨_, e, _, _, h, hlt⟩ := key col hcol
      exact ⟨_, h, by omega⟩)
  refine ⟨out, hout, hl, ?_, hrest⟩
  intro col hcol
  obtain ⟨byte, e, h1, h2, h3, _⟩ := key col hcol
  exact ⟨byte, e, h1, h2, hin col hcol _ h3⟩

/-- The 565 converter on buffers that are large enough. -/
theorem ConvertLine565_spec (target src_bits : List Nat) (width_in_pixels : Int)
    (hT : width_in_pixels.toNat ≤ target.length)
    (hS : width_in_pixels.toNat ≤ src_bits.length) :
    ∃ out, FreeImage_ConvertLine16_565_To16_555 target src_bits width_in_pixels = some out ∧
      out.length = target.length ∧
      (∀ col : Nat, (col : Int) < width_in_pixels →
        ∃ p, src_bits[col]? = some p ∧ out[col]? = some (Convert565Word p)) ∧
      (∀ j, width_in_pixels.toNat ≤ j → out[j]? = target[j]?) := by
  have key : ∀ col : Nat, (col : Int) < width_in_pixels →
      ∃ p, src_bits[col]? = some p ∧ line565Word src_bits col = some (Convert565Word p) := by
    intro col hcol
    have hc := Int.lt_toNat.2 hcol
    have hb : col < src_bits.length := by omega
    refine ⟨src_bits[col], List.getElem?_eq_getElem hb, ?_⟩
    unfold line565Word
    rw [List.getElem?_eq_getElem hb]
  obtain ⟨out, hout, hl, hin, hrest⟩ := run_exact _ (line565Word src_bits) target
    width_in_pixels (ConvertLine565_run target src_bits width_in_pixels) hT
    (fun col hcol => by
      obtain ⟨p, _, h⟩ := key col hcol
      exact ⟨_, h, by have := Convert565Word_lt p; omega⟩)
  refine ⟨out, hout, hl, ?_, hrest⟩
  intro col hcol
  obtain ⟨p, h1, h2⟩ := key col hcol
  exact ⟨p, h1, hin col hcol _ h2⟩

/-- The word read at a pixel whose three colour bytes are inside the row. -/
theorem directWord_of_lt (o : ColorOrder) (source : List Nat) (hB : Bytes source) (pos : Nat)
    (hb : pos + o.FI_RGBA_BLUE < source.length) (hg : pos + o.FI_RGBA_GREEN < source.length)
    (hr : pos + o.FI_RGBA_RED < source.length) :
    ∃ b g r, source[pos + o.FI_RGBA_BLUE]? = some b ∧ source[pos + o.FI_RGBA_GREEN]? = some g ∧
      source[pos + o.FI_RGBA_RED]? = some r ∧ directWord o source pos = some (RGB555 b g r) ∧
      RGB555 b g r < 32768 := by
  refine ⟨_, _, _, List.getElem?_eq_getElem hb, List.getElem?_eq_getElem hg,
    List.getElem?_eq_getElem hr, ?_, ?_⟩
  · simp [directWord, List.getElem?_eq_getElem hb, List.getElem?_eq_getElem hg,
      List.getElem?_eq_getElem hr]
  · exact RGB555_lt _ _ _ (hB _ (List.getElem_mem hb)) (hB _ (List.getElem_mem hg))
      (hB _ (List.getElem_mem hr))

/-- The 24-bit converter on buffers that are large enough. -/
theorem ConvertLine24_spec (o : ColorOrder) (ho : o.InPixel) (target source : List Nat)
    (width_in_pixels : Int) (hT : width_in_pixels.toNat ≤ target.length)
    (hS : 3 * width_in_pixels.toNat ≤ source.length) (hB : Bytes source) :
    ∃ out, FreeImage_ConvertLine24To16_555 o target source width_in_pixels = some out ∧
      out.length = target.length ∧
      (∀ col : Nat, (col : Int) < width_in_pixels →
        ∃ b g r, source[3 * col + o.FI_RGBA_BLUE]? = some b ∧
          source[3 * col + o.FI_RGBA_GREEN]? = some g ∧
          source[3 * col + o.FI_RGBA_RED]? = some r ∧ out[col]? = some (RGB555 b g r)) ∧
      (∀ j, width_in_pixels.toNat ≤ j → out[j]? = target[j]?) := by
  obtain ⟨h1, h2, h3⟩ := ho
  have key : ∀ col : Nat, (col : Int) < width_in_pixels →
      ∃ b g r, source[3 * col + o.FI_RGBA_BLUE]? = some b ∧
        source[3 * col + o.FI_RGBA_GREEN]? = some g ∧
        source[3 * col + o.FI_RGBA_RED]? = some r ∧
        directWord o source (3 * col) = some (RGB555 b g r) ∧ RGB555 b g r < 32768 := by
    intro col hcol
    have hc := Int.lt_toNat.2 hcol
    exact directWord_of_lt o source hB (3 * col) (by omega) (by omega) (by omega)
  obtain ⟨out, hout, hl, hin, hrest⟩ := run_exact _ (fun col => directWord o source (3 * col))
    target width_in_pixels (ConvertLine24_run o target source width_in_pixels) hT
    (fun col hcol => by
      obtain ⟨_, _, _, _, _, _, h, hlt⟩ := key col hcol
      exact ⟨_, h, by omega⟩)
  refine ⟨out, hout, hl, ?_, hrest⟩
  intro col hcol
  obtain ⟨b, g, r, hb, hg, hr, hw, _⟩ := key col hcol
  exact ⟨b, g, r, hb, hg, hr, hin col hcol _ hw⟩

/-- The 32-bit converter on buffers that are large enough. -/
theorem ConvertLine32_spec (o : ColorOrder) (ho : o.InPixel) (target source : List Nat)
    (width_in_pixels : Int) (hT : width_in_pixels.toNat ≤ target.length)
    (hS : 4 * width_in_pixels.toNat ≤ source.length) (hB : Bytes source) :
    ∃ out, FreeImage_ConvertLine32To16_555 o target source width_in_pixels = some out ∧
      out.length = target.length ∧
      (∀ col : Nat, (col : Int) < width_in_pixels →
        ∃ b g r, source[4 * col + o.FI_RGBA_BLUE]? = some b ∧
          source[4 * col + o.FI_RGBA_GREEN]? = some g ∧
          source[4 * col + o.FI_RGBA_RED]? = some r ∧ out[col]? = some (RGB555 b g r)) ∧
      (∀ j, width_in_pixels.toNat ≤ j → out[j]? = target[j]?) := by
  obtain ⟨h1, h2, h3⟩ := ho
  have key : ∀ col : Nat, (col : Int) < width_in_pixels →
      ∃ b g r, source[4 * col + o.FI_RGBA_BLUE]? = some b ∧
        source[4 * col + o.FI_RGBA_GREEN]? = some g ∧
        source[4 * col + o.FI_RGBA_RED]? = some r ∧
        directWord o source (4 * col) = some (RGB555 b g r) ∧ RGB555 b g r < 32768 := by
    intro col hcol
    have hc := Int.lt_toNat.2 hcol
    exact directWord_of_lt o source hB (4 * col) (by omega) (by omega) (by omega)
  obtain ⟨out, hout, hl, hin, hrest⟩ := run_exact _ (fun col => directWord o source (4 * col))
    target width_in_pixels (ConvertLine32_run o target source width_in_pixels) hT
    (fun col hcol => by
      obtain ⟨_, _, _, _, _, _, h, hlt⟩ := key col hcol
      exact ⟨_, h, by omega⟩)
  refine ⟨out, hout, hl, ?_, hrest⟩
  intro col hcol
  obtain ⟨b, g, r, hb, hg, hr, hw, _⟩ := key col hcol
  exact ⟨b, g, r, hb, hg, hr, hin col hcol _ hw⟩

theorem greyPalette_valid (n : Nat) (hn : n ≤ 256) : ValidPalette (greyPalette n) := by
  intro e he
  simp only [greyPalette, List.mem_map, List.mem_range] at he
  obtain ⟨i, hi, rfl⟩ := he
  exact ⟨by simp; omega, by simp; omega, by simp; omega, by simp⟩

/-! ## The claims on the scanline converters -/

/-- C2: on a 565 row, `FreeImage_ConvertLine16_565_To16_555` returns a row that
holds at every column `col < width_in_pixels` the word
`RGB555((b5 * 255) / 31, (g6 * 255) / 63, (r5 * 255) / 31)` with
`r5 = (p & 0xF800) >> 11`, `g6 = (p & 0x07E0) >> 5`, `b5 = p & 0x001F` the
channels of the source word `p` at that column; the full-white source word
`0xFFFF` has channels (31, 63, 31) and is converted to `0x7FFF`, whose 555 fields
are (31, 31, 31). -/
theorem ConvertLine565_writes (target src_bits : List Nat) (width_in_pixels : Int)
    (hT : width_in_pixels.toNat ≤ target.length)
    (hS : width_in_pixels.toNat ≤ src_bits.length) :
    (∃ out, FreeImage_ConvertLine16_565_To16_555 target src_bits width_in_pixels = some out ∧
      ∀ col : Nat, (col : Int) < width_in_pixels →
        ∃ p, src_bits[col]? = some p ∧
          out[col]? = some (RGB555 (((p &&& 0x001F) * 255) / 31)
            ((((p &&& 0x07E0) >>> 5) * 255) / 63) ((((p &&& 0xF800) >>> 11) * 255) / 31))) ∧
    ((0xFFFF &&& 0xF800) >>> 11 = 31 ∧ (0xFFFF &&& 0x07E0) >>> 5 = 63 ∧
      0xFFFF &&& 0x001F = 31) ∧
    (∀ target₁ : List Nat, 1 ≤ target₁.length →
      ∃ out, FreeImage_ConvertLine16_565_To16_555 target₁ [0xFFFF] 1 = some out ∧
        out[0]? = some 0x7FFF) ∧
    ((0x7FFF &&& FI16_555_RED_MASK) >>> FI16_555_RED_SHIFT = 31 ∧
      (0x7FFF &&& FI16_555_GREEN_MASK) >>> FI16_555_GREEN_SHIFT = 31 ∧
      (0x7FFF &&& FI16_555_BLUE_MASK) >>> FI16_555_BLUE_SHIFT = 31) := by
  refine ⟨?_, by decide, ?_, by decide⟩
  · obtain ⟨out, hout, _, hin, _⟩ := ConvertLine565_spec target src_bits width_in_pixels hT hS
    exact ⟨out, hout, hin⟩
  · intro target₁ h1
    obtain ⟨out, hout, _, hin, _⟩ := ConvertLine565_spec target₁ [0xFFFF] 1 (by simpa using h1)
      (by simp)
    obtain ⟨p, hp, ho⟩ := hin 0 (by norm_num)
    simp only [List.getElem?_cons_zero, Option.some.injEq] at hp
    subst hp
    exact ⟨out, hout, ho⟩

/-- C2 on the two-pixel row `[0xFFFF, 0x07E0]`. -/
theorem ConvertLine565_writes_witness :
    (∃ out, FreeImage_ConvertLine16_565_To16_555 [0, 0] [0xFFFF, 0x07E0] 2 = some out ∧
      ∀ col : Nat, (col : Int) < 2 →
        ∃ p, [0xFFFF, 0x07E0][col]? = some p ∧
          out[col]? = some (RGB555 (((p &&& 0x001F) * 255) / 31)
            ((((p &&& 0x07E0) >>> 5) * 255) / 63) ((((p &&& 0xF800) >>> 11) * 255) / 31))) ∧
    FreeImage_ConvertLine16_565_To16_555 [0, 0] [0xFFFF, 0x07E0] 2 = some [0x7FFF, 0x03E0] :=
  ⟨(ConvertLine565_writes [0, 0] [0xFFFF, 0x07E0] 2 (by decide) (by decide)).1, by decide⟩

/-- C3: on a 1-bit row with a palette of at least 2 entries,
`FreeImage_ConvertLine1To16_555` returns a row that holds at every column
`col < width_in_pixels` the word `RGB555` of `palette[i]`, where `i` is bit
`7 - col % 8` of source byte `col / 8`. -/
theorem ConvertLine1_writes (target source : List Nat) (width_in_pixels : Int)
    (palette : List FIRGBA8) (hT : width_in_pixels.toNat ≤ target.length)
    (hS : (width_in_pixels.toNat + 7) / 8 ≤ source.length) (hP : 2 ≤ palette.length)
    (hV : ValidPalette palette) :
    ∃ out, FreeImage_ConvertLine1To16_555 target source width_in_pixels palette = some out ∧
      ∀ col : Nat, (col : Int) < width_in_pixels →
        ∃ byte e, source[col / 8]? = some byte ∧
          palette[(byte >>> (7 - col % 8)) &&& 1]? = some e ∧
          out[col]? = some (RGB555 e.blue e.green e.red) := by
  obtain ⟨out, hout, _, hin, _⟩ :=
    ConvertLine1_spec target source width_in_pixels palette hT hS hP hV
  exact ⟨out, hout, hin⟩

/-- C3 on the byte `0xAA` with a two-entry palette. -/
theorem ConvertLine1_writes_witness :
    (∃ out, FreeImage_ConvertLine1To16_555 (List.replicate 8 0) [0xAA] 8 samplePalette2 =
        some out ∧
      ∀ col : Nat, (col : Int) < 8 →
        ∃ byte e, [0xAA][col / 8]? = some byte ∧
          samplePalette2[(byte >>> (7 - col % 8)) &&& 1]? = some e ∧
          out[col]? = some (RGB555 e.blue e.green e.red)) ∧
    FreeImage_ConvertLine1To16_555 (List.replicate 8 0) [0xAA] 8 samplePalette2 =
      some [0x7FFF, 0x0443, 0x7FFF, 0x0443, 0x7FFF, 0x0443, 0x7FFF, 0x0443] :=
  ⟨ConvertLine1_writes (List.replicate 8 0) [0xAA] 8 samplePalette2 (by decide) (by decide)
    (by decide) (by decide), by decide⟩

/-- C4: on a 4-bit row with a palette of at least 16 entries,
`FreeImage_ConvertLine4To16_555` returns a row that holds at every column
`col < width_in_pixels` the word `RGB555` of `palette[i]`, where `i` is the high
nibble of source byte `col / 2` for even `col` and its low nibble for odd `col`;
the single byte `0x3F` over two pixels gives the indices 3 and then 15. -/
theorem ConvertLine4_writes (target source : List Nat) (width_in_pixels : Int)
    (palette : List FIRGBA8) (hT : width_in_pixels.toNat ≤ target.length)
    (hS : (width_in_pixels.toNat + 1) / 2 ≤ source.length) (hB : Bytes source)
    (hP : 16 ≤ palette.length) (hV : ValidPalette palette) :
    (∃ out, FreeImage_ConvertLine4To16_555 target source width_in_pixels palette = some out ∧
      ∀ col : Nat, (col : Int) < width_in_pixels →
        ∃ byte e, source[col / 2]? = some byte ∧
          palette[if col % 2 = 0 then byte / 16 else byte % 16]? = some e ∧
          out[col]? = some (RGB555 e.blue e.green e.red)) ∧
    (ConvertLine4Index [0x3F] false 0 = some (3, 0) ∧
      ConvertLine4Index [0x3F] true 0 = some (15, 1)) ∧
    (2 ≤ target.length →
      ∃ out e₃ e₁₅, FreeImage_ConvertLine4To16_555 target [0x3F] 2 palette = some out ∧
        palette[3]? = some e₃ ∧ palette[15]? = some e₁₅ ∧
        out[0]? = some (RGB555 e₃.blue e₃.green e₃.red) ∧
        out[1]? = some (RGB555 e₁₅.blue e₁₅.green e₁₅.red)) := by
  refine ⟨?_, by decide, ?_⟩
  · obtain ⟨out, hout, _, hin, _⟩ :=
      ConvertLine4_spec target source width_in_pixels palette hT hS hB hP hV
    exact ⟨out, hout, hin⟩
  · intro h2
    obtain ⟨out, hout, _, hin, _⟩ :=
      ConvertLine4_spec target [0x3F] 2 palette (by simpa using h2) (by simp) (by decide) hP hV
    obtain ⟨b0, e₃, hb0, he0, ho0⟩ := hin 0 (by norm_num)
    obtain ⟨b1, e₁₅, hb1, he1, ho1⟩ := hin 1 (by norm_num)
    simp only [Nat.zero_div, List.getElem?_cons_zero, Option.some.injEq] at hb0
    subst hb0
    have hb1' : b1 = 0x3F := by simpa using hb1.symm
    subst hb1'
    exact ⟨out, e₃, e₁₅, hout, by simpa using he0, by simpa using he1, ho0, ho1⟩

/-- C4 on the byte `0x3F` with a 16-entry grey ramp. -/
theorem ConvertLine4_writes_witness :
    ((∃ out, FreeImage_ConvertLine4To16_555 [0, 0] [0x3F] 2 (greyPalette 16) = some out ∧
      ∀ col : Nat, (col : Int) < 2 →
        ∃ byte e, [0x3F][col / 2]? = some byte ∧
          (greyPalette 16)[if col % 2 = 0 then byte / 16 else byte % 16]? = some e ∧
          out[col]? = some (RGB555 e.blue e.green e.red)) ∧
    (ConvertLine4Index [0x3F] false 0 = some (3, 0) ∧
      ConvertLine4Index [0x3F] true 0 = some (15, 1)) ∧
    (2 ≤ [0, 0].length →
      ∃ out e₃ e₁₅, FreeImage_ConvertLine4To16_555 [0, 0] [0x3F] 2 (greyPalette 16) = some out ∧
        (greyPalette 16)[3]? = some e₃ ∧ (greyPalette 16)[15]? = some e₁₅ ∧
        out[0]? = some (RGB555 e₃.blue e₃.green e₃.red) ∧
        out[1]? = some (RGB555 e₁₅.blue e₁₅.green e₁₅.red))) ∧
    FreeImage_ConvertLine4To16_555 [0, 0] [0x3F] 2 (greyPalette 16) =
      some [RGB555 3 3 3, RGB555 15 15 15] :=
  ⟨ConvertLine4_writes [0, 0] [0x3F] 2 (greyPalette 16) (by decide) (by decide) (by decide)
    (by decide) (greyPalette_valid 16 (by decide)), by decide⟩

/-- C5: on an 8-bit row with a 256-entry palette, `FreeImage_ConvertLine8To16_555`
returns a row that holds at every column `col < width_in_pixels` the word
`RGB555(palette[source[col]].blue, palette[source[col]].green,
palette[source[col]].red)`; the source byte `0xA5` selects palette entry 165. -/
theorem ConvertLine8_writes (target source : List Nat) (width_in_pixels : Int)
    (palette : List FIRGBA8) (hT : width_in_pixels.toNat ≤ target.length)
    (hS : width_in_pixels.toNat ≤ source.length) (hB : Bytes source)
    (hP : palette.length = 256) (hV : ValidPalette palette) :
    (∃ out, FreeImage_ConvertLine8To16_555 target source width_in_pixels palette = some out ∧
      ∀ col : Nat, (col : Int) < width_in_pixels →
        ∃ byte e, source[col]? = some byte ∧ palette[byte]? = some e ∧
          out[col]? = some (RGB555 e.blue e.green e.red)) ∧
    (1 ≤ target.length →
      ∃ out e, FreeImage_ConvertLine8To16_555 target [0xA5] 1 palette = some out ∧
        palette[165]? = some e ∧ out[0]? = some (RGB555 e.blue e.green e.red)) := by
  constructor
  · obtain ⟨out, hout, _, hin, _⟩ :=
      ConvertLine8_spec target source width_in_pixels palette hT hS hB (by omega) hV
    exact ⟨out, hout, hin⟩
  · intro h1
    obtain ⟨out, hout, _, hin, _⟩ :=
      ConvertLine8_spec target [0xA5] 1 palette (by simpa using h1) (by simp) (by decide)
        (by omega) hV
    obtain ⟨byte, e, hb, he, ho⟩ := hin 0 (by norm_num)
    simp only [List.getElem?_cons_zero, Option.some.injEq] at hb
    subst hb
    exact ⟨out, e, hout, he, ho⟩

/-- C5 on the bytes `0xA5, 0x00` with the 256-entry grey ramp. -/
theorem ConvertLine8_writes_witness :
    (∃ out, FreeImage_ConvertLine8To16_555 [0, 0] [0xA5, 0x00] 2 (greyPalette 256) = some out ∧
      ∀ col : Nat, (col : Int) < 2 →
        ∃ byte e, [0xA5, 0x00][col]? = some byte ∧ (greyPalette 256)[byte]? = some e ∧
          out[col]? = some (RGB555 e.blue e.green e.red)) ∧
    (1 ≤ [0, 0].length →
      ∃ out e, FreeImage_ConvertLine8To16_555 [0, 0] [0xA5] 1 (greyPalette 256) = some out ∧
        (greyPalette 256)[165]? = some e ∧ out[0]? = some (RGB555 e.blue e.green e.red)) :=
  ConvertLine8_writes [0, 0] [0xA5, 0x00] 2 (greyPalette 256) (by decide) (by decide)
    (by decide) (by simp [greyPalette]) (greyPalette_valid 256 (by decide))

/-- C6: on a 24-bit row, `FreeImage_ConvertLine24To16_555` returns a row that holds
at every column `col < width_in_pixels` the word `RGB555(B, G, R)` of the bytes at
offsets `3 * col + FI_RGBA_BLUE`, `3 * col + FI_RGBA_GREEN`, `3 * col + FI_RGBA_RED`;
a pixel with R = 200, G = 100, B = 50 gives the fields (red, green, blue) =
(25, 12, 6). -/
theorem ConvertLine24_writes (o : ColorOrder) (ho : o.InPixel) (target source : List Nat)
    (width_in_pixels : Int) (hT : width_in_pixels.toNat ≤ target.length)
    (hS : 3 * width_in_pixels.toNat ≤ source.length) (hB : Bytes source) :
    ∃ out, FreeImage_ConvertLine24To16_555 o target source width_in_pixels = some out ∧
      (∀ col : Nat, (col : Int) < width_in_pixels →
        ∃ b g r, source[3 * col + o.FI_RGBA_BLUE]? = some b ∧
          source[3 * col + o.FI_RGBA_GREEN]? = some g ∧
          source[3 * col + o.FI_RGBA_RED]? = some r ∧ out[col]? = some (RGB555 b g r)) ∧
      (∀ col : Nat, (col : Int) < width_in_pixels →
        source[3 * col + o.FI_RGBA_BLUE]? = some 50 →
        source[3 * col + o.FI_RGBA_GREEN]? = some 100 →
        source[3 * col + o.FI_RGBA_RED]? = some 200 →
        ∃ w, out[col]? = some w ∧
          (w &&& FI16_555_RED_MASK) >>> FI16_555_RED_SHIFT = 25 ∧
          (w &&& FI16_555_GREEN_MASK) >>> FI16_555_GREEN_SHIFT = 12 ∧
          (w &&& FI16_555_BLUE_MASK) >>> FI16_555_BLUE_SHIFT = 6) := by
  obtain ⟨out, hout, _, hin, _⟩ := ConvertLine24_spec o ho target source width_in_pixels hT hS hB
  refine ⟨out, hout, hin, ?_⟩
  intro col hcol hb hg hr
  obtain ⟨b, g, r, hb', hg', hr', hw⟩ := hin col hcol
  rw [hb] at hb'
  rw [hg] at hg'
  rw [hr] at hr'
  simp only [Option.some.injEq] at hb' hg' hr'
  subst hb' hg' hr'
  exact ⟨_, hw, by decide, by decide, by decide⟩

/-- C6 on a two-pixel row in blue-green-red byte order whose first pixel is
(R, G, B) = (200, 100, 50). -/
theorem ConvertLine24_writes_witness :
    (∃ out, FreeImage_ConvertLine24To16_555 ColorOrder.bgr [0, 0] [50, 100, 200, 1, 2, 3] 2 =
        some out ∧
      (∀ col : Nat, (col : Int) < 2 →
        ∃ b g r, [50, 100, 200, 1, 2, 3][3 * col + ColorOrder.bgr.FI_RGBA_BLUE]? = some b ∧
          [50, 100, 200, 1, 2, 3][3 * col + ColorOrder.bgr.FI_RGBA_GREEN]? = some g ∧
          [50, 100, 200, 1, 2, 3][3 * col + ColorOrder.bgr.FI_RGBA_RED]? = some r ∧
          out[col]? = some (RGB555 b g r)) ∧
      (∀ col : Nat, (col : Int) < 2 →
        [50, 100, 200, 1, 2, 3][3 * col + ColorOrder.bgr.FI_RGBA_BLUE]? = some 50 →
        [50, 100, 200, 1, 2, 3][3 * col + ColorOrder.bgr.FI_RGBA_GREEN]? = some 100 →
        [50, 100, 200, 1, 2, 3][3 * col + ColorOrder.bgr.FI_RGBA_RED]? = some 200 →
        ∃ w, out[col]? = some w ∧
          (w &&& FI16_555_RED_MASK) >>> FI16_555_RED_SHIFT = 25 ∧
          (w &&& FI16_555_GREEN_MASK) >>> FI16_555_GREEN_SHIFT = 12 ∧
          (w &&& FI16_555_BLUE_MASK) >>> FI16_555_BLUE_SHIFT = 6)) ∧
    FreeImage_ConvertLine24To16_555 ColorOrder.bgr [0, 0] [50, 100, 200, 1, 2, 3] 2 =
      some [(25 <<< 10) ||| (12 <<< 5) ||| 6, 0] :=
  ⟨ConvertLine24_writes ColorOrder.bgr (by decide) [0, 0] [50, 100, 200, 1, 2, 3] 2 (by decide)
    (by decide) (by decide), by decide⟩

/-- Byte `o < 3` of pixel `k` of the row without alpha bytes is byte `o` of pixel
`k` of the 32-bit row. -/
theorem dropAlpha_getElem? : ∀ (k : Nat) (row : List Nat) (o : Nat), o < 3 →
    (dropAlpha row)[3 * k + o]? = row[4 * k + o]? := by
  intro k
  induction k with
  | zero =>
    intro row o ho
    match row with
    | [] | [_] | [_, _] | [_, _, _] => simp [dropAlpha]
    | b0 :: b1 :: b2 :: b3 :: rest =>
      simp only [dropAlpha, Nat.mul_zero, Nat.zero_add]
      interval_cases o <;> simp
  | succ k ih =>
    intro row o ho
    match row with
    | [] => simp [dropAlpha]
    | [_] | [_, _] | [_, _, _] =>
      simp only [dropAlpha]
      rw [List.getElem?_eq_none (by simp; omega), List.getElem?_eq_none (by simp; omega)]
    | b0 :: b1 :: b2 :: b3 :: rest =>
      have e3 : 3 * (k + 1) + o = (3 * k + o) + 1 + 1 + 1 := by omega
      have e4 : 4 * (k + 1) + o = (4 * k + o) + 1 + 1 + 1 + 1 := by omega
      simp only [dropAlpha]
      rw [e3, e4]
      simp only [List.getElem?_cons_succ]
      exact ih rest o ho

theorem directWord_dropAlpha (o : ColorOrder) (ho : o.InPixel) (source : List Nat) (col : Nat) :
    directWord o source (4 * col) = directWord o (dropAlpha source) (3 * col) := by
  obtain ⟨h1, h2, h3⟩ := ho
  unfold directWord
  rw [dropAlpha_getElem? col source _ h1, dropAlpha_getElem? col source _ h2,
    dropAlpha_getElem? col source _ h3]

/-- The 32-bit converter on a row is the 24-bit converter on the row without its
alpha bytes. -/
theorem ConvertLine32_eq_ConvertLine24 (o : ColorOrder) (ho : o.InPixel)
    (target source : List Nat) (width_in_pixels : Int) :
    FreeImage_ConvertLine32To16_555 o target source width_in_pixels =
      FreeImage_ConvertLine24To16_555 o target (dropAlpha source) width_in_pixels :=
  lineLoop_congr _ _ (fun col => directWord o source (4 * col))
    (fun c pos => pos = 4 * c) (fun c pos => pos = 3 * c)
    (fun c pos => direct_step o source 4 c pos)
    (fun c pos h => by
      obtain ⟨pos', hp, hs⟩ := direct_step o (dropAlpha source) 3 c pos h
      refine ⟨pos', hp, ?_⟩
      beta_reduce
      rw [directWord_dropAlpha o ho source c]
      exact hs)
    _ 0 0 0 target rfl rfl

/-- C7: the alpha byte of a 32-bit source is ignored.  With the colour bytes at
offsets below 3, `FreeImage_ConvertLine32To16_555` on a row gives exactly what
`FreeImage_ConvertLine24To16_555` gives on the row with the fourth byte of every
pixel deleted; two rows that agree at every byte that is not a fourth byte
convert to the same row; and on buffers that are large enough both converters
return a row. -/
theorem ConvertLine32_ignores_alpha (o : ColorOrder) (ho : o.InPixel) :
    (∀ (target source : List Nat) (width_in_pixels : Int),
      FreeImage_ConvertLine32To16_555 o target source width_in_pixels =
        FreeImage_ConvertLine24To16_555 o target (dropAlpha source) width_in_pixels) ∧
    (∀ (target source₁ source₂ : List Nat) (width_in_pixels : Int),
      (∀ i, i % 4 ≠ 3 → source₁[i]? = source₂[i]?) →
      FreeImage_ConvertLine32To16_555 o target source₁ width_in_pixels =
        FreeImage_ConvertLine32To16_555 o target source₂ width_in_pixels) ∧
    (∀ (target source : List Nat) (width_in_pixels : Int),
      width_in_pixels.toNat ≤ target.length → 4 * width_in_pixels.toNat ≤ source.length →
      ∃ out, FreeImage_ConvertLine32To16_555 o target source width_in_pixels = some out ∧
        FreeImage_ConvertLine24To16_555 o target (dropAlpha source) width_in_pixels =
          some out) := by
  refine ⟨ConvertLine32_eq_ConvertLine24 o ho, ?_, ?_⟩
  · intro target source₁ source₂ width_in_pixels hagree
    obtain ⟨h1, h2, h3⟩ := ho
    refine lineLoop_congr _ _ (fun col => directWord o source₁ (4 * col))
      (fun c pos => pos = 4 * c) (fun c pos => pos = 4 * c)
      (fun c pos => direct_step o source₁ 4 c pos)
      (fun c pos h => ?_) _ 0 0 0 target rfl rfl
    obtain ⟨pos', hp, hs⟩ := direct_step o source₂ 4 c pos h
    refine ⟨pos', hp, ?_⟩
    have e : directWord o source₁ (4 * c) = directWord o source₂ (4 * c) := by
      unfold directWord
      rw [hagree (4 * c + o.FI_RGBA_BLUE) (by omega),
        hagree (4 * c + o.FI_RGBA_GREEN) (by omega), hagree (4 * c + o.FI_RGBA_RED) (by omega)]
    beta_reduce
    rw [e]
    exact hs
  · intro target source width_in_pixels hT hS
    have ⟨h1, h2, h3⟩ := ho
    have hsome : ∀ col : Nat, (col : Int) < width_in_pixels →
        (directWord o source (4 * col)).isSome := by
      intro col hcol
      have hc := Int.lt_toNat.2 hcol
      unfold directWord
      rw [List.getElem?_eq_getElem (show 4 * col + o.FI_RGBA_BLUE < source.length by omega),
        List.getElem?_eq_getElem (show 4 * col + o.FI_RGBA_GREEN < source.length by omega),
        List.getElem?_eq_getElem (show 4 * col + o.FI_RGBA_RED < source.length by omega)]
      rfl
    obtain ⟨out, hout⟩ := (ConvertLine32_run o target source width_in_pixels).2 hT hsome
    exact ⟨out, hout, by rw [← ConvertLine32_eq_ConvertLine24 o ho]; exact hout⟩

/-- C7 in blue-green-red byte order on a two-pixel row: the 32-bit row with alpha
bytes 9 and 77 and the 24-bit row without them convert to the same words. -/
theorem ConvertLine32_ignores_alpha_witness :
    FreeImage_ConvertLine32To16_555 ColorOrder.bgr [0, 0] [50, 100, 200, 9, 1, 2, 3, 77] 2 =
      FreeImage_ConvertLine24To16_555 ColorOrder.bgr [0, 0]
        (dropAlpha [50, 100, 200, 9, 1, 2, 3, 77]) 2 ∧
    dropAlpha [50, 100, 200, 9, 1, 2, 3, 77] = [50, 100, 200, 1, 2, 3] ∧
    FreeImage_ConvertLine32To16_555 ColorOrder.bgr [0, 0] [50, 100, 200, 9, 1, 2, 3, 77] 2 =
      some [(25 <<< 10) ||| (12 <<< 5) ||| 6, 0] :=
  ⟨(ConvertLine32_ignores_alpha ColorOrder.bgr (by decide)).1 [0, 0]
    [50, 100, 200, 9, 1, 2, 3, 77] 2, by decide, by decide⟩

theorem line1Word_lt (source : List Nat) (palette : List FIRGBA8) (hV : ValidPalette palette)
    (col v : Nat) (h : line1Word source palette col = some v) : v < 32768 := by
  unfold line1Word at h
  split at h
  · simp at h
  · exact paletteWord_lt palette hV _ _ h

theorem line4Word_lt (source : List Nat) (palette : List FIRGBA8) (hV : ValidPalette palette)
    (col v : Nat) (h : line4Word source palette col = some v) : v < 32768 := by
  unfold line4Word at h
  split at h
  · simp at h
  · exact paletteWord_lt palette hV _ _ h

theorem line8Word_lt (source : List Nat) (palette : List FIRGBA8) (hV : ValidPalette palette)
    (col v : Nat) (h : line8Word source palette col = some v) : v < 32768 := by
  unfold line8Word at h
  split at h
  · simp at h
  · exact paletteWord_lt palette hV _ _ h

theorem line565Word_lt (src_bits : List Nat) (col v : Nat)
    (h : line565Word src_bits col = some v) : v < 32768 := by
  unfold line565Word at h
  split at h
  · simp at h
  · simp only [Option.some.injEq] at h
    subst h
    exact Convert565Word_lt _

/-- A converter whose stored words are below `2 ^ 15` writes only 555 words. -/
theorem row555_of_run (conv : Option (List Nat)) (px : Nat → Option Nat) (target : List Nat)
    (width_in_pixels : Int)
    (hsound : ∀ out, conv = some out →
      out.length = target.length ∧
      (∀ col : Nat, (col : Int) < width_in_pixels → col < target.length ∧
        ∃ v, px col = some v ∧ out[col]? = some (v % 65536)) ∧
      (∀ j, width_in_pixels.toNat ≤ j → out[j]? = target[j]?))
    (hlt : ∀ col v, px col = some v → v < 32768) :
    ∀ out, conv = some out → Row555 width_in_pixels out := by
  intro out hout col hcol
  obtain ⟨_, v, hv, ho⟩ := (hsound out hout).2.1 col hcol
  have hv' := hlt col v hv
  rw [Nat.mod_eq_of_lt (by omega)] at ho
  exact ⟨v, ho, and_two_pow_of_lt v 15 hv', by omega⟩

/-- C8: every one of the six scanline converters writes only words with bit 15
clear: when it returns a row, each of the `width_in_pixels` words `w` it wrote
has `w & 0x8000 == 0` and `w <= 0x7FFF`, for every source row of bytes, every
palette of 8-bit channels, every row of 565 words and every width; the
rescaled channels of the 565 converter never exceed 255; and on buffers that
are large enough each converter does return a row. -/
theorem converters_write_555 (o : ColorOrder) (target source : List Nat)
    (width_in_pixels : Int) (palette : List FIRGBA8) (hV : ValidPalette palette)
    (hB : Bytes source) :
    (∀ out, FreeImage_ConvertLine1To16_555 target source width_in_pixels palette = some out →
      Row555 width_in_pixels out) ∧
    (∀ out, FreeImage_ConvertLine4To16_555 target source width_in_pixels palette = some out →
      Row555 width_in_pixels out) ∧
    (∀ out, FreeImage_ConvertLine8To16_555 target source width_in_pixels palette = some out →
      Row555 width_in_pixels out) ∧
    (∀ src_bits out,
      FreeImage_ConvertLine16_565_To16_555 target src_bits width_in_pixels = some out →
      Row555 width_in_pixels out) ∧
    (∀ out, FreeImage_ConvertLine24To16_555 o target source width_in_pixels = some out →
      Row555 width_in_pixels out) ∧
    (∀ out, FreeImage_ConvertLine32To16_555 o target source width_in_pixels = some out →
      Row555 width_in_pixels out) ∧
    (∀ p : Nat,
      ((p &&& FI16_565_BLUE_MASK) >>> FI16_565_BLUE_SHIFT) * 0xFF / 0x1F ≤ 255 ∧
      ((p &&& FI16_565_GREEN_MASK) >>> FI16_565_GREEN_SHIFT) * 0xFF / 0x3F ≤ 255 ∧
      ((p &&& FI16_565_RED_MASK) >>> FI16_565_RED_SHIFT) * 0xFF / 0x1F ≤ 255) ∧
    (∀ v : Nat, (v ≤ 31 → v * 255 / 31 ≤ 255) ∧ (v ≤ 63 → v * 255 / 63 ≤ 255)) ∧
    (o.InPixel → width_in_pixels.toNat ≤ target.length →
      4 * width_in_pixels.toNat ≤ source.length → 256 ≤ palette.length →
      (∃ out, FreeImage_ConvertLine1To16_555 target source width_in_pixels palette = some out) ∧
      (∃ out, FreeImage_ConvertLine4To16_555 target source width_in_pixels palette = some out) ∧
      (∃ out, FreeImage_ConvertLine8To16_555 target source width_in_pixels palette = some out) ∧
      (∀ src_bits : List Nat, width_in_pixels.toNat ≤ src_bits.length →
        ∃ out, FreeImage_ConvertLine16_565_To16_555 target src_bits width_in_pixels =
          some out) ∧
      (∃ out, FreeImage_ConvertLine24To16_555 o target source width_in_pixels = some out) ∧
      (∃ out, FreeImage_ConvertLine32To16_555 o target source width_in_pixels = some out)) := by
  refine ⟨?_, ?_, ?_, ?_, ?_, ?_, ?_, ?_, ?_⟩
  · exact row555_of_run _ _ target width_in_pixels
      (ConvertLine1_run target source width_in_pixels palette).1
      (line1Word_lt source palette hV)
  · exact row555_of_run _ _ target width_in_pixels
      (ConvertLine4_run target source width_in_pixels palette).1
      (line4Word_lt source palette hV)
  · exact row555_of_run _ _ target width_in_pixels
      (ConvertLine8_run target source width_in_pixels palette).1
      (line8Word_lt source palette hV)
  · intro src_bits
    exact row555_of_run _ _ target width_in_pixels
      (ConvertLine565_run target src_bits width_in_pixels).1 (line565Word_lt src_bits)
  · exact row555_of_run _ _ target width_in_pixels
      (ConvertLine24_run o target source width_in_pixels).1
      (fun col v h => directWord_lt o source hB (3 * col) v h)
  · exact row555_of_run _ _ target width_in_pixels
      (ConvertLine32_run o target source width_in_pixels).1
      (fun col v h => directWord_lt o source hB (4 * col) v h)
  · intro p
    exact ⟨channel5_le _ (blue565_le p), channel6_le _ (green565_le p),
      channel5_le _ (red565_le p)⟩
  · intro v
    exact ⟨fun h => by omega, fun h => by omega⟩
  · intro ho hT hS hP
    refine ⟨?_, ?_, ?_, ?_, ?_, ?_⟩
    · obtain ⟨out, h, _⟩ := ConvertLine1_spec target source width_in_pixels palette hT
        (by omega) (by omega) hV
      exact ⟨out, h⟩
    · obtain ⟨out, h, _⟩ := ConvertLine4_spec target source width_in_pixels palette hT
        (by omega) hB (by omega) hV
      exact ⟨out, h⟩
    · obtain ⟨out, h, _⟩ := ConvertLine8_spec target source width_in_pixels palette hT
        (by omega) hB hP hV
      exact ⟨out, h⟩
    · intro src_bits hS'
      obtain ⟨out, h, _⟩ := ConvertLine565_spec target src_bits width_in_pixels hT hS'
      exact ⟨out, h⟩
    · obtain ⟨out, h, _⟩ := ConvertLine24_spec o ho target source width_in_pixels hT
        (by omega) hB
      exact ⟨out, h⟩
    · obtain ⟨out, h, _⟩ := ConvertLine32_spec o ho target source width_in_pixels hT hS hB
      exact ⟨out, h⟩

/-- C8 on an eight-byte source row, a row of two `0xFFFF` words and the 32-entry
grey ramp, width 2: the rows the six converters return consist of 555 words. -/
theorem converters_write_555_witness :
    Row555 2 [0, 0] ∧ Row555 2 [0, 0x0421] ∧ Row555 2 [0x0421, 0x0421] ∧
      Row555 2 [0x7FFF, 0x7FFF] ∧ Row555 2 [0x0421, 0x0842] ∧ Row555 2 [0x0421, 0x0C42] :=
  have T := converters_write_555 ColorOrder.bgr [0, 0]
    [0x0F, 0x0F, 0x0F, 0x17, 0x17, 0x17, 0x1F, 0x1F] 2 (greyPalette 32)
    (greyPalette_valid 32 (by decide)) (by decide)
  ⟨T.1 _ (by decide), T.2.1 _ (by decide), T.2.2.1 _ (by decide),
    T.2.2.2.1 [0xFFFF, 0xFFFF] _ (by decide), T.2.2.2.2.1 _ (by decide),
    T.2.2.2.2.2.1 _ (by decide)⟩

/-! ## The dispatcher -/

/-- The row loop changes nothing of the destination but its scanlines. -/
theorem rowLoop_header (line : List Nat → List Nat → Option (List Nat)) (dib : FIBITMAP) :
    ∀ (n rows : Nat) (new_dib d : FIBITMAP), rowLoop line dib n rows new_dib = some d →
      { d with scanlines := new_dib.scanlines } = new_dib := by
  intro n
  induction n with
  | zero =>
    intro rows new_dib d h
    simp only [rowLoop, Option.some.injEq] at h
    subst h
    rfl
  | succ n ih =>
    intro rows new_dib d h
    unfold rowLoop at h
    split at h
    · next target source _ _ =>
      split at h
      · simp at h
      · next out _ =>
        have := ih (rows + 1) _ d h
        simp only [FIBITMAP.setScanLine] at this
        cases d
        cases new_dib
        simp_all
    · simp at h

/-- The header of a bitmap allocated by the dispatcher and then filled by the row
loop. -/
theorem allocated_header (alloc_ok : Bool) (dib new_dib new_dib' d : FIBITMAP)
    (line : List Nat → List Nat → Option (List Nat)) (n : Nat)
    (ha : FreeImage_Allocate alloc_ok (intOfUnsigned (FreeImage_GetWidth dib))
      (intOfUnsigned (FreeImage_GetHeight dib)) 16 FI16_555_RED_MASK FI16_555_GREEN_MASK
      FI16_555_BLUE_MASK = some new_dib)
    (hm : new_dib' = new_dib ∨ new_dib' = FreeImage_CloneMetadata new_dib dib)
    (hl : rowLoop line dib n 0 new_dib' = some d) :
    d.bpp = 16 ∧ d.red_mask = FI16_555_RED_MASK ∧ d.green_mask = FI16_555_GREEN_MASK ∧
      d.blue_mask = FI16_555_BLUE_MASK ∧ d.width = (intOfUnsigned dib.width).natAbs ∧
      d.height = (intOfUnsigned dib.height).natAbs := by
  have hh := rowLoop_header line dib n 0 new_dib' d hl
  unfold FreeImage_Allocate at ha
  split at ha
  · simp only [Option.some.injEq] at ha
    subst ha
    rcases hm with hm | hm
    · subst hm
      cases d
      simp only [FIBITMAP.mk.injEq] at hh
      simp_all [FreeImage_GetWidth, FreeImage_GetHeight]
    · subst hm
      cases d
      simp only [FreeImage_CloneMetadata, FIBITMAP.mk.injEq] at hh
      simp_all [FreeImage_GetWidth, FreeImage_GetHeight]
  · simp at ha

/-- Every successful run of the dispatcher either cloned a 16-bit source whose masks
are not the 565 masks, or returned an allocated 555 bitmap of the dimensions the
dispatcher holds in its `int` copies, for a source of depth 1, 4, 8, 24, 32 or of
depth 16 with the 565 masks. -/
theorem ConvertTo16Bits555_success (o : ColorOrder) (alloc_ok : Bool) (dib : FIBITMAP)
    (r : Outcome) (d : FIBITMAP)
    (h : FreeImage_ConvertTo16Bits555 o alloc_ok dib = some r) (hd : r.result = some d) :
    (dib.bpp = 16 ∧ has565Masks dib = false ∧ d = dib) ∨
    ((dib.bpp = 16 ∧ has565Masks dib = true ∨ dib.bpp = 1 ∨ dib.bpp = 4 ∨ dib.bpp = 8 ∨
        dib.bpp = 24 ∨ dib.bpp = 32) ∧
      d.bpp = 16 ∧ d.red_mask = FI16_555_RED_MASK ∧ d.green_mask = FI16_555_GREEN_MASK ∧
      d.blue_mask = FI16_555_BLUE_MASK ∧ d.width = (intOfUnsigned dib.width).natAbs ∧
      d.height = (intOfUnsigned dib.height).natAbs) := by
  unfold FreeImage_ConvertTo16Bits555 at h
  split at h
  · simp only [Option.some.injEq] at h
    subst h
    simp at hd
  · simp only at h
    split at h
    · next hbpp =>
      split at h
      · next h565 =>
        split at h
        · simp only [Option.some.injEq] at h
          subst h
          simp at hd
        · next new_dib ha =>
          split at h
          · simp at h
          · next new_dib' hl =>
            simp only [Option.some.injEq] at h
            subst h
            simp only [Option.some.injEq] at hd
            subst hd
            right
            have := allocated_header alloc_ok dib new_dib new_dib new_dib' _ _ ha (Or.inl rfl) hl
            exact ⟨Or.inl ⟨hbpp, h565⟩, by simpa [FreeImage_CloneMetadata] using this⟩
      · next h565 =>
        simp only [Option.some.injEq] at h
        subst h
        left
        simp only [FreeImage_Clone] at hd
        split at hd
        · simp only [Option.some.injEq] at hd
          exact ⟨hbpp, by simpa using h565, hd.symm⟩
        · simp at hd
    · next hbpp =>
      split at h
      · simp only [Option.some.injEq] at h
        subst h
        simp at hd
      · next new_dib ha =>
        split at h
        all_goals first
          | (simp only [Option.some.injEq] at h
             subst h
             simp at hd)
          | (split at h
             · simp at h
             · next new_dib' hl =>
               simp only [Option.some.injEq] at h
               subst h
               simp only [Option.some.injEq] at hd
               subst hd
               right
               have := allocated_header alloc_ok dib new_dib _ _ _ _ ha (Or.inr rfl) hl
               refine ⟨?_, this⟩
               simp_all [FreeImage_GetBPP])

theorem has565Masks_eq_true (dib : FIBITMAP) :
    has565Masks dib = true ↔
      dib.red_mask = FI16_565_RED_MASK ∧ dib.green_mask = FI16_565_GREEN_MASK ∧
        dib.blue_mask = FI16_565_BLUE_MASK := by
  simp [has565Masks, FreeImage_GetRedMask, FreeImage_GetGreenMask, FreeImage_GetBlueMask,
    and_assoc]

/-- C9, as the code has it: the bitmap returned by a successful
`FreeImage_ConvertTo16Bits555` has bit depth 16; its masks are the 555 masks
unless the source is a 16-bit bitmap whose masks are not the 565 masks, and for
such a source the returned bitmap is the duplicate of the source, with the
source's own masks. -/
theorem ConvertTo16Bits555_format (o : ColorOrder) (alloc_ok : Bool) (dib : FIBITMAP)
    (r : Outcome) (d : FIBITMAP)
    (h : FreeImage_ConvertTo16Bits555 o alloc_ok dib = some r) (hd : r.result = some d) :
    d.bpp = 16 ∧
    (¬ (dib.bpp = 16 ∧
        ¬ (dib.red_mask = FI16_565_RED_MASK ∧ dib.green_mask = FI16_565_GREEN_MASK ∧
          dib.blue_mask = FI16_565_BLUE_MASK)) →
      d.red_mask = FI16_555_RED_MASK ∧ d.green_mask = FI16_555_GREEN_MASK ∧
        d.blue_mask = FI16_555_BLUE_MASK) ∧
    (dib.bpp = 16 →
      ¬ (dib.red_mask = FI16_565_RED_MASK ∧ dib.green_mask = FI16_565_GREEN_MASK ∧
        dib.blue_mask = FI16_565_BLUE_MASK) →
      d = dib ∧ d.red_mask = dib.red_mask ∧ d.green_mask = dib.green_mask ∧
        d.blue_mask = dib.blue_mask) := by
  rcases ConvertTo16Bits555_success o alloc_ok dib r d h hd with
    ⟨hb, hm, rfl⟩ | ⟨hb, h16, hr, hg, hbl, _, _⟩
  · have hm' : ¬ (d.red_mask = FI16_565_RED_MASK ∧ d.green_mask = FI16_565_GREEN_MASK ∧
        d.blue_mask = FI16_565_BLUE_MASK) := by
      rw [← has565Masks_eq_true, hm]; simp
    exact ⟨hb, fun hn => absurd ⟨hb, hm'⟩ hn, fun _ _ => ⟨rfl, rfl, rfl, rfl⟩⟩
  · refine ⟨h16, fun _ => ⟨hr, hg, hbl⟩, fun h1 h2 => ?_⟩
    rcases hb with ⟨_, hm⟩ | hb | hb | hb | hb | hb
    · exact absurd ((has565Masks_eq_true dib).1 hm) h2
    all_goals omega

/-- C9, as stated, fails: the 16-bit bitmap `sample444`, whose masks are neither
the 565 nor the 555 masks, is converted successfully and the returned bitmap
has the masks of the source, not the 555 masks. -/
theorem ConvertTo16Bits555_format_counterexample :
    FreeImage_ConvertTo16Bits555 ColorOrder.bgr true sample444 =
      some ⟨some sample444, [HeapEvent.clone true]⟩ ∧
    sample444.bpp = 16 ∧ sample444.red_mask ≠ FI16_555_RED_MASK ∧
    sample444.green_mask ≠ FI16_555_GREEN_MASK ∧ sample444.blue_mask ≠ FI16_555_BLUE_MASK := by
  decide

/-- C9 (amended) on the 24-bit bitmap `sample24`. -/
theorem ConvertTo16Bits555_format_witness :
    FreeImage_ConvertTo16Bits555 ColorOrder.bgr true sample24 =
      some ⟨some sample24Converted, [HeapEvent.allocate true]⟩ ∧
    sample24Converted.bpp = 16 ∧
    (¬ (sample24.bpp = 16 ∧
        ¬ (sample24.red_mask = FI16_565_RED_MASK ∧ sample24.green_mask = FI16_565_GREEN_MASK ∧
          sample24.blue_mask = FI16_565_BLUE_MASK)) →
      sample24Converted.red_mask = FI16_555_RED_MASK ∧
        sample24Converted.green_mask = FI16_555_GREEN_MASK ∧
        sample24Converted.blue_mask = FI16_555_BLUE_MASK) ∧
    (sample24.bpp = 16 →
      ¬ (sample24.red_mask = FI16_565_RED_MASK ∧ sample24.green_mask = FI16_565_GREEN_MASK ∧
        sample24.blue_mask = FI16_565_BLUE_MASK) →
      sample24Converted = sample24 ∧ sample24Converted.red_mask = sample24.red_mask ∧
        sample24Converted.green_mask = sample24.green_mask ∧
        sample24Converted.blue_mask = sample24.blue_mask) :=
  ⟨by decide, ConvertTo16Bits555_format ColorOrder.bgr true sample24
    ⟨some sample24Converted, [HeapEvent.allocate true]⟩ sample24Converted (by decide) rfl⟩

/-- Below `2 ^ 31` the conversion of an `unsigned` value to `int` keeps the value. -/
theorem intOfUnsigned_of_lt (u : Nat) (h : u < 2 ^ 31) : intOfUnsigned u = (u : Int) := by
  unfold intOfUnsigned
  have e : u % 4294967296 = u := Nat.mod_eq_of_lt (by omega)
  rw [e, if_pos (by omega)]

theorem rescale5 (v : Nat) (h : v ≤ 31) : v * 0xFF / 0x1F / 8 = v := by omega

theorem rescale6 (g : Nat) (h : g ≤ 63) : g * 0xFF / 0x3F / 8 = g / 2 := by omega

/-- The 555 fields of the word the 565 converter computes from the source word `p`,
in terms of the 565 channels of `p`. -/
theorem Convert565Word_fields (p : Nat) :
    Convert565Word p / 1024 % 32 = p / 2048 % 32 ∧
    Convert565Word p / 32 % 32 = (p / 32 % 64) / 2 ∧
    Convert565Word p % 32 = p % 32 := by
  have hb := mask_shift p FI16_565_BLUE_MASK FI16_565_BLUE_SHIFT 5 (by decide)
  have hg := mask_shift p FI16_565_GREEN_MASK FI16_565_GREEN_SHIFT 6 (by decide)
  have hr := mask_shift p FI16_565_RED_MASK FI16_565_RED_SHIFT 5 (by decide)
  have hb' := blue565_le p
  have hg' := green565_le p
  have hr' := red565_le p
  have e0 : p / 2 ^ FI16_565_BLUE_SHIFT % 2 ^ 5 = p % 32 := by simp [FI16_565_BLUE_SHIFT]
  have e5 : p / 2 ^ FI16_565_GREEN_SHIFT % 2 ^ 6 = p / 32 % 64 := by
    simp [FI16_565_GREEN_SHIFT]
  have e11 : p / 2 ^ FI16_565_RED_SHIFT % 2 ^ 5 = p / 2048 % 32 := by
    simp [FI16_565_RED_SHIFT]
  unfold Convert565Word
  rw [RGB555_eq _ _ _ (by have := channel5_le _ hb'; omega)
    (by have := channel6_le _ hg'; omega)]
  rw [rescale5 _ hb', rescale6 _ hg', rescale5 _ hr', hb, hg, hr, e0, e5, e11]
  omega

theorem and_0x1F (x : Nat) : x &&& 0x1F = x % 32 := Nat.and_pow_two_sub_one_eq_mod x 5

/-- C18: the 565 converter carries red and blue over exactly.  For every source
word `p` the word `w` it computes has `(w >> 10) & 0x1F == (p >> 11) & 0x1F` and
`w & 0x1F == p & 0x1F`; every 5-bit value `v` has `((v * 255) / 31) >> 3 == v`;
and on buffers that are large enough the word written at every column below the
width has the red and blue fields of the source word at that column. -/
theorem ConvertLine565_keeps_red_blue :
    (∀ p : Nat, (Convert565Word p >>> 10) &&& 0x1F = (p >>> 11) &&& 0x1F ∧
      Convert565Word p &&& 0x1F = p &&& 0x1F) ∧
    (∀ v : Nat, v ≤ 31 → ((v * 255) / 31) >>> 3 = v) ∧
    (∀ (target src_bits : List Nat) (width_in_pixels : Int),
      width_in_pixels.toNat ≤ target.length → width_in_pixels.toNat ≤ src_bits.length →
      ∃ out, FreeImage_ConvertLine16_565_To16_555 target src_bits width_in_pixels = some out ∧
        ∀ col : Nat, (col : Int) < width_in_pixels →
          ∃ p w, src_bits[col]? = some p ∧ out[col]? = some w ∧
            (w >>> 10) &&& 0x1F = (p >>> 11) &&& 0x1F ∧ w &&& 0x1F = p &&& 0x1F) := by
  have key : ∀ p : Nat, (Convert565Word p >>> 10) &&& 0x1F = (p >>> 11) &&& 0x1F ∧
      Convert565Word p &&& 0x1F = p &&& 0x1F := by
    intro p
    obtain ⟨hr, _, hb⟩ := Convert565Word_fields p
    simp only [and_0x1F, Nat.shiftRight_eq_div_pow]
    norm_num
    exact ⟨hr, hb⟩
  refine ⟨key, ?_, ?_⟩
  · intro v hv
    rw [Nat.shiftRight_eq_div_pow]
    norm_num
    omega
  · intro target src_bits width_in_pixels hT hS
    obtain ⟨out, hout, _, hin, _⟩ := ConvertLine565_spec target src_bits width_in_pixels hT hS
    refine ⟨out, hout, ?_⟩
    intro col hcol
    obtain ⟨p, hp, ho⟩ := hin col hcol
    exact ⟨p, _, hp, ho, key p⟩

/-- C15, as the code has it: the rescaled green channel of the 565 converter is
always the 6-bit green value shifted right by one.  Every `g` in 0..63 has
`((g * 255) / 63) >> 3 == g >> 1`; the green field of the word computed from any
source word `p` is `((p & 0x07E0) >> 5) >> 1`; and so is the green field of every
word the converter writes. -/
theorem green565_is_shift :
    (∀ g : Nat, g ≤ 63 → ((g * 255) / 63) >>> 3 = g >>> 1) ∧
    (∀ p : Nat, (Convert565Word p &&& FI16_555_GREEN_MASK) >>> FI16_555_GREEN_SHIFT =
      ((p &&& FI16_565_GREEN_MASK) >>> FI16_565_GREEN_SHIFT) >>> 1) ∧
    (∀ (target src_bits : List Nat) (width_in_pixels : Int),
      width_in_pixels.toNat ≤ target.length → width_in_pixels.toNat ≤ src_bits.length →
      ∃ out, FreeImage_ConvertLine16_565_To16_555 target src_bits width_in_pixels = some out ∧
        ∀ col : Nat, (col : Int) < width_in_pixels →
          ∃ p w, src_bits[col]? = some p ∧ out[col]? = some w ∧
            (w &&& FI16_555_GREEN_MASK) >>> FI16_555_GREEN_SHIFT =
              ((p &&& FI16_565_GREEN_MASK) >>> FI16_565_GREEN_SHIFT) >>> 1) := by
  have key : ∀ p : Nat, (Convert565Word p &&& FI16_555_GREEN_MASK) >>> FI16_555_GREEN_SHIFT =
      ((p &&& FI16_565_GREEN_MASK) >>> FI16_565_GREEN_SHIFT) >>> 1 := by
    intro p
    obtain ⟨_, hg, _⟩ := Convert565Word_fields p
    rw [mask_shift _ _ _ 5 (by decide), mask_shift _ _ _ 6 (by decide),
      Nat.shiftRight_eq_div_pow]
    simp only [FI16_555_GREEN_SHIFT, FI16_565_GREEN_SHIFT]
    norm_num
    exact hg
  refine ⟨?_, key, ?_⟩
  · intro g hg
    rw [Nat.shiftRight_eq_div_pow, Nat.shiftRight_eq_div_pow]
    norm_num
    omega
  · intro target src_bits width_in_pixels hT hS
    obtain ⟨out, hout, _, hin, _⟩ := ConvertLine565_spec target src_bits width_in_pixels hT hS
    refine ⟨out, hout, ?_⟩
    intro col hcol
    obtain ⟨p, hp, ho⟩ := hin col hcol
    exact ⟨p, _, hp, ho, key p⟩

/-- C15, as stated, fails: no 6-bit green value `g` has `((g * 255) / 63) >> 3`
different from `g >> 1`, and no source word gives a green field different from
its 6-bit green value shifted right by one. -/
theorem green565_is_shift_counterexample :
    (¬ ∃ g : Nat, g ≤ 63 ∧ ((g * 255) / 63) >>> 3 ≠ g >>> 1) ∧
    (¬ ∃ p : Nat, (Convert565Word p &&& FI16_555_GREEN_MASK) >>> FI16_555_GREEN_SHIFT ≠
      ((p &&& FI16_565_GREEN_MASK) >>> FI16_565_GREEN_SHIFT) >>> 1) := by
  constructor
  · rintro ⟨g, hg, hne⟩
    apply hne
    rw [Nat.shiftRight_eq_div_pow, Nat.shiftRight_eq_div_pow]
    norm_num
    omega
  · rintro ⟨p, hne⟩
    apply hne
    obtain ⟨_, hg, _⟩ := Convert565Word_fields p
    rw [mask_shift _ _ _ 5 (by decide), mask_shift _ _ _ 6 (by decide),
      Nat.shiftRight_eq_div_pow]
    simp only [FI16_555_GREEN_SHIFT, FI16_565_GREEN_SHIFT]
    norm_num
    exact hg

/-! ## Palette indices and totality of the converters -/

theorem paletteWord_isSome (palette : List FIRGBA8) (index : Nat)
    (h : index < palette.length) : (paletteWord palette index).isSome := by
  simp [paletteWord, List.getElem?_eq_getElem h]

theorem ConvertLine4Index_le (source : List Nat) (lonibble : Bool) (x index x' : Nat)
    (h : ConvertLine4Index source lonibble x = some (index, x')) : index ≤ 15 := by
  unfold ConvertLine4Index at h
  split at h
  · split at h
    · simp at h
    · next byte _ =>
      simp only [Option.some.injEq, Prod.mk.injEq] at h
      obtain ⟨rfl, _⟩ := h
      exact Nat.and_le_right
  · split at h
    · simp at h
    · next byte _ =>
      simp only [Option.some.injEq, Prod.mk.injEq] at h
      obtain ⟨rfl, _⟩ := h
      unfold HINIBBLE
      rw [mask_shift _ _ _ 4 (by decide)]
      have := Nat.mod_lt (byte / 2 ^ 4) (show 0 < 2 ^ 4 by norm_num)
      omega

theorem nibble_le (byte : Nat) : HINIBBLE byte >>> 4 ≤ 15 ∧ LOWNIBBLE byte ≤ 15 := by
  constructor
  · unfold HINIBBLE
    rw [mask_shift _ _ _ 4 (by decide)]
    have := Nat.mod_lt (byte / 2 ^ 4) (show 0 < 2 ^ 4 by norm_num)
    omega
  · exact Nat.and_le_right

theorem line1Word_isSome (source : List Nat) (palette : List FIRGBA8) (col : Nat)
    (hS : col / 8 < source.length) (hP : 2 ≤ palette.length) :
    (line1Word source palette col).isSome := by
  unfold line1Word
  cases hi : ConvertLine1Index source col with
  | none =>
    rw [ConvertLine1Index_eq, List.getElem?_eq_getElem hS] at hi
    simp at hi
  | some index =>
    have := ConvertLine1Index_le source col index hi
    exact paletteWord_isSome palette index (by omega)

theorem line4Word_isSome (source : List Nat) (palette : List FIRGBA8) (col : Nat)
    (hS : col / 2 < source.length) (hP : 16 ≤ palette.length) :
    (line4Word source palette col).isSome := by
  unfold line4Word
  rw [List.getElem?_eq_getElem hS]
  have := nibble_le source[col / 2]
  apply paletteWord_isSome
  split <;> omega

theorem line8Word_isSome (source : List Nat) (palette : List FIRGBA8) (col : Nat)
    (hS : col < source.length) (hB : Bytes source) (hP : 256 ≤ palette.length) :
    (line8Word source palette col).isSome := by
  unfold line8Word
  rw [List.getElem?_eq_getElem hS]
  have := hB _ (List.getElem_mem hS)
  exact paletteWord_isSome palette _ (by omega)

theorem line565Word_isSome (src_bits : List Nat) (col : Nat) (hS : col < src_bits.length) :
    (line565Word src_bits col).isSome := by
  unfold line565Word
  rw [List.getElem?_eq_getElem hS]
  rfl

theorem directWord_isSome (o : ColorOrder) (source : List Nat) (pos : Nat)
    (hb : pos + o.FI_RGBA_BLUE < source.length) (hg : pos + o.FI_RGBA_GREEN < source.length)
    (hr : pos + o.FI_RGBA_RED < source.length) : (directWord o source pos).isSome := by
  unfold directWord
  rw [List.getElem?_eq_getElem hb, List.getElem?_eq_getElem hg, List.getElem?_eq_getElem hr]
  rfl

/-- The 1-bit converter returns a row when the target holds `width_in_pixels`
words, the source `ceil(width_in_pixels / 8)` bytes and the palette 2 entries. -/
theorem ConvertLine1_total (target source : List Nat) (width_in_pixels : Int)
    (palette : List FIRGBA8) (hT : width_in_pixels.toNat ≤ target.length)
    (hS : (width_in_pixels.toNat + 7) / 8 ≤ source.length) (hP : 2 ≤ palette.length) :
    ∃ out, FreeImage_ConvertLine1To16_555 target source width_in_pixels palette = some out :=
  (ConvertLine1_run target source width_in_pixels palette).2 hT (fun col hcol =>
    line1Word_isSome source palette col (by have := Int.lt_toNat.2 hcol; omega) hP)

/-- The 4-bit converter returns a row when the target holds `width_in_pixels`
words, the source `ceil(width_in_pixels / 2)` bytes and the palette 16 entries. -/
theorem ConvertLine4_total (target source : List Nat) (width_in_pixels : Int)
    (palette : List FIRGBA8) (hT : width_in_pixels.toNat ≤ target.length)
    (hS : (width_in_pixels.toNat + 1) / 2 ≤ source.length) (hP : 16 ≤ palette.length) :
    ∃ out, FreeImage_ConvertLine4To16_555 target source width_in_pixels palette = some out :=
  (ConvertLine4_run target source width_in_pixels palette).2 hT (fun col hcol =>
    line4Word_isSome source palette col (by have := Int.lt_toNat.2 hcol; omega) hP)

/-- The 8-bit converter returns a row when the target holds `width_in_pixels`
words, the source `width_in_pixels` bytes and the palette 256 entries. -/
theorem ConvertLine8_total (target source : List Nat) (width_in_pixels : Int)
    (palette : List FIRGBA8) (hT : width_in_pixels.toNat ≤ target.length)
    (hS : width_in_pixels.toNat ≤ source.length) (hB : Bytes source)
    (hP : 256 ≤ palette.length) :
    ∃ out, FreeImage_ConvertLine8To16_555 target source width_in_pixels palette = some out :=
  (ConvertLine8_run target source width_in_pixels palette).2 hT (fun col hcol =>
    line8Word_isSome source palette col (by have := Int.lt_toNat.2 hcol; omega) hB hP)

/-- The 565 converter returns a row when target and source hold `width_in_pixels`
words. -/
theorem ConvertLine565_total (target src_bits : List Nat) (width_in_pixels : Int)
    (hT : width_in_pixels.toNat ≤ target.length)
    (hS : width_in_pixels.toNat ≤ src_bits.length) :
    ∃ out, FreeImage_ConvertLine16_565_To16_555 target src_bits width_in_pixels = some out :=
  (ConvertLine565_run target src_bits width_in_pixels).2 hT (fun col hcol =>
    line565Word_isSome src_bits col (by have := Int.lt_toNat.2 hcol; omega))

/-- The 24-bit converter returns a row when the target holds `width_in_pixels`
words and the source `3 * width_in_pixels` bytes. -/
theorem ConvertLine24_total (o : ColorOrder) (ho : o.InPixel) (target source : List Nat)
    (width_in_pixels : Int) (hT : width_in_pixels.toNat ≤ target.length)
    (hS : 3 * width_in_pixels.toNat ≤ source.length) :
    ∃ out, FreeImage_ConvertLine24To16_555 o target source width_in_pixels = some out :=
  (ConvertLine24_run o target source width_in_pixels).2 hT (fun col hcol => by
    have := Int.lt_toNat.2 hcol
    obtain ⟨h1, h2, h3⟩ := ho
    exact directWord_isSome o source (3 * col) (by omega) (by omega) (by omega))

/-- The 32-bit converter returns a row when the target holds `width_in_pixels`
words and the source `4 * width_in_pixels` bytes. -/
theorem ConvertLine32_total (o : ColorOrder) (ho : o.InPixel) (target source : List Nat)
    (width_in_pixels : Int) (hT : width_in_pixels.toNat ≤ target.length)
    (hS : 4 * width_in_pixels.toNat ≤ source.length) :
    ∃ out, FreeImage_ConvertLine32To16_555 o target source width_in_pixels = some out :=
  (ConvertLine32_run o target source width_in_pixels).2 hT (fun col hcol => by
    have := Int.lt_toNat.2 hcol
    obtain ⟨h1, h2, h3⟩ := ho
    exact directWord_isSome o source (4 * col) (by omega) (by omega) (by omega))

/-! ## The 1-bit bit order on the byte `0xAA` -/

/-- C14, as the code has it: with the palette `{A, B}` (`A` entry 0, `B` entry 1)
the byte `0xAA`, whose bits are 1, 0, 1, 0, ... from the most significant bit,
is converted at width 8 to `packed(B), packed(A), packed(B), packed(A),
packed(B), packed(A), packed(B), packed(A)` in that order: a set bit selects
entry 1. -/
theorem ConvertLine1_alternating (target : List Nat) (A B : FIRGBA8)
    (hT : 8 ≤ target.length) (hA : A.Valid) (hB : B.Valid) :
    ∃ out, FreeImage_ConvertLine1To16_555 target [0xAA] 8 [A, B] = some out ∧
      out.take 8 = [packed B, packed A, packed B, packed A, packed B, packed A, packed B,
        packed A] := by
  have hV : ValidPalette [A, B] := by
    intro e he
    simp only [List.mem_cons, List.mem_singleton, List.not_mem_nil, or_false] at he
    rcases he with rfl | rfl
    · exact hA
    · exact hB
  obtain ⟨out, hout, hl, hin, _⟩ :=
    ConvertLine1_spec target [0xAA] 8 [A, B] (by simpa using hT) (by simp) (by simp) hV
  refine ⟨out, hout, ?_⟩
  have hw : ∀ col : Nat, col < 8 →
      out[col]? = some (if col % 2 = 0 then packed B else packed A) := by
    intro col hcol
    obtain ⟨byte, e, hb, he, ho⟩ := hin col (by exact_mod_cast hcol)
    rw [ho]
    interval_cases col <;> simp at hb <;> subst hb <;> simp at he <;> subst he <;> rfl
  apply List.ext_getElem?
  intro i
  by_cases hi : i < 8
  · rw [List.getElem?_take_of_lt hi, hw i hi]
    interval_cases i <;> rfl
  · rw [List.getElem?_eq_none (by simp; omega), List.getElem?_eq_none (by simp; omega)]

/-- C14, as stated, fails: with `A = (red 8, green 16, blue 24)` as entry 0 and
white `B` as entry 1 the byte `0xAA` is converted to `packed(B), packed(A), ...`,
which is not `packed(A), packed(B), ...`. -/
theorem ConvertLine1_alternating_counterexample :
    FreeImage_ConvertLine1To16_555 (List.replicate 8 0) [0xAA] 8
        [⟨8, 16, 24, 0⟩, ⟨255, 255, 255, 0⟩] =
      some [packed ⟨255, 255, 255, 0⟩, packed ⟨8, 16, 24, 0⟩, packed ⟨255, 255, 255, 0⟩,
        packed ⟨8, 16, 24, 0⟩, packed ⟨255, 255, 255, 0⟩, packed ⟨8, 16, 24, 0⟩,
        packed ⟨255, 255, 255, 0⟩, packed ⟨8, 16, 24, 0⟩] ∧
    FreeImage_ConvertLine1To16_555 (List.replicate 8 0) [0xAA] 8
        [⟨8, 16, 24, 0⟩, ⟨255, 255, 255, 0⟩] ≠
      some [packed ⟨8, 16, 24, 0⟩, packed ⟨255, 255, 255, 0⟩, packed ⟨8, 16, 24, 0⟩,
        packed ⟨255, 255, 255, 0⟩, packed ⟨8, 16, 24, 0⟩, packed ⟨255, 255, 255, 0⟩,
        packed ⟨8, 16, 24, 0⟩, packed ⟨255, 255, 255, 0⟩] := by
  decide

/-- C14 (amended) on a target of ten words with the dark and white entries. -/
theorem ConvertLine1_alternating_witness :
    ∃ out, FreeImage_ConvertLine1To16_555 (List.replicate 10 7) [0xAA] 8
        [⟨8, 16, 24, 0⟩, ⟨255, 255, 255, 0⟩] = some out ∧
      out.take 8 = [packed ⟨255, 255, 255, 0⟩, packed ⟨8, 16, 24, 0⟩,
        packed ⟨255, 255, 255, 0⟩, packed ⟨8, 16, 24, 0⟩, packed ⟨255, 255, 255, 0⟩,
        packed ⟨8, 16, 24, 0⟩, packed ⟨255, 255, 255, 0⟩, packed ⟨8, 16, 24, 0⟩] :=
  ConvertLine1_alternating (List.replicate 10 7) ⟨8, 16, 24, 0⟩ ⟨255, 255, 255, 0⟩
    (by decide) (by decide) (by decide)

/-- C16: the palette indices stay within the bounds of the bit depth.  The index of
the 1-bit converter is 0 or 1, that of the 4-bit converter is at most 15, and
that of the 8-bit converter (a source byte) is at most 255, at every column of
every source row; so with a palette of 2, 16 or 256 entries the palette lookup
succeeds, and on rows that are large enough the three converters return a row. -/
theorem palette_index_in_bounds (source : List Nat) (hB : Bytes source) :
    (∀ cols index, ConvertLine1Index source cols = some index → index = 0 ∨ index = 1) ∧
    (∀ lonibble x index x', ConvertLine4Index source lonibble x = some (index, x') →
      index ≤ 15) ∧
    (∀ cols index : Nat, source[cols]? = some index → index ≤ 255) ∧
    (∀ (palette : List FIRGBA8) cols index, palette.length = 2 →
      ConvertLine1Index source cols = some index → ∃ e, palette[index]? = some e ∧
        paletteWord palette index = some (RGB555 e.blue e.green e.red)) ∧
    (∀ (palette : List FIRGBA8) lonibble x index x', palette.length = 16 →
      ConvertLine4Index source lonibble x = some (index, x') → ∃ e, palette[index]? = some e ∧
        paletteWord palette index = some (RGB555 e.blue e.green e.red)) ∧
    (∀ (palette : List FIRGBA8) (cols index : Nat), palette.length = 256 →
      source[cols]? = some index → ∃ e, palette[index]? = some e ∧
        paletteWord palette index = some (RGB555 e.blue e.green e.red)) ∧
    (∀ (target : List Nat) (width_in_pixels : Int) (palette : List FIRGBA8),
      width_in_pixels.toNat ≤ target.length →
      (palette.length = 2 → (width_in_pixels.toNat + 7) / 8 ≤ source.length →
        ∃ out, FreeImage_ConvertLine1To16_555 target source width_in_pixels palette =
          some out) ∧
      (palette.length = 16 → (width_in_pixels.toNat + 1) / 2 ≤ source.length →
        ∃ out, FreeImage_ConvertLine4To16_555 target source width_in_pixels palette =
          some out) ∧
      (palette.length = 256 → width_in_pixels.toNat ≤ source.length →
        ∃ out, FreeImage_ConvertLine8To16_555 target source width_in_pixels palette =
          some out)) := by
  have look : ∀ (palette : List FIRGBA8) (index : Nat), index < palette.length →
      ∃ e, palette[index]? = some e ∧
        paletteWord palette index = some (RGB555 e.blue e.green e.red) := by
    intro palette index h
    exact ⟨palette[index], List.getElem?_eq_getElem h,
      by simp [paletteWord, List.getElem?_eq_getElem h]⟩
  have h8 : ∀ cols index : Nat, source[cols]? = some index → index ≤ 255 := by
    intro cols index h
    have := hB _ (List.getElem?_mem h)
    omega
  refine ⟨?_, ?_, h8, ?_, ?_, ?_, ?_⟩
  · intro cols index h
    have := ConvertLine1Index_le source cols index h
    omega
  · intro lonibble x index x' h
    exact ConvertLine4Index_le source lonibble x index x' h
  · intro palette cols index hP h
    have := ConvertLine1Index_le source cols index h
    exact look palette index (by omega)
  · intro palette lonibble x index x' hP h
    have := ConvertLine4Index_le source lonibble x index x' h
    exact look palette index (by omega)
  · intro palette cols index hP h
    have := h8 cols index h
    exact look palette index (by omega)
  · intro target width_in_pixels palette hT
    exact ⟨fun hP hS => ConvertLine1_total target source width_in_pixels palette hT hS
        (by omega),
      fun hP hS => ConvertLine4_total target source width_in_pixels palette hT hS (by omega),
      fun hP hS => ConvertLine8_total target source width_in_pixels palette hT hS hB
        (by omega)⟩

/-- C16 on the row `[0x3F, 0xA5]`: the indices read at the first columns are
1, 3, 15 and 0x3F. -/
theorem palette_index_in_bounds_witness :
    (ConvertLine1Index [0x3F, 0xA5] 2 = some 1 ∧ (1 = 0 ∨ 1 = 1)) ∧
    (ConvertLine4Index [0x3F, 0xA5] false 0 = some (3, 0) ∧ 3 ≤ 15) ∧
    (ConvertLine4Index [0x3F, 0xA5] true 0 = some (15, 1) ∧ 15 ≤ 15) ∧
    ([0x3F, 0xA5][0]? = some 0x3F ∧ 0x3F ≤ 255) :=
  have T := palette_index_in_bounds [0x3F, 0xA5] (by decide)
  ⟨⟨by decide, T.1 2 1 (by decide)⟩, ⟨by decide, T.2.1 false 0 3 0 (by decide)⟩,
    ⟨by decide, T.2.1 true 0 15 1 (by decide)⟩, ⟨by decide, T.2.2.1 0 0x3F (by decide)⟩⟩

/-! ## The frame of the converters -/

theorem writesExactly_of_run (conv : Option (List Nat)) (px : Nat → Option Nat)
    (target : List Nat) (width_in_pixels : Int)
    (hsound : ∀ out, conv = some out →
      out.length = target.length ∧
      (∀ col : Nat, (col : Int) < width_in_pixels → col < target.length ∧
        ∃ v, px col = some v ∧ out[col]? = some (v % 65536)) ∧
      (∀ j, width_in_pixels.toNat ≤ j → out[j]? = target[j]?)) :
    ∀ out, conv = some out → WritesExactly px width_in_pixels target out := by
  intro out hout
  obtain ⟨h1, h2, h3⟩ := hsound out hout
  exact ⟨h2, h1, h3⟩

theorem lineLoop_nonpos {α : Type} (step : Nat → α → Option (Nat × α)) (a : α)
    (target : List Nat) (width_in_pixels : Int) (h : width_in_pixels ≤ 0) :
    lineLoop step width_in_pixels.toNat 0 a target = some target := by
  rw [Int.toNat_eq_zero.2 h]
  rfl

/-- C17: each of the six scanline converters writes exactly the first
`width_in_pixels` words of the target: the returned row has the length of the
target, holds the converted word at every column below the width, and agrees
with the target at every position from the width on.  For `width_in_pixels <= 0`
the target is returned unchanged.  On buffers that are large enough every
converter returns a row.  (Source row and palette are arguments that the
embedded converters only read.) -/
theorem converters_frame (o : ColorOrder) (target source src_bits : List Nat)
    (width_in_pixels : Int) (palette : List FIRGBA8) :
    ((∀ out, FreeImage_ConvertLine1To16_555 target source width_in_pixels palette = some out →
        WritesExactly (line1Word source palette) width_in_pixels target out) ∧
      (∀ out, FreeImage_ConvertLine4To16_555 target source width_in_pixels palette = some out →
        WritesExactly (line4Word source palette) width_in_pixels target out) ∧
      (∀ out, FreeImage_ConvertLine8To16_555 target source width_in_pixels palette = some out →
        WritesExactly (line8Word source palette) width_in_pixels target out) ∧
      (∀ out, FreeImage_ConvertLine16_565_To16_555 target src_bits width_in_pixels = some out →
        WritesExactly (line565Word src_bits) width_in_pixels target out) ∧
      (∀ out, FreeImage_ConvertLine24To16_555 o target source width_in_pixels = some out →
        WritesExactly (fun col => directWord o source (3 * col)) width_in_pixels target out) ∧
      (∀ out, FreeImage_ConvertLine32To16_555 o target source width_in_pixels = some out →
        WritesExactly (fun col => directWord o source (4 * col)) width_in_pixels target
          out)) ∧
    (width_in_pixels ≤ 0 →
      FreeImage_ConvertLine1To16_555 target source width_in_pixels palette = some target ∧
      FreeImage_ConvertLine4To16_555 target source width_in_pixels palette = some target ∧
      FreeImage_ConvertLine8To16_555 target source width_in_pixels palette = some target ∧
      FreeImage_ConvertLine16_565_To16_555 target src_bits width_in_pixels = some target ∧
      FreeImage_ConvertLine24To16_555 o target source width_in_pixels = some target ∧
      FreeImage_ConvertLine32To16_555 o target source width_in_pixels = some target) ∧
    (o.InPixel → Bytes source → width_in_pixels.toNat ≤ target.length →
      4 * width_in_pixels.toNat ≤ source.length → width_in_pixels.toNat ≤ src_bits.length →
      256 ≤ palette.length →
      (∃ out, FreeImage_ConvertLine1To16_555 target source width_in_pixels palette = some out) ∧
      (∃ out, FreeImage_ConvertLine4To16_555 target source width_in_pixels palette = some out) ∧
      (∃ out, FreeImage_ConvertLine8To16_555 target source width_in_pixels palette = some out) ∧
      (∃ out, FreeImage_ConvertLine16_565_To16_555 target src_bits width_in_pixels =
        some out) ∧
      (∃ out, FreeImage_ConvertLine24To16_555 o target source width_in_pixels = some out) ∧
      (∃ out, FreeImage_ConvertLine32To16_555 o target source width_in_pixels = some out)) := by
  refine ⟨⟨?_, ?_, ?_, ?_, ?_, ?_⟩, ?_, ?_⟩
  · exact writesExactly_of_run _ _ target width_in_pixels
      (ConvertLine1_run target source width_in_pixels palette).1
  · exact writesExactly_of_run _ _ target width_in_pixels
      (ConvertLine4_run target source width_in_pixels palette).1
  · exact writesExactly_of_run _ _ target width_in_pixels
      (ConvertLine8_run target source width_in_pixels palette).1
  · exact writesExactly_of_run _ _ target width_in_pixels
      (ConvertLine565_run target src_bits width_in_pixels).1
  · exact writesExactly_of_run _ _ target width_in_pixels
      (ConvertLine24_run o target source width_in_pixels).1
  · exact writesExactly_of_run _ _ target width_in_pixels
      (ConvertLine32_run o target source width_in_pixels).1
  · intro h
    exact ⟨lineLoop_nonpos _ _ target width_in_pixels h,
      lineLoop_nonpos _ _ target width_in_pixels h,
      lineLoop_nonpos _ _ target width_in_pixels h,
      lineLoop_nonpos _ _ target width_in_pixels h,
      lineLoop_nonpos _ _ target width_in_pixels h,
      lineLoop_nonpos _ _ target width_in_pixels h⟩
  · intro ho hB hT hS hS' hP
    exact ⟨ConvertLine1_total target source width_in_pixels palette hT (by omega) (by omega),
      ConvertLine4_total target source width_in_pixels palette hT (by omega) (by omega),
      ConvertLine8_total target source width_in_pixels palette hT (by omega) hB hP,
      ConvertLine565_total target src_bits width_in_pixels hT hS',
      ConvertLine24_total o ho target source width_in_pixels hT (by omega),
      ConvertLine32_total o ho target source width_in_pixels hT hS⟩

/-- C17 on a target of four words `7` and width 2: the 24-bit converter writes the
first two words and leaves the last two, and at width `-1` it leaves all four. -/
theorem converters_frame_witness :
    FreeImage_ConvertLine24To16_555 ColorOrder.bgr [7, 7, 7, 7] [50, 100, 200, 1, 2, 3] 2 =
      some [0x6586, 0, 7, 7] ∧
    WritesExactly (fun col => directWord ColorOrder.bgr [50, 100, 200, 1, 2, 3] (3 * col)) 2
      [7, 7, 7, 7] [0x6586, 0, 7, 7] ∧
    FreeImage_ConvertLine24To16_555 ColorOrder.bgr [7, 7, 7, 7] [50, 100, 200, 1, 2, 3] (-1) =
      some [7, 7, 7, 7] :=
  ⟨by decide,
    (converters_frame ColorOrder.bgr [7, 7, 7, 7] [50, 100, 200, 1, 2, 3] [] 2 []).1.2.2.2.2.1 _
      (by decide),
    ((converters_frame ColorOrder.bgr [7, 7, 7, 7] [50, 100, 200, 1, 2, 3] [] (-1) []).2.1
      (by decide)).2.2.2.2.1⟩

/-! ## Source reads -/

/-- Two converter runs on the same target whose stored words agree below the width
return the same row. -/
theorem run_agree (conv₁ conv₂ : Option (List Nat)) (px₁ px₂ : Nat → Option Nat)
    (target : List Nat) (width_in_pixels : Int)
    (h₁ : ∀ out, conv₁ = some out →
      out.length = target.length ∧
      (∀ col : Nat, (col : Int) < width_in_pixels → col < target.length ∧
        ∃ v, px₁ col = some v ∧ out[col]? = some (v % 65536)) ∧
      (∀ j, width_in_pixels.toNat ≤ j → out[j]? = target[j]?))
    (h₂ : ∀ out, conv₂ = some out →
      out.length = target.length ∧
      (∀ col : Nat, (col : Int) < width_in_pixels → col < target.length ∧
        ∃ v, px₂ col = some v ∧ out[col]? = some (v % 65536)) ∧
      (∀ j, width_in_pixels.toNat ≤ j → out[j]? = target[j]?))
    (hpx : ∀ col : Nat, (col : Int) < width_in_pixels → px₁ col = px₂ col)
    (out₁ out₂ : List Nat) (e₁ : conv₁ = some out₁) (e₂ : conv₂ = some out₂) :
    out₁ = out₂ := by
  obtain ⟨_, a₁, b₁⟩ := h₁ out₁ e₁
  obtain ⟨_, a₂, b₂⟩ := h₂ out₂ e₂
  apply List.ext_getElem?
  intro j
  by_cases hj : j < width_in_pixels.toNat
  · have hj' : (j : Int) < width_in_pixels := Int.lt_toNat.1 hj
    obtain ⟨_, v₁, p₁, o₁⟩ := a₁ j hj'
    obtain ⟨_, v₂, p₂, o₂⟩ := a₂ j hj'
    rw [hpx j hj', p₂] at p₁
    simp only [Option.some.injEq] at p₁
    rw [o₁, o₂, p₁]
  · rw [b₁ j (by omega), b₂ j (by omega)]

theorem minRowBytes_eq (w : Nat) :
    minRowBytes 1 w = (w + 7) / 8 ∧ minRowBytes 4 w = (w + 1) / 2 ∧ minRowBytes 8 w = w ∧
      minRowBytes 16 w = 2 * w ∧ minRowBytes 24 w = 3 * w ∧ minRowBytes 32 w = 4 * w := by
  unfold minRowBytes
  refine ⟨?_, ?_, ?_, ?_, ?_, ?_⟩ <;> omega

theorem line1Word_take (source : List Nat) (palette : List FIRGBA8) (m col : Nat)
    (h : col / 8 < m) : line1Word (source.take m) palette col = line1Word source palette col := by
  unfold line1Word
  rw [ConvertLine1Index_eq, ConvertLine1Index_eq, List.getElem?_take_of_lt h]

theorem line4Word_take (source : List Nat) (palette : List FIRGBA8) (m col : Nat)
    (h : col / 2 < m) : line4Word (source.take m) palette col = line4Word source palette col := by
  unfold line4Word
  rw [List.getElem?_take_of_lt h]

theorem line8Word_take (source : List Nat) (palette : List FIRGBA8) (m col : Nat)
    (h : col < m) : line8Word (source.take m) palette col = line8Word source palette col := by
  unfold line8Word
  rw [List.getElem?_take_of_lt h]

theorem line565Word_take (src_bits : List Nat) (m col : Nat) (h : col < m) :
    line565Word (src_bits.take m) col = line565Word src_bits col := by
  unfold line565Word
  rw [List.getElem?_take_of_lt h]

theorem directWord_take (o : ColorOrder) (ho : o.InPixel) (source : List Nat) (m pos : Nat)
    (h : pos + 3 ≤ m) : directWord o (source.take m) pos = directWord o source pos := by
  obtain ⟨h1, h2, h3⟩ := ho
  unfold directWord
  rw [List.getElem?_take_of_lt (show pos + o.FI_RGBA_BLUE < m by omega),
    List.getElem?_take_of_lt (show pos + o.FI_RGBA_GREEN < m by omega),
    List.getElem?_take_of_lt (show pos + o.FI_RGBA_RED < m by omega)]

theorem Bytes_take (source : List Nat) (m : Nat) (h : Bytes source) : Bytes (source.take m) :=
  fun v hv => h v (List.mem_of_mem_take hv)

/-- The low nibble of byte `w / 2` is not used by the 4-bit converter at an odd
width `w`: rows that agree everywhere else and in the high nibble of that byte
store the same words. -/
theorem line4Word_odd (source source' : List Nat) (palette : List FIRGBA8) (w col : Nat)
    (hodd : w % 2 = 1) (hcol : col < w)
    (hrest : ∀ i, i ≠ w / 2 → source'[i]? = source[i]?)
    (hlast : ∀ b b', source[w / 2]? = some b → source'[w / 2]? = some b' →
      HINIBBLE b' = HINIBBLE b)
    (hlen : source'.length = source.length) :
    line4Word source' palette col = line4Word source palette col := by
  unfold line4Word
  by_cases hi : col / 2 = w / 2
  · have hc : col % 2 = 0 := by omega
    by_cases hs : col / 2 < source.length
    · have hs' : col / 2 < source'.length := by omega
      have e := hlast source[col / 2] source'[col / 2]
        (by rw [← hi]; exact List.getElem?_eq_getElem hs)
        (by rw [← hi]; exact List.getElem?_eq_getElem hs')
      rw [List.getElem?_eq_getElem hs, List.getElem?_eq_getElem hs']
      simp only [hc, if_true, e]
    · rw [List.getElem?_eq_none (by omega), List.getElem?_eq_none (by omega)]
  · rw [hrest _ hi]

/-- C19: source reads stay inside the minimal packed row.  With a target of at
least `width_in_pixels` words (and a palette of 2, 16 or 256 entries), every
converter returns a row on a source row of at least `ceil(width * bpp / 8)`
bytes, and returns the same row when the source is cut down to exactly that
many bytes: no byte at an index from `ceil(width / 8)`, `ceil(width / 2)`,
`width`, `2 * width` (that is, no 16-bit word at an index from `width`),
`3 * width`, `4 * width` on is read by the 1-, 4-, 8-bit, 565, 24- and 32-bit
converter.  At an odd width the 4-bit converter does not use the low nibble of
the last byte. -/
theorem source_reads_in_row (o : ColorOrder) (ho : o.InPixel) (target : List Nat)
    (width_in_pixels : Int) (hT : width_in_pixels.toNat ≤ target.length) :
    (∀ (source : List Nat) (palette : List FIRGBA8), 2 ≤ palette.length →
      minRowBytes 1 width_in_pixels.toNat ≤ source.length →
      ∃ out, FreeImage_ConvertLine1To16_555 target source width_in_pixels palette = some out ∧
        FreeImage_ConvertLine1To16_555 target
          (source.take (minRowBytes 1 width_in_pixels.toNat)) width_in_pixels palette =
          some out) ∧
    (∀ (source : List Nat) (palette : List FIRGBA8), 16 ≤ palette.length →
      minRowBytes 4 width_in_pixels.toNat ≤ source.length →
      ∃ out, FreeImage_ConvertLine4To16_555 target source width_in_pixels palette = some out ∧
        FreeImage_ConvertLine4To16_555 target
          (source.take (minRowBytes 4 width_in_pixels.toNat)) width_in_pixels palette =
          some out) ∧
    (∀ (source : List Nat) (palette : List FIRGBA8), Bytes source → 256 ≤ palette.length →
      minRowBytes 8 width_in_pixels.toNat ≤ source.length →
      ∃ out, FreeImage_ConvertLine8To16_555 target source width_in_pixels palette = some out ∧
        FreeImage_ConvertLine8To16_555 target
          (source.take (minRowBytes 8 width_in_pixels.toNat)) width_in_pixels palette =
          some out) ∧
    (∀ src_bits : List Nat, minRowBytes 16 width_in_pixels.toNat ≤ 2 * src_bits.length →
      ∃ out, FreeImage_ConvertLine16_565_To16_555 target src_bits width_in_pixels = some out ∧
        FreeImage_ConvertLine16_565_To16_555 target
          (src_bits.take (minRowBytes 16 width_in_pixels.toNat / 2)) width_in_pixels =
          some out) ∧
    (∀ source : List Nat, minRowBytes 24 width_in_pixels.toNat ≤ source.length →
      ∃ out, FreeImage_ConvertLine24To16_555 o target source width_in_pixels = some out ∧
        FreeImage_ConvertLine24To16_555 o target
          (source.take (minRowBytes 24 width_in_pixels.toNat)) width_in_pixels = some out) ∧
    (∀ source : List Nat, minRowBytes 32 width_in_pixels.toNat ≤ source.length →
      ∃ out, FreeImage_ConvertLine32To16_555 o target source width_in_pixels = some out ∧
        FreeImage_ConvertLine32To16_555 o target
          (source.take (minRowBytes 32 width_in_pixels.toNat)) width_in_pixels = some out) ∧
    (minRowBytes 1 width_in_pixels.toNat = (width_in_pixels.toNat + 7) / 8 ∧
      minRowBytes 4 width_in_pixels.toNat = (width_in_pixels.toNat + 1) / 2 ∧
      minRowBytes 8 width_in_pixels.toNat = width_in_pixels.toNat ∧
      minRowBytes 16 width_in_pixels.toNat = 2 * width_in_pixels.toNat ∧
      minRowBytes 24 width_in_pixels.toNat = 3 * width_in_pixels.toNat ∧
      minRowBytes 32 width_in_pixels.toNat = 4 * width_in_pixels.toNat) ∧
    (∀ (source source' : List Nat) (palette : List FIRGBA8), 16 ≤ palette.length →
      width_in_pixels.toNat % 2 = 1 →
      minRowBytes 4 width_in_pixels.toNat ≤ source.length → source'.length = source.length →
      (∀ i, i ≠ width_in_pixels.toNat / 2 → source'[i]? = source[i]?) →
      (∀ b b', source[width_in_pixels.toNat / 2]? = some b →
        source'[width_in_pixels.toNat / 2]? = some b' → HINIBBLE b' = HINIBBLE b) →
      ∃ out, FreeImage_ConvertLine4To16_555 target source width_in_pixels palette = some out ∧
        FreeImage_ConvertLine4To16_555 target source' width_in_pixels palette = some out) := by
  obtain ⟨m1, m4, m8, m16, m24, m32⟩ := minRowBytes_eq width_in_pixels.toNat
  refine ⟨?_, ?_, ?_, ?_, ?_, ?_, ⟨m1, m4, m8, m16, m24, m32⟩, ?_⟩
  · intro source palette hP hS
    obtain ⟨out, hout⟩ := ConvertLine1_total target source width_in_pixels palette hT
      (by omega) hP
    obtain ⟨out', hout'⟩ := ConvertLine1_total target
      (source.take (minRowBytes 1 width_in_pixels.toNat)) width_in_pixels palette hT
      (by simp only [List.length_take]; omega) hP
    have := run_agree _ _ _ _ target width_in_pixels
      (ConvertLine1_run target _ width_in_pixels palette).1
      (ConvertLine1_run target source width_in_pixels palette).1
      (fun col hcol => line1Word_take source palette _ col
        (by have := Int.lt_toNat.2 hcol; omega)) out' out hout' hout
    subst this
    exact ⟨_, hout, hout'⟩
  · intro source palette hP hS
    obtain ⟨out, hout⟩ := ConvertLine4_total target source width_in_pixels palette hT
      (by omega) hP
    obtain ⟨out', hout'⟩ := ConvertLine4_total target
      (source.take (minRowBytes 4 width_in_pixels.toNat)) width_in_pixels palette hT
      (by simp only [List.length_take]; omega) hP
    have := run_agree _ _ _ _ target width_in_pixels
      (ConvertLine4_run target _ width_in_pixels palette).1
      (ConvertLine4_run target source width_in_pixels palette).1
      (fun col hcol => line4Word_take source palette _ col
        (by have := Int.lt_toNat.2 hcol; omega)) out' out hout' hout
    subst this
    exact ⟨_, hout, hout'⟩
  · intro source palette hB hP hS
    obtain ⟨out, hout⟩ := ConvertLine8_total target source width_in_pixels palette hT
      (by omega) hB hP
    obtain ⟨out', hout'⟩ := ConvertLine8_total target
      (source.take (minRowBytes 8 width_in_pixels.toNat)) width_in_pixels palette hT
      (by simp only [List.length_take]; omega) (Bytes_take source _ hB) hP
    have := run_agree _ _ _ _ target width_in_pixels
      (ConvertLine8_run target _ width_in_pixels palette).1
      (ConvertLine8_run target source width_in_pixels palette).1
      (fun col hcol => line8Word_take source palette _ col
        (by have := Int.lt_toNat.2 hcol; omega)) out' out hout' hout
    subst this
    exact ⟨_, hout, hout'⟩
  · intro src_bits hS
    obtain ⟨out, hout⟩ := ConvertLine565_total target src_bits width_in_pixels hT (by omega)
    obtain ⟨out', hout'⟩ := ConvertLine565_total target
      (src_bits.take (minRowBytes 16 width_in_pixels.toNat / 2)) width_in_pixels hT
      (by simp only [List.length_take]; omega)
    have := run_agree _ _ _ _ target width_in_pixels
      (ConvertLine565_run target _ width_in_pixels).1
      (ConvertLine565_run target src_bits width_in_pixels).1
      (fun col hcol => line565Word_take src_bits _ col
        (by have := Int.lt_toNat.2 hcol; omega)) out' out hout' hout
    subst this
    exact ⟨_, hout, hout'⟩
  · intro source hS
    obtain ⟨out, hout⟩ := ConvertLine24_total o ho target source width_in_pixels hT (by omega)
    obtain ⟨out', hout'⟩ := ConvertLine24_total o ho target
      (source.take (minRowBytes 24 width_in_pixels.toNat)) width_in_pixels hT
      (by simp only [List.length_take]; omega)
    have := run_agree _ _ _ _ target width_in_pixels
      (ConvertLine24_run o target _ width_in_pixels).1
      (ConvertLine24_run o target source width_in_pixels).1
      (fun col hcol => directWord_take o ho source _ (3 * col)
        (by have := Int.lt_toNat.2 hcol; omega)) out' out hout' hout
    subst this
    exact ⟨_, hout, hout'⟩
  · intro source hS
    obtain ⟨out, hout⟩ := ConvertLine32_total o ho target source width_in_pixels hT (by omega)
    obtain ⟨out', hout'⟩ := ConvertLine32_total o ho target
      (source.take (minRowBytes 32 width_in_pixels.toNat)) width_in_pixels hT
      (by simp only [List.length_take]; omega)
    have := run_agree _ _ _ _ target width_in_pixels
      (ConvertLine32_run o target _ width_in_pixels).1
      (ConvertLine32_run o target source width_in_pixels).1
      (fun col hcol => directWord_take o ho source _ (4 * col)
        (by have := Int.lt_toNat.2 hcol; omega)) out' out hout' hout
    subst this
    exact ⟨_, hout, hout'⟩
  · intro source source' palette hP hodd hS hlen hrest hlast
    obtain ⟨out, hout⟩ := ConvertLine4_total target source width_in_pixels palette hT
      (by omega) hP
    obtain ⟨out', hout'⟩ := ConvertLine4_total target source' width_in_pixels palette hT
      (by omega) hP
    have := run_agree _ _ _ _ target width_in_pixels
      (ConvertLine4_run target source' width_in_pixels palette).1
      (ConvertLine4_run target source width_in_pixels palette).1
      (fun col hcol => line4Word_odd source source' palette _ col hodd
        (Int.lt_toNat.2 hcol) hrest hlast hlen) out' out hout' hout
    subst this
    exact ⟨_, hout, hout'⟩

/-- C19 on a 4-bit row of three bytes at width 3: the row cut down to its first
`ceil(3 / 2) = 2` bytes converts to the same words. -/
theorem source_reads_in_row_witness :
    ∃ out, FreeImage_ConvertLine4To16_555 [0, 0, 0] [0x3F, 0xA7, 0xFF] 3 (greyPalette 16) =
        some out ∧
      FreeImage_ConvertLine4To16_555 [0, 0, 0]
        ([0x3F, 0xA7, 0xFF].take (minRowBytes 4 (3 : Int).toNat)) 3 (greyPalette 16) =
        some out :=
  (source_reads_in_row ColorOrder.bgr (by decide) [0, 0, 0] 3 (by decide)).2.1
    [0x3F, 0xA7, 0xFF] (greyPalette 16) (by decide) (by decide)

/-! ## The row loop of the dispatcher -/

/-- Soundness of the row loop: a run of `n` iterations from row `rows` keeps the
number of scanlines of the destination, replaces every scanline
`rows ≤ r < rows + n` by the converter's output on that destination scanline
and the source scanline `r`, and leaves the other scanlines as they were. -/
theorem rowLoop_sound (line : List Nat → List Nat → Option (List Nat)) (dib : FIBITMAP) :
    ∀ (n rows : Nat) (new_dib d : FIBITMAP), rowLoop line dib n rows new_dib = some d →
      d.scanlines.length = new_dib.scanlines.length ∧
      (∀ r, rows ≤ r → r < rows + n →
        ∃ target source out, new_dib.scanlines[r]? = some target ∧
          dib.scanlines[r]? = some source ∧ line target source = some out ∧
          d.scanlines[r]? = some out) ∧
      (∀ r, r < rows ∨ rows + n ≤ r → d.scanlines[r]? = new_dib.scanlines[r]?) := by
  intro n
  induction n with
  | zero =>
    intro rows new_dib d h
    simp only [rowLoop, Option.some.injEq] at h
    subst h
    exact ⟨rfl, fun r h1 h2 => by omega, fun _ _ => rfl⟩
  | succ n ih =>
    intro rows new_dib d h
    unfold rowLoop at h
    split at h
    · next target source ht hs =>
      split at h
      · simp at h
      · next out ho =>
        obtain ⟨hl, hin, hout⟩ := ih (rows + 1) _ d h
        simp only [FreeImage_GetScanLine] at ht hs
        have hlt : rows < new_dib.scanlines.length := by
          by_contra hc
          rw [List.getElem?_eq_none (by omega)] at ht
          simp at ht
        simp only [FIBITMAP.setScanLine] at hl hin hout
        refine ⟨by simpa using hl, ?_, ?_⟩
        · intro r h1 h2
          by_cases hr : r = rows
          · subst hr
            refine ⟨target, source, out, ht, hs, ho, ?_⟩
            rw [hout r (Or.inl (by omega))]
            simp [hlt]
          · obtain ⟨t', s', o', e1, e2, e3, e4⟩ := hin r (by omega) (by omega)
            rw [List.getElem?_set_ne (by omega)] at e1
            exact ⟨t', s', o', e1, e2, e3, e4⟩
        · intro r hr
          rw [hout r (by omega)]
          exact List.getElem?_set_ne (by omega)
    · simp at h

/-- Totality of the row loop: it returns when every scanline `rows ≤ r < rows + n`
exists in destination and source and the converter returns on them. -/
theorem rowLoop_total (line : List Nat → List Nat → Option (List Nat)) (dib : FIBITMAP) :
    ∀ (n rows : Nat) (new_dib : FIBITMAP),
      (∀ r, rows ≤ r → r < rows + n →
        ∃ target source, new_dib.scanlines[r]? = some target ∧
          dib.scanlines[r]? = some source ∧ (line target source).isSome) →
      ∃ d, rowLoop line dib n rows new_dib = some d := by
  intro n
  induction n with
  | zero => intro rows new_dib _; exact ⟨new_dib, rfl⟩
  | succ n ih =>
    intro rows new_dib h
    obtain ⟨target, source, ht, hs, ho⟩ := h rows (Nat.le_refl _) (by omega)
    obtain ⟨out, ho⟩ := Option.isSome_iff_exists.1 ho
    obtain ⟨d, hd⟩ := ih (rows + 1) (new_dib.setScanLine rows out) (by
      intro r h1 h2
      obtain ⟨t', s', e1, e2, e3⟩ := h r (by omega) (by omega)
      refine ⟨t', s', ?_, e2, e3⟩
      simp only [FIBITMAP.setScanLine]
      rw [List.getElem?_set_ne (by omega)]
      exact e1)
    refine ⟨d, ?_⟩
    unfold rowLoop
    simp only [FreeImage_GetScanLine, ht, hs, ho]
    exact hd

/-! ## The dispatcher, row by row -/

/-- The bitmap a successful `FreeImage_Allocate` of the dispatcher returns. -/
theorem allocate_eq_some (alloc_ok : Bool) (dib new_dib : FIBITMAP)
    (ha : FreeImage_Allocate alloc_ok (intOfUnsigned (FreeImage_GetWidth dib))
      (intOfUnsigned (FreeImage_GetHeight dib)) 16 FI16_555_RED_MASK FI16_555_GREEN_MASK
      FI16_555_BLUE_MASK = some new_dib) :
    alloc_ok = true ∧ new_dib.has_pixels = true ∧
      new_dib.image_type = FREE_IMAGE_TYPE.FIT_BITMAP ∧ new_dib.bpp = 16 ∧
      new_dib.red_mask = FI16_555_RED_MASK ∧ new_dib.green_mask = FI16_555_GREEN_MASK ∧
      new_dib.blue_mask = FI16_555_BLUE_MASK ∧
      new_dib.width = (intOfUnsigned dib.width).natAbs ∧
      new_dib.height = (intOfUnsigned dib.height).natAbs ∧
      new_dib.scanlines = List.replicate (intOfUnsigned dib.height).natAbs
        (List.replicate (intOfUnsigned dib.width).natAbs 0) := by
  unfold FreeImage_Allocate at ha
  split at ha
  · next hok =>
    simp only [Option.some.injEq] at ha
    subst ha
    simp [hok, FreeImage_GetWidth, FreeImage_GetHeight]
  · simp at ha

/-- A successful run of the dispatcher that did not clone ran the row loop of the
converter matching the depth on a freshly allocated destination. -/
theorem dispatch_converted (o : ColorOrder) (alloc_ok : Bool) (dib : FIBITMAP) (r : Outcome)
    (d : FIBITMAP) (h : FreeImage_ConvertTo16Bits555 o alloc_ok dib = some r)
    (hd : r.result = some d) (hnot : ¬ (dib.bpp = 16 ∧ has565Masks dib = false)) :
    ∃ (line : List Nat → List Nat → Option (List Nat)) (new_dib d' : FIBITMAP),
      ((dib.bpp = 1 ∧ line = fun target source =>
          FreeImage_ConvertLine1To16_555 target source (intOfUnsigned dib.width) dib.palette) ∨
        (dib.bpp = 4 ∧ line = fun target source =>
          FreeImage_ConvertLine4To16_555 target source (intOfUnsigned dib.width) dib.palette) ∨
        (dib.bpp = 8 ∧ line = fun target source =>
          FreeImage_ConvertLine8To16_555 target source (intOfUnsigned dib.width) dib.palette) ∨
        (dib.bpp = 24 ∧ line = fun target source =>
          FreeImage_ConvertLine24To16_555 o target source (intOfUnsigned dib.width)) ∨
        (dib.bpp = 32 ∧ line = fun target source =>
          FreeImage_ConvertLine32To16_555 o target source (intOfUnsigned dib.width)) ∨
        (dib.bpp = 16 ∧ has565Masks dib = true ∧ line = fun target source =>
          FreeImage_ConvertLine16_565_To16_555 target source (intOfUnsigned dib.width))) ∧
      new_dib.scanlines = List.replicate (intOfUnsigned dib.height).natAbs
        (List.replicate (intOfUnsigned dib.width).natAbs 0) ∧
      rowLoop line dib (intOfUnsigned dib.height).toNat 0 new_dib = some d' ∧
      d.scanlines = d'.scanlines ∧
      r.heap = [HeapEvent.allocate true] ∧ alloc_ok = true ∧ new_dib.has_pixels = true ∧
      new_dib.image_type = FREE_IMAGE_TYPE.FIT_BITMAP ∧
      (d = d' ∨ d = FreeImage_CloneMetadata d' dib) := by
  unfold FreeImage_ConvertTo16Bits555 at h
  split at h
  · simp only [Option.some.injEq] at h
    subst h
    simp at hd
  · simp only at h
    split at h
    · next hbpp =>
      split at h
      · next h565 =>
        split at h
        · simp only [Option.some.injEq] at h
          subst h
          simp at hd
        · next new_dib ha =>
          split at h
          · simp at h
          · next d' hl =>
            simp only [Option.some.injEq] at h
            subst h
            simp only [Option.some.injEq] at hd
            subst hd
            obtain ⟨hok, hpx, hty, _, _, _, _, _, _, hsc⟩ :=
              allocate_eq_some alloc_ok dib new_dib ha
            refine ⟨_, new_dib, d', Or.inr (Or.inr (Or.inr (Or.inr (Or.inr
              ⟨hbpp, h565, rfl⟩)))), hsc, ?_, rfl, rfl, hok, hpx, hty, Or.inr rfl⟩
            simpa [FreeImage_GetHeight, FreeImage_GetWidth] using hl
      · next h565 =>
        exact absurd ⟨hbpp, by simpa using h565⟩ hnot
    · next hbpp =>
      split at h
      · simp only [Option.some.injEq] at h
        subst h
        simp at hd
      · next new_dib ha =>
        obtain ⟨hok, hpx, hty, _, _, _, _, _, _, hsc⟩ :=
          allocate_eq_some alloc_ok dib new_dib ha
        have hsc' : (FreeImage_CloneMetadata new_dib dib).scanlines =
            List.replicate (intOfUnsigned dib.height).natAbs
              (List.replicate (intOfUnsigned dib.width).natAbs 0) := hsc
        split at h
        · next hb =>
          split at h
          · simp at h
          · next d' hl =>
            simp only [Option.some.injEq] at h
            subst h
            simp only [Option.some.injEq] at hd
            subst hd
            refine ⟨_, _, _, Or.inl ⟨hb, rfl⟩, hsc', ?_, rfl, rfl, hok,
              hpx, hty, Or.inl rfl⟩
            simpa [FreeImage_GetHeight, FreeImage_GetWidth, FreeImage_GetPalette] using hl
        · next hb =>
          split at h
          · simp at h
          · next d' hl =>
            simp only [Option.some.injEq] at h
            subst h
            simp only [Option.some.injEq] at hd
            subst hd
            refine ⟨_, _, _, Or.inr (Or.inl ⟨hb, rfl⟩), hsc', ?_, rfl, rfl, hok,
              hpx, hty, Or.inl rfl⟩
            simpa [FreeImage_GetHeight, FreeImage_GetWidth, FreeImage_GetPalette] using hl
        · next hb =>
          split at h
          · simp at h
          · next d' hl =>
            simp only [Option.some.injEq] at h
            subst h
            simp only [Option.some.injEq] at hd
            subst hd
            refine ⟨_, _, _, Or.inr (Or.inr (Or.inl ⟨hb, rfl⟩)), hsc', ?_, rfl, rfl, hok,
              hpx, hty, Or.inl rfl⟩
            simpa [FreeImage_GetHeight, FreeImage_GetWidth, FreeImage_GetPalette] using hl
        · next hb =>
          split at h
          · simp at h
          · next d' hl =>
            simp only [Option.some.injEq] at h
            subst h
            simp only [Option.some.injEq] at hd
            subst hd
            refine ⟨_, _, _, Or.inr (Or.inr (Or.inr (Or.inl ⟨hb, rfl⟩))), hsc', ?_, rfl, rfl,
              hok, hpx, hty, Or.inl rfl⟩
            simpa [FreeImage_GetHeight, FreeImage_GetWidth] using hl
        · next hb =>
          split at h
          · simp at h
          · next d' hl =>
            simp only [Option.some.injEq] at h
            subst h
            simp only [Option.some.injEq] at hd
            subst hd
            refine ⟨_, _, _, Or.inr (Or.inr (Or.inr (Or.inr (Or.inl ⟨hb, rfl⟩)))), hsc', ?_,
              rfl, rfl, hok, hpx, hty, Or.inl rfl⟩
            simpa [FreeImage_GetHeight, FreeImage_GetWidth] using hl
        · simp only [Option.some.injEq] at h
          subst h
          simp at hd

theorem converted_total (line : List Nat → List Nat → Option (List Nat)) (dib new_dib : FIBITMAP)
    (f : FIBITMAP → FIBITMAP) (n : Nat)
    (htot : ∃ d', rowLoop line dib n 0 new_dib = some d') :
    ∃ d, (match rowLoop line dib n 0 new_dib with
        | none => none
        | some new_dib => some (Outcome.mk (some (f new_dib)) [HeapEvent.allocate true])) =
      some ⟨some d, [HeapEvent.allocate true]⟩ := by
  obtain ⟨d', hd'⟩ := htot
  exact ⟨f d', by rw [hd']⟩

/-- Totality of the dispatcher: for a source with pixels, of type `FIT_BITMAP`, whose
depth selects the converter `line`, the conversion returns a bitmap when the
row loop of `line` returns on the freshly allocated destination. -/
theorem dispatch_total (o : ColorOrder) (dib : FIBITMAP) (hp : dib.has_pixels = true)
    (ht : dib.image_type = FREE_IMAGE_TYPE.FIT_BITMAP)
    (line : List Nat → List Nat → Option (List Nat))
    (hsel : (dib.bpp = 1 ∧ line = fun target source =>
          FreeImage_ConvertLine1To16_555 target source (intOfUnsigned dib.width) dib.palette) ∨
        (dib.bpp = 4 ∧ line = fun target source =>
          FreeImage_ConvertLine4To16_555 target source (intOfUnsigned dib.width) dib.palette) ∨
        (dib.bpp = 8 ∧ line = fun target source =>
          FreeImage_ConvertLine8To16_555 target source (intOfUnsigned dib.width) dib.palette) ∨
        (dib.bpp = 24 ∧ line = fun target source =>
          FreeImage_ConvertLine24To16_555 o target source (intOfUnsigned dib.width)) ∨
        (dib.bpp = 32 ∧ line = fun target source =>
          FreeImage_ConvertLine32To16_555 o target source (intOfUnsigned dib.width)) ∨
        (dib.bpp = 16 ∧ has565Masks dib = true ∧ line = fun target source =>
          FreeImage_ConvertLine16_565_To16_555 target source (intOfUnsigned dib.width)))
    (htot : ∀ new_dib : FIBITMAP,
      new_dib.scanlines = List.replicate (intOfUnsigned dib.height).natAbs
        (List.replicate (intOfUnsigned dib.width).natAbs 0) →
      ∃ d', rowLoop line dib (intOfUnsigned dib.height).toNat 0 new_dib = some d') :
    ∃ d, FreeImage_ConvertTo16Bits555 o true dib =
      some ⟨some d, [HeapEvent.allocate true]⟩ := by
  unfold FreeImage_ConvertTo16Bits555
  rcases hsel with ⟨hb, rfl⟩ | ⟨hb, rfl⟩ | ⟨hb, rfl⟩ | ⟨hb, rfl⟩ | ⟨hb, rfl⟩ | ⟨hb, hm, rfl⟩
  · simp only [FreeImage_HasPixels, FreeImage_GetImageType, FreeImage_GetBPP, hp, ht, hb,
      FreeImage_Allocate]
    simp
    exact converted_total _ dib _ id _ (htot _ rfl)
  · simp only [FreeImage_HasPixels, FreeImage_GetImageType, FreeImage_GetBPP, hp, ht, hb,
      FreeImage_Allocate]
    simp
    exact converted_total _ dib _ id _ (htot _ rfl)
  · simp only [FreeImage_HasPixels, FreeImage_GetImageType, FreeImage_GetBPP, hp, ht, hb,
      FreeImage_Allocate]
    simp
    exact converted_total _ dib _ id _ (htot _ rfl)
  · simp only [FreeImage_HasPixels, FreeImage_GetImageType, FreeImage_GetBPP, hp, ht, hb,
      FreeImage_Allocate]
    simp
    exact converted_total _ dib _ id _ (htot _ rfl)
  · simp only [FreeImage_HasPixels, FreeImage_GetImageType, FreeImage_GetBPP, hp, ht, hb,
      FreeImage_Allocate]
    simp
    exact converted_total _ dib _ id _ (htot _ rfl)
  · simp only [FreeImage_HasPixels, FreeImage_GetImageType, FreeImage_GetBPP, hp, ht, hb, hm,
      FreeImage_Allocate]
    simp
    exact converted_total _ dib _ (fun nd => FreeImage_CloneMetadata nd dib) _ (htot _ rfl)

theorem rowsConverted_of_loop (line : List Nat → List Nat → Option (List Nat))
    (dib new_dib d' d : FIBITMAP)
    (hsc : new_dib.scanlines = List.replicate dib.height (List.replicate dib.width 0))
    (hl : rowLoop line dib dib.height 0 new_dib = some d')
    (hd : d.scanlines = d'.scanlines) : RowsConverted line dib d := by
  obtain ⟨h1, h2, _⟩ := rowLoop_sound line dib dib.height 0 new_dib d' hl
  unfold RowsConverted
  rw [hd]
  refine ⟨by rw [h1, hsc]; simp, ?_⟩
  intro r hr
  obtain ⟨target, source, out, e1, e2, e3, e4⟩ := h2 r (Nat.zero_le _) (by omega)
  rw [hsc, List.getElem?_replicate] at e1
  simp only [hr, if_true, Option.some.injEq] at e1
  subst e1
  exact ⟨source, out, e2, e3, e4⟩

/-- The row loop returns on a fresh destination when the converter returns on every
source scanline. -/
theorem rowLoop_fresh_total (line : List Nat → List Nat → Option (List Nat))
    (dib new_dib : FIBITMAP) (hlen : dib.scanlines.length = dib.height)
    (hsc : new_dib.scanlines = List.replicate dib.height (List.replicate dib.width 0))
    (hline : ∀ source ∈ dib.scanlines, (line (List.replicate dib.width 0) source).isSome) :
    ∃ d', rowLoop line dib dib.height 0 new_dib = some d' := by
  apply rowLoop_total
  intro r _ hr
  have hr' : r < dib.scanlines.length := by omega
  refine ⟨List.replicate dib.width 0, dib.scanlines[r], ?_, List.getElem?_eq_getElem hr', ?_⟩
  · rw [hsc, List.getElem?_replicate]
    simp only [show r < dib.height by omega, if_true]
  · exact hline _ (List.getElem_mem hr')

/-- The run of the dispatcher on a source whose dimensions are below `2 ^ 31`: the
`int` copies are the dimensions themselves. -/
theorem dispatch_converted_small (o : ColorOrder) (alloc_ok : Bool) (dib : FIBITMAP)
    (r : Outcome) (d : FIBITMAP) (h : FreeImage_ConvertTo16Bits555 o alloc_ok dib = some r)
    (hd : r.result = some d) (hnot : ¬ (dib.bpp = 16 ∧ has565Masks dib = false))
    (hw : dib.width < 2 ^ 31) (hh : dib.height < 2 ^ 31) :
    ∃ (line : List Nat → List Nat → Option (List Nat)) (new_dib d' : FIBITMAP),
      ((dib.bpp = 1 ∧ line = fun target source =>
          FreeImage_ConvertLine1To16_555 target source (dib.width : Int) dib.palette) ∨
        (dib.bpp = 4 ∧ line = fun target source =>
          FreeImage_ConvertLine4To16_555 target source (dib.width : Int) dib.palette) ∨
        (dib.bpp = 8 ∧ line = fun target source =>
          FreeImage_ConvertLine8To16_555 target source (dib.width : Int) dib.palette) ∨
        (dib.bpp = 24 ∧ line = fun target source =>
          FreeImage_ConvertLine24To16_555 o target source (dib.width : Int)) ∨
        (dib.bpp = 32 ∧ line = fun target source =>
          FreeImage_ConvertLine32To16_555 o target source (dib.width : Int)) ∨
        (dib.bpp = 16 ∧ has565Masks dib = true ∧ line = fun target source =>
          FreeImage_ConvertLine16_565_To16_555 target source (dib.width : Int))) ∧
      new_dib.scanlines = List.replicate dib.height (List.replicate dib.width 0) ∧
      rowLoop line dib dib.height 0 new_dib = some d' ∧ d.scanlines = d'.scanlines := by
  obtain ⟨line, new_dib, d', hsel, hsc, hl, hds, _⟩ :=
    dispatch_converted o alloc_ok dib r d h hd hnot
  rw [intOfUnsigned_of_lt _ hw] at hsel hsc
  rw [intOfUnsigned_of_lt _ hh] at hsc hl
  simp only [Int.natAbs_ofNat, Int.toNat_ofNat] at hsc hl
  exact ⟨line, new_dib, d', hsel, hsc, hl, hds⟩

/-- Totality of the dispatcher on a source whose dimensions are below `2 ^ 31`. -/
theorem dispatch_total_small (o : ColorOrder) (dib : FIBITMAP) (hp : dib.has_pixels = true)
    (ht : dib.image_type = FREE_IMAGE_TYPE.FIT_BITMAP)
    (hw : dib.width < 2 ^ 31) (hh : dib.height < 2 ^ 31)
    (line : List Nat → List Nat → Option (List Nat))
    (hsel :
      ((dib.bpp = 1 ∧ line = fun target source =>
          FreeImage_ConvertLine1To16_555 target source (dib.width : Int) dib.palette) ∨
        (dib.bpp = 4 ∧ line = fun target source =>
          FreeImage_ConvertLine4To16_555 target source (dib.width : Int) dib.palette) ∨
        (dib.bpp = 8 ∧ line = fun target source =>
          FreeImage_ConvertLine8To16_555 target source (dib.width : Int) dib.palette) ∨
        (dib.bpp = 24 ∧ line = fun target source =>
          FreeImage_ConvertLine24To16_555 o target source (dib.width : Int)) ∨
        (dib.bpp = 32 ∧ line = fun target source =>
          FreeImage_ConvertLine32To16_555 o target source (dib.width : Int)) ∨
        (dib.bpp = 16 ∧ has565Masks dib = true ∧ line = fun target source =>
          FreeImage_ConvertLine16_565_To16_555 target source (dib.width : Int))))
    (htot : ∀ new_dib : FIBITMAP,
      new_dib.scanlines = List.replicate dib.height (List.replicate dib.width 0) →
      ∃ d', rowLoop line dib dib.height 0 new_dib = some d') :
    ∃ d, FreeImage_ConvertTo16Bits555 o true dib =
      some ⟨some d, [HeapEvent.allocate true]⟩ := by
  have key := dispatch_total o dib hp ht line
  rw [intOfUnsigned_of_lt _ hw, intOfUnsigned_of_lt _ hh] at key
  simp only [Int.natAbs_ofNat, Int.toNat_ofNat] at key
  exact key hsel htot

/-- C12: for a 16-bit source with pixels, of type `FIT_BITMAP`, whose masks are the
555 masks, `FreeImage_ConvertTo16Bits555` returns the result of
`FreeImage_Clone` and performs no other heap operation (no destination is
allocated, no converter runs); when the clone succeeds the returned bitmap is
the source itself, scanline for scanline. -/
theorem ConvertTo16Bits555_clones_555 (o : ColorOrder) (alloc_ok : Bool) (dib : FIBITMAP)
    (hp : dib.has_pixels = true) (ht : dib.image_type = FREE_IMAGE_TYPE.FIT_BITMAP)
    (hb : dib.bpp = 16) (hr : dib.red_mask = FI16_555_RED_MASK)
    (hg : dib.green_mask = FI16_555_GREEN_MASK) (hbl : dib.blue_mask = FI16_555_BLUE_MASK) :
    FreeImage_ConvertTo16Bits555 o alloc_ok dib =
      some ⟨FreeImage_Clone alloc_ok dib, [HeapEvent.clone alloc_ok]⟩ ∧
    (alloc_ok = true →
      FreeImage_ConvertTo16Bits555 o alloc_ok dib = some ⟨some dib, [HeapEvent.clone true]⟩) ∧
    (∀ d, FreeImage_Clone alloc_ok dib = some d → d = dib ∧ d.scanlines = dib.scanlines) := by
  have hm : has565Masks dib = false := by
    simp [has565Masks, FreeImage_GetRedMask, FreeImage_GetGreenMask, FreeImage_GetBlueMask,
      hr, hg, hbl, FI16_555_RED_MASK, FI16_565_RED_MASK]
  have e : FreeImage_ConvertTo16Bits555 o alloc_ok dib =
      some ⟨FreeImage_Clone alloc_ok dib, [HeapEvent.clone alloc_ok]⟩ := by
    unfold FreeImage_ConvertTo16Bits555
    simp [FreeImage_HasPixels, FreeImage_GetImageType, FreeImage_GetBPP, hp, ht, hb, hm]
  refine ⟨e, ?_, ?_⟩
  · intro hok
    rw [e, hok]
    rfl
  · intro d hd
    unfold FreeImage_Clone at hd
    split at hd
    · simp only [Option.some.injEq] at hd
      subst hd
      exact ⟨rfl, rfl⟩
    · simp at hd

/-- C12 on the 555 bitmap `sample555`. -/
theorem ConvertTo16Bits555_clones_555_witness :
    FreeImage_ConvertTo16Bits555 ColorOrder.bgr true sample555 =
      some ⟨FreeImage_Clone true sample555, [HeapEvent.clone true]⟩ ∧
    (true = true →
      FreeImage_ConvertTo16Bits555 ColorOrder.bgr true sample555 =
        some ⟨some sample555, [HeapEvent.clone true]⟩) ∧
    (∀ d, FreeImage_Clone true sample555 = some d →
      d = sample555 ∧ d.scanlines = sample555.scanlines) :=
  ConvertTo16Bits555_clones_555 ColorOrder.bgr true sample555 rfl rfl rfl rfl rfl rfl

theorem allocate_eq_none (alloc_ok : Bool) (width height : Int)
    (bpp red_mask green_mask blue_mask : Nat)
    (h : FreeImage_Allocate alloc_ok width height bpp red_mask green_mask blue_mask = none) :
    alloc_ok = false := by
  unfold FreeImage_Allocate at h
  split at h
  · simp at h
  · next hn => simpa using hn

/-- Every `NULL` result of the dispatcher: the source was rejected before any heap
operation, or the one allocation or clone failed, or the depth is unsupported
and the allocated destination was released. -/
theorem dispatch_null (o : ColorOrder) (alloc_ok : Bool) (dib : FIBITMAP)
    (heap : List HeapEvent)
    (h : FreeImage_ConvertTo16Bits555 o alloc_ok dib = some ⟨none, heap⟩) :
    (dib.has_pixels = false ∨ dib.image_type ≠ FREE_IMAGE_TYPE.FIT_BITMAP) ∧ heap = [] ∨
    dib.has_pixels = true ∧ dib.image_type = FREE_IMAGE_TYPE.FIT_BITMAP ∧
      (alloc_ok = false ∧
          (heap = [HeapEvent.allocate false] ∨ heap = [HeapEvent.clone false]) ∨
        alloc_ok = true ∧
          ¬ (dib.bpp = 1 ∨ dib.bpp = 4 ∨ dib.bpp = 8 ∨ dib.bpp = 16 ∨ dib.bpp = 24 ∨
            dib.bpp = 32) ∧
          heap = [HeapEvent.allocate true, HeapEvent.unload]) := by
  unfold FreeImage_ConvertTo16Bits555 at h
  split at h
  · next hc =>
    simp only [Option.some.injEq, Outcome.mk.injEq, true_and] at h
    left
    refine ⟨?_, h.symm⟩
    simp only [FreeImage_HasPixels, FreeImage_GetImageType, Bool.or_eq_true, Bool.not_eq_true',
      bne_iff_ne, ne_eq] at hc
    exact hc
  · next hc =>
    simp only [FreeImage_HasPixels, FreeImage_GetImageType, Bool.or_eq_true, Bool.not_eq_true',
      bne_iff_ne, ne_eq, not_or, Bool.not_eq_false, not_not] at hc
    right
    refine ⟨hc.1, hc.2, ?_⟩
    simp only at h
    split at h
    · next hbpp =>
      split at h
      · split at h
        · next ha =>
          simp only [Option.some.injEq, Outcome.mk.injEq, true_and] at h
          exact Or.inl ⟨allocate_eq_none _ _ _ _ _ _ _ ha, Or.inl h.symm⟩
        · split at h
          · simp at h
          · simp at h
      · simp only [Option.some.injEq, Outcome.mk.injEq] at h
        obtain ⟨hcl, hh⟩ := h
        have hok : alloc_ok = false := by
          unfold FreeImage_Clone at hcl
          split at hcl
          · simp at hcl
          · next hn => simpa using hn
        subst hok
        exact Or.inl ⟨rfl, Or.inr hh.symm⟩
    · next hbpp =>
      split at h
      · next ha =>
        simp only [Option.some.injEq, Outcome.mk.injEq, true_and] at h
        exact Or.inl ⟨allocate_eq_none _ _ _ _ _ _ _ ha, Or.inl h.symm⟩
      · next new_dib ha =>
        obtain ⟨hok, _⟩ := allocate_eq_some alloc_ok dib new_dib ha
        split at h
        · split at h <;> simp at h
        · split at h <;> simp at h
        · split at h <;> simp at h
        · split at h <;> simp at h
        · split at h <;> simp at h
        · next h1 h4 h8 h24 h32 =>
          simp only [Option.some.injEq, Outcome.mk.injEq, true_and] at h
          refine Or.inr ⟨hok, ?_, h.symm⟩
          simp only [FreeImage_GetBPP] at hbpp h1 h4 h8 h24 h32
          rintro (hb | hb | hb | hb | hb | hb)
          · exact h1 hb
          · exact h4 hb
          · exact h8 hb
          · exact hbpp hb
          · exact h24 hb
          · exact h32 hb

theorem dispatch_reject (o : ColorOrder) (alloc_ok : Bool) (dib : FIBITMAP)
    (h : dib.has_pixels = false ∨ dib.image_type ≠ FREE_IMAGE_TYPE.FIT_BITMAP) :
    FreeImage_ConvertTo16Bits555 o alloc_ok dib = some ⟨none, []⟩ := by
  unfold FreeImage_ConvertTo16Bits555
  rcases h with h | h
  · simp [FreeImage_HasPixels, h]
  · simp [FreeImage_GetImageType, h]

theorem dispatch_alloc_fails (o : ColorOrder) (dib : FIBITMAP)
    (hp : dib.has_pixels = true) (ht : dib.image_type = FREE_IMAGE_TYPE.FIT_BITMAP) :
    FreeImage_ConvertTo16Bits555 o false dib = some ⟨none, [HeapEvent.allocate false]⟩ ∨
      FreeImage_ConvertTo16Bits555 o false dib = some ⟨none, [HeapEvent.clone false]⟩ := by
  unfold FreeImage_ConvertTo16Bits555
  simp only [FreeImage_HasPixels, FreeImage_GetImageType, hp, ht, FreeImage_Allocate,
    FreeImage_Clone]
  simp only [Bool.not_true, bne_self_eq_false, Bool.or_self, Bool.false_eq_true, if_false]
  split
  · split
    · exact Or.inl rfl
    · exact Or.inr rfl
  · exact Or.inl rfl

theorem dispatch_unsupported (o : ColorOrder) (dib : FIBITMAP)
    (hp : dib.has_pixels = true) (ht : dib.image_type = FREE_IMAGE_TYPE.FIT_BITMAP)
    (hb : ¬ (dib.bpp = 1 ∨ dib.bpp = 4 ∨ dib.bpp = 8 ∨ dib.bpp = 16 ∨ dib.bpp = 24 ∨
      dib.bpp = 32)) :
    FreeImage_ConvertTo16Bits555 o true dib =
      some ⟨none, [HeapEvent.allocate true, HeapEvent.unload]⟩ := by
  unfold FreeImage_ConvertTo16Bits555
  simp only [FreeImage_HasPixels, FreeImage_GetImageType, hp, ht, FreeImage_Allocate,
    FreeImage_GetBPP]
  simp only [Bool.not_true, bne_self_eq_false, Bool.or_self, Bool.false_eq_true, if_false,
    if_true]
  have h16 : ¬ dib.bpp = 16 := fun h => hb (by simp [h])
  simp only [h16, if_false]
  split
  · next h => exact absurd (by simp [h]) hb
  · next h => exact absurd (by simp [h]) hb
  · next h => exact absurd (by simp [h]) hb
  · next h => exact absurd (by simp [h]) hb
  · next h => exact absurd (by simp [h]) hb
  · rfl

/-- C13: `FreeImage_ConvertTo16Bits555` returns `NULL` exactly when the source has no
pixels, or its type is not `FIT_BITMAP`, or the one allocation (or clone) of the
call fails, or the depth is none of 1, 4, 8, 16, 24, 32.  In the first two
cases no heap operation has been performed; for an unsupported depth with a
successful allocation the destination is allocated and then released; a failed
allocation or clone is the only heap operation of its call. -/
theorem ConvertTo16Bits555_null_iff (o : ColorOrder) (alloc_ok : Bool) (dib : FIBITMAP) :
    ((∃ heap, FreeImage_ConvertTo16Bits555 o alloc_ok dib = some ⟨none, heap⟩) ↔
      (dib.has_pixels = false ∨ dib.image_type ≠ FREE_IMAGE_TYPE.FIT_BITMAP ∨
        alloc_ok = false ∨
        ¬ (dib.bpp = 1 ∨ dib.bpp = 4 ∨ dib.bpp = 8 ∨ dib.bpp = 16 ∨ dib.bpp = 24 ∨
          dib.bpp = 32))) ∧
    (dib.has_pixels = false ∨ dib.image_type ≠ FREE_IMAGE_TYPE.FIT_BITMAP →
      FreeImage_ConvertTo16Bits555 o alloc_ok dib = some ⟨none, []⟩) ∧
    (dib.has_pixels = true → dib.image_type = FREE_IMAGE_TYPE.FIT_BITMAP →
      ¬ (dib.bpp = 1 ∨ dib.bpp = 4 ∨ dib.bpp = 8 ∨ dib.bpp = 16 ∨ dib.bpp = 24 ∨
        dib.bpp = 32) →
      FreeImage_ConvertTo16Bits555 o true dib =
        some ⟨none, [HeapEvent.allocate true, HeapEvent.unload]⟩) ∧
    (dib.has_pixels = true → dib.image_type = FREE_IMAGE_TYPE.FIT_BITMAP →
      FreeImage_ConvertTo16Bits555 o false dib = some ⟨none, [HeapEvent.allocate false]⟩ ∨
        FreeImage_ConvertTo16Bits555 o false dib = some ⟨none, [HeapEvent.clone false]⟩) := by
  refine ⟨⟨?_, ?_⟩, dispatch_reject o alloc_ok dib, dispatch_unsupported o dib,
    dispatch_alloc_fails o dib⟩
  · rintro ⟨heap, h⟩
    rcases dispatch_null o alloc_ok dib heap h with
      ⟨h1 | h1, _⟩ | ⟨_, _, ⟨h1, _⟩ | ⟨_, h1, _⟩⟩
    · exact Or.inl h1
    · exact Or.inr (Or.inl h1)
    · exact Or.inr (Or.inr (Or.inl h1))
    · exact Or.inr (Or.inr (Or.inr h1))
  · intro h
    by_cases hx : dib.has_pixels = false ∨ dib.image_type ≠ FREE_IMAGE_TYPE.FIT_BITMAP
    · exact ⟨[], dispatch_reject o alloc_ok dib hx⟩
    · have hp : dib.has_pixels = true := by
        cases hq : dib.has_pixels
        · exact absurd (Or.inl hq) hx
        · rfl
      have ht : dib.image_type = FREE_IMAGE_TYPE.FIT_BITMAP := by
        by_contra hq
        exact hx (Or.inr hq)
      cases alloc_ok with
      | false =>
        rcases dispatch_alloc_fails o dib hp ht with e | e
        · exact ⟨_, e⟩
        · exact ⟨_, e⟩
      | true =>
        rcases h with h | h | h | h
        · exact absurd (Or.inl h) hx
        · exact absurd (Or.inr h) hx
        · simp at h
        · exact ⟨_, dispatch_unsupported o dib hp ht h⟩

/-- C13 on the bitmap `sampleDepth2` of unsupported depth 2, with and without
memory, and on `sample565` without pixels. -/
theorem ConvertTo16Bits555_null_iff_witness :
    FreeImage_ConvertTo16Bits555 ColorOrder.bgr true sampleDepth2 =
      some ⟨none, [HeapEvent.allocate true, HeapEvent.unload]⟩ ∧
    (∃ heap, FreeImage_ConvertTo16Bits555 ColorOrder.bgr false sample565 = some ⟨none, heap⟩) ∧
    FreeImage_ConvertTo16Bits555 ColorOrder.bgr true { sample565 with has_pixels := false } =
      some ⟨none, []⟩ :=
  ⟨(ConvertTo16Bits555_null_iff ColorOrder.bgr true sampleDepth2).2.2.1 rfl rfl (by decide),
    (ConvertTo16Bits555_null_iff ColorOrder.bgr false sample565).1.2 (Or.inr (Or.inr (Or.inl rfl))),
    (ConvertTo16Bits555_null_iff ColorOrder.bgr true
      { sample565 with has_pixels := false }).2.1 (Or.inl rfl)⟩

/-! ## A second conversion -/

/-- The dispatcher on a 16-bit source with pixels, of type `FIT_BITMAP`, whose masks
are not the 565 masks. -/
theorem dispatch_clone (o : ColorOrder) (alloc_ok : Bool) (dib : FIBITMAP)
    (hp : dib.has_pixels = true) (ht : dib.image_type = FREE_IMAGE_TYPE.FIT_BITMAP)
    (hb : dib.bpp = 16) (hm : has565Masks dib = false) :
    FreeImage_ConvertTo16Bits555 o alloc_ok dib =
      some ⟨FreeImage_Clone alloc_ok dib, [HeapEvent.clone alloc_ok]⟩ := by
  unfold FreeImage_ConvertTo16Bits555
  simp [FreeImage_HasPixels, FreeImage_GetImageType, FreeImage_GetBPP, hp, ht, hb, hm]

/-- The bitmap returned by a successful conversion has pixels, is of type
`FIT_BITMAP`, has depth 16 and does not have the 565 masks. -/
theorem dispatch_result_kind (o : ColorOrder) (alloc_ok : Bool) (dib : FIBITMAP) (r : Outcome)
    (d : FIBITMAP) (h : FreeImage_ConvertTo16Bits555 o alloc_ok dib = some r)
    (hd : r.result = some d) :
    d.has_pixels = true ∧ d.image_type = FREE_IMAGE_TYPE.FIT_BITMAP ∧ d.bpp = 16 ∧
      has565Masks d = false := by
  by_cases hnot : dib.bpp = 16 ∧ has565Masks dib = false
  · have hx : ¬ (dib.has_pixels = false ∨ dib.image_type ≠ FREE_IMAGE_TYPE.FIT_BITMAP) := by
      intro hx
      rw [dispatch_reject o alloc_ok dib hx] at h
      simp only [Option.some.injEq] at h
      subst h
      simp at hd
    have hp : dib.has_pixels = true := by
      cases hq : dib.has_pixels
      · exact absurd (Or.inl hq) hx
      · rfl
    have ht : dib.image_type = FREE_IMAGE_TYPE.FIT_BITMAP := by
      by_contra hq
      exact hx (Or.inr hq)
    rw [dispatch_clone o alloc_ok dib hp ht hnot.1 hnot.2] at h
    simp only [Option.some.injEq] at h
    subst h
    simp only [FreeImage_Clone] at hd
    split at hd
    · simp only [Option.some.injEq] at hd
      subst hd
      exact ⟨hp, ht, hnot.1, hnot.2⟩
    · simp at hd
  · obtain ⟨line, new_dib, d', _, _, hl, _, _, _, hpx, hty, hdd⟩ :=
      dispatch_converted o alloc_ok dib r d h hd hnot
    have hh := rowLoop_header line dib _ 0 new_dib d' hl
    have h1 : d'.has_pixels = new_dib.has_pixels := by
      have := congrArg FIBITMAP.has_pixels hh
      simpa using this
    have h2 : d'.image_type = new_dib.image_type := by
      have := congrArg FIBITMAP.image_type hh
      simpa using this
    have hk : d.has_pixels = true ∧ d.image_type = FREE_IMAGE_TYPE.FIT_BITMAP := by
      rcases hdd with rfl | rfl
      · exact ⟨h1.trans hpx, h2.trans hty⟩
      · exact ⟨h1.trans hpx, h2.trans hty⟩
    rcases ConvertTo16Bits555_success o alloc_ok dib r d h hd with
      ⟨hb, hm, _⟩ | ⟨_, h16, hr, _, _, _, _⟩
    · exact absurd ⟨hb, hm⟩ hnot
    · refine ⟨hk.1, hk.2, h16, ?_⟩
      simp [has565Masks, FreeImage_GetRedMask, hr, FI16_555_RED_MASK, FI16_565_RED_MASK]

/-- C20: the dispatcher is idempotent on its own output.  A bitmap `d` returned by a
successful conversion is a 16-bit bitmap whose masks are not the 565 masks, and
converting `d` again (with memory available) clones it: the second result is
`d` itself, with the same width, height, masks and scanlines, and the only heap
operation is the clone. -/
theorem ConvertTo16Bits555_idempotent (o : ColorOrder) (alloc_ok : Bool) (dib : FIBITMAP)
    (r : Outcome) (d : FIBITMAP) (h : FreeImage_ConvertTo16Bits555 o alloc_ok dib = some r)
    (hd : r.result = some d) :
    (d.bpp = 16 ∧
      ¬ (d.red_mask = FI16_565_RED_MASK ∧ d.green_mask = FI16_565_GREEN_MASK ∧
        d.blue_mask = FI16_565_BLUE_MASK)) ∧
    ∃ d₂, FreeImage_ConvertTo16Bits555 o true d = some ⟨some d₂, [HeapEvent.clone true]⟩ ∧
      d₂.width = d.width ∧ d₂.height = d.height ∧ d₂.red_mask = d.red_mask ∧
      d₂.green_mask = d.green_mask ∧ d₂.blue_mask = d.blue_mask ∧
      d₂.scanlines = d.scanlines ∧ d₂ = d := by
  obtain ⟨hp, ht, hb, hm⟩ := dispatch_result_kind o alloc_ok dib r d h hd
  refine ⟨⟨hb, ?_⟩, d, ?_, rfl, rfl, rfl, rfl, rfl, rfl, rfl⟩
  · rw [← has565Masks_eq_true, hm]
    simp
  · rw [dispatch_clone o true d hp ht hb hm]
    rfl

/-- C20 on the 24-bit bitmap `sample24`: its conversion `sample24Converted` converts
to itself. -/
theorem ConvertTo16Bits555_idempotent_witness :
    FreeImage_ConvertTo16Bits555 ColorOrder.bgr true sample24 =
      some ⟨some sample24Converted, [HeapEvent.allocate true]⟩ ∧
    ((sample24Converted.bpp = 16 ∧
      ¬ (sample24Converted.red_mask = FI16_565_RED_MASK ∧
        sample24Converted.green_mask = FI16_565_GREEN_MASK ∧
        sample24Converted.blue_mask = FI16_565_BLUE_MASK)) ∧
    ∃ d₂, FreeImage_ConvertTo16Bits555 ColorOrder.bgr true sample24Converted =
        some ⟨some d₂, [HeapEvent.clone true]⟩ ∧
      d₂.width = sample24Converted.width ∧ d₂.height = sample24Converted.height ∧
      d₂.red_mask = sample24Converted.red_mask ∧
      d₂.green_mask = sample24Converted.green_mask ∧
      d₂.blue_mask = sample24Converted.blue_mask ∧
      d₂.scanlines = sample24Converted.scanlines ∧ d₂ = sample24Converted) :=
  ⟨by decide, ConvertTo16Bits555_idempotent ColorOrder.bgr true sample24
    ⟨some sample24Converted, [HeapEvent.allocate true]⟩ sample24Converted (by decide) rfl⟩

end FreeImage
